import Mathlib

/-!
# QualcommCameraHardware (HTC Tattoo camera HAL): a verification development

Shallow embedding of `extras/libcamera2/QualcommCameraHardware.cpp`.

* C `int` values are `Int`; arithmetic that the hardware performs in 32 bits is
  wrapped explicitly (`wrap32`, `toU32`, `toS32`).
* The hardware object and the file-level statics form one record, `State`.
* Every call that leaves the file (ioctl, heap creation, pthread, vendor
  library) is an `Event` appended to `State.trace`; what the outside world
  answers is read from an oracle `Env`, indexed by the number of calls made so
  far (`State.tick`).
* An operation yields `Except Halt (result × State)`: `Halt.blocked` when the
  caller waits on a condition or mutex that only another thread can release,
  `Halt.fault` when a null handle is dereferenced.
-/

namespace QCam

/-! ## 32-bit machine arithmetic -/

/-- Bit pattern of a C `int` read as `unsigned` (conversion `int` to `uint32_t`). -/
def toU32 (x : Int) : Nat := (x % 2 ^ 32).toNat

/-- Value of a 32-bit pattern read as a two's-complement `int`. -/
def toS32 (n : Nat) : Int :=
  if n % 2 ^ 32 < 2 ^ 31 then ((n % 2 ^ 32 : Nat) : Int) else ((n % 2 ^ 32 : Nat) : Int) - 2 ^ 32

/-- Result of an `int` computation kept in 32 bits. -/
def wrap32 (x : Int) : Int := toS32 (toU32 x)

/-- Bitwise `&` of two `int` values. -/
def land32 (a b : Int) : Int := toS32 (toU32 a &&& toU32 b)

/-- Bitwise `~` of an `int` value (two's complement). -/
def not32 (a : Int) : Int := wrap32 (-a - 1)

/-- Bitwise `~` of a 32-bit unsigned pattern. -/
def notU32 (m : Nat) : Nat := 2 ^ 32 - 1 - m % 2 ^ 32

/-- C integer division (truncation toward zero) followed by the 32-bit wrap. -/
def cdiv (a b : Int) : Int := wrap32 (Int.tdiv a b)

/-- C `int` multiplication. -/
def cmul (a b : Int) : Int := wrap32 (a * b)

/-- C `int` addition. -/
def cadd (a b : Int) : Int := wrap32 (a + b)

/-- The function `clp2` of the source ("round to the next power of two"), on
`unsigned` values: every intermediate result is a 32-bit pattern. -/
def clp2 (x : Nat) : Nat :=
  let x := (x % 2 ^ 32 + 2 ^ 32 - 1) % 2 ^ 32
  let x := x ||| (x >>> 1)
  let x := x ||| (x >>> 2)
  let x := x ||| (x >>> 4)
  let x := x ||| (x >>> 8)
  let x := x ||| (x >>> 16)
  (x + 1) % 2 ^ 32

/-- The argument `PmemPool::PmemPool` passes to `MemoryHeapBase`:
`mAlignedSize = clp2(buffer_size * num_buffers)`, the `int` product converted
to `unsigned`. -/
def PmemPool.alignedSize (buffer_size num_buffers : Int) : Nat :=
  clp2 (toU32 (cmul buffer_size num_buffers))

/-- The size `AshmemPool::AshmemPool` passes to `MemoryHeapBase`; `pagesize` is
the value returned by `getpagesize()`. -/
def AshmemPool.ashmemSize (pagesize buffer_size num_buffers : Int) : Int :=
  let page_mask := wrap32 (pagesize - 1)
  let ashmem_size := cmul buffer_size num_buffers
  let ashmem_size := cadd ashmem_size page_mask
  land32 ashmem_size (not32 page_mask)

/-! ## Constants of the framework and of the class declaration -/

/-- Android `status_t` value `NO_ERROR`. -/
def NO_ERROR : Int := 0

/-- Android `status_t` value `UNKNOWN_ERROR` (`0x80000000` as `int32_t`). -/
def UNKNOWN_ERROR : Int := -2147483648

/-- Android `status_t` value `BAD_VALUE` (`-EINVAL`). -/
def BAD_VALUE : Int := -22

/-- The constant `NOT_FOUND` of the source. -/
def NOT_FOUND : Int := -1

def CAMERA_MSG_SHUTTER : Nat := 0x002
def CAMERA_MSG_FOCUS : Nat := 0x004
def CAMERA_MSG_PREVIEW_FRAME : Nat := 0x010
def CAMERA_MSG_VIDEO_FRAME : Nat := 0x020
def CAMERA_MSG_RAW_IMAGE : Nat := 0x080
def CAMERA_MSG_COMPRESSED_IMAGE : Nat := 0x100

/-- Modelled from the spec: the status a control command reports on success.  The
macro `CAM_CTRL_SUCCESS` is declared in the class header, which is not among the
sources; only equality with this value is ever tested. -/
def CAM_CTRL_SUCCESS : Int := 1

/-- Modelled from the spec: the number of preview buffers (`N=4` in the spec's
pool example); `kPreviewBufferCount` is declared in the class header, which is
not among the sources. -/
abbrev kPreviewBufferCount : Nat := 4

/-- Modelled from the spec: the snapshot pipeline uses one raw buffer;
`kRawBufferCount` is declared in the class header, which is not among the
sources. -/
def kRawBufferCount : Int := 1

/-- Modelled from the spec: the snapshot pipeline uses one jpeg buffer;
`kJpegBufferCount` is declared in the class header, which is not among the
sources. -/
def kJpegBufferCount : Int := 1

/-- The value `MAP_FAILED` (`(void *)-1`) that a heap reports as its base when
the mapping failed. -/
def MAP_FAILED : Int := -1

def THUMBNAIL_WIDTH : Int := 192
def THUMBNAIL_HEIGHT : Int := 144

/-- The macro `THUMBNAIL_BUFFER_SIZE`: `THUMBNAIL_WIDTH * THUMBNAIL_HEIGHT * 3/2`. -/
def THUMBNAIL_BUFFER_SIZE : Int := cdiv (cmul (cmul THUMBNAIL_WIDTH THUMBNAIL_HEIGHT) 3) 2

def DEFAULT_PREVIEW_SETTING : Nat := 1

structure preview_size_type where
  width : Int
  height : Int
  deriving DecidableEq, Repr

/-- The table `preview_sizes` of the source. -/
def preview_sizes : List preview_size_type :=
  [ { width := 384, height := 288 },   -- VIDEO
    { width := 320, height := 240 },   -- QVGA
    { width := 240, height := 160 },   -- SQVGA
    { width := 192, height := 144 } ]  -- MMS

/-! ## Data passed to the device -/

/-- Control command codes (`cam_ctrl_type`) used by the source. -/
inductive cam_ctrl_type
  | CAMERA_SET_PARM_DIMENSION
  | CAMERA_SET_PARM_EFFECT
  | CAMERA_SET_PARM_WB
  | CAMERA_SET_PARM_ANTIBANDING
  | CAMERA_SET_PARM_ZOOM
  | CAMERA_GET_PARM_MAXZOOM
  | CAMERA_START_PREVIEW
  | CAMERA_STOP_PREVIEW
  | CAMERA_START_SNAPSHOT
  | CAMERA_STOP_SNAPSHOT
  | CAMERA_EXIT
  deriving DecidableEq, Repr

/-- Buffer kinds (`msm_pmem_t`) used by the source. -/
inductive msm_pmem_t
  | MSM_PMEM_OUTPUT2
  | MSM_PMEM_THUMBNAIL
  | MSM_PMEM_MAINIMG
  | MSM_PMEM_RAW_MAINIMG
  deriving DecidableEq, Repr

/-- The fields of `cam_ctrl_dimension_t` that the source reads or writes. -/
structure cam_ctrl_dimension_t where
  picture_width : Int := 0
  picture_height : Int := 0
  display_width : Int := 0
  display_height : Int := 0
  ui_thumbnail_width : Int := 0
  ui_thumbnail_height : Int := 0
  filler7 : Int := 0
  filler8 : Int := 0
  deriving DecidableEq, Repr

/-- The fields of `msm_frame_t` that the source reads or writes. -/
structure msm_frame_t where
  fd : Int := 0
  buffer : Int := 0
  y_off : Int := 0
  cbcr_off : Int := 0
  path : Int := 0
  deriving DecidableEq, Repr

/-- The value `MSM_FRAME_ENC` stored in `msm_frame_t.path`; only stored, never
tested. -/
def MSM_FRAME_ENC : Int := 1

/-- The record `msm_pmem_info_t` handed to the (un)register ioctl. -/
structure msm_pmem_info_t where
  type : msm_pmem_t
  fd : Int
  vaddr : Int
  y_off : Int
  cbcr_off : Int
  active : Bool
  deriving DecidableEq, Repr

/-- Payload of a control command. -/
inductive CtrlValue
  | null
  | int32 (v : Int)
  | dimension (d : cam_ctrl_dimension_t)
  deriving DecidableEq, Repr

/-- Thread entry points started with `pthread_create`. -/
inductive ThreadRoutine
  | opencamerafd
  | cam_conf
  | cam_frame_click
  | snapshot_thread
  | jpeg_encoder_thread
  deriving DecidableEq, Repr

/-! ## Memory pools -/

/-- A framework heap handle (`MemoryHeapBase` / `MemoryHeapPmem`): what
`getHeapID()`, `base()` and `virtualSize()` report. -/
structure MemoryHeap where
  heapID : Int
  base : Int
  size : Int
  deriving DecidableEq, Repr

/-- A framework buffer descriptor (`MemoryBase(heap, offset, size)`). -/
structure MemoryBase where
  heap : Option MemoryHeap
  offset : Int
  size : Int
  deriving DecidableEq, Repr

/-- The members of `MemPool`.  The array `mBuffers` is a list; the empty list
stands for the null pointer it is initialised with. -/
structure MemPool where
  mBufferSize : Int
  mNumBuffers : Int
  mFrameSize : Int
  mFrameOffset : Int
  mHeap : Option MemoryHeap := none
  mBuffers : List MemoryBase := []
  mName : String := ""
  deriving DecidableEq, Repr

/-- Modelled from the spec: a pool counts as initialised when its backing region
could be created ("marks the pool uninitialized overall if the backing region
cannot be created"): the heap handle is present and its base is not
`MAP_FAILED`.  The method `initialized()` is declared in the class header, which
is not among the sources. -/
def MemPool.initialized (p : MemPool) : Bool :=
  match p.mHeap with
  | none => false
  | some h => h.base != MAP_FAILED

/-- The method `MemPool::completeInitialization`.  The constructors are called
with the counts `kPreviewBufferCount`, `kRawBufferCount`, `kJpegBufferCount` and
1; for a negative count, which no call passes and for which the `new[]` of the
source does not return, the list of descriptors is empty. -/
def MemPool.completeInitialization (p : MemPool) : MemPool :=
  if 0 < p.mFrameSize then
    { p with
      mBuffers := (List.range p.mNumBuffers.toNat).map fun (i : Nat) =>
        { heap := p.mHeap
          offset := cadd (cmul (i : Int) p.mBufferSize) p.mFrameOffset
          size := p.mFrameSize } }
  else p

/-- The class `AshmemPool`: a `MemPool` without further members. -/
structure AshmemPool extends MemPool
  deriving DecidableEq, Repr

/-- The class `PmemPool`: a `MemPool` with the device registration data. -/
structure PmemPool extends MemPool where
  mPmemType : msm_pmem_t
  mCameraControlFd : Int
  mAlignedSize : Nat
  mFd : Int := 0
  mSize : Int := 0
  deriving DecidableEq, Repr

/-- The class `PreviewPmemPool`: a `PmemPool` whose constructor fixes the buffer
kind to `MSM_PMEM_OUTPUT2`. -/
def PreviewPmemPool : Type := { p : PmemPool // p.mPmemType = msm_pmem_t.MSM_PMEM_OUTPUT2 }

/-! ## Calls that leave the file -/

/-- The record `camera_position_type` handed to `writeExif`.  A `double` is
represented by the integer the scanner reports for it; the file only stores and
passes these two fields on. -/
structure camera_position_type where
  timestamp : Int := 0
  altitude : Int := 0
  latitude : Int := 0
  longitude : Int := 0
  deriving DecidableEq, Repr

/-- One externally visible action of the driver. -/
inductive Event
  | ioctl_ctrl_command (fd : Int) (type : cam_ctrl_type) (value : CtrlValue)
  | ioctl_get_picture (fd : Int)
  | ioctl_register_pmem (fd : Int) (info : msm_pmem_info_t)
  | ioctl_unregister_pmem (fd : Int) (info : msm_pmem_info_t)
  | ioctl_pmem_get_size (fd : Int)
  | new_MemoryHeapPmem (device : String) (size : Nat)
  | new_MemoryHeapBase (size : Int)
  | pthread_create (start : ThreadRoutine)
  | pthread_kill (thread : ThreadRoutine)
  | jpeg_encoder_init
  | jpeg_encoder_setMainImageQuality (quality : Int)
  | cam_release_frame
  | usleep (usec : Nat)
  | notifyCb (msgType : Nat) (ext1 ext2 : Int)
  | dataCb (msgType : Nat) (mem : MemoryBase)
  | dataCbTimestamp (msgType : Nat) (mem : MemoryBase)
  | time
  | yuv420_save2jpeg (dest src width height quality : Int)
  | writeExif (dest src size rotation : Int) (pt : Option camera_position_type)
  | memcpy (dest : Int) (n : Nat)
  deriving DecidableEq, Repr

/-- What the outside world answers to one call: the return value, the `status`
field a control command writes back, and the value written through an out
pointer (mapped base address, maximum zoom, region length). -/
structure Reply where
  rc : Int := 0
  status : Int := 0
  value : Int := 0
  deriving DecidableEq, Repr

/-- The outside world: the answer to the `n`-th call made, and the page size
reported by `getpagesize()`. -/
structure Env where
  reply : Nat → Reply
  pagesize : Int := 4096
  /-- Result of `sscanf(str, "%ld", &x)`: the number read when one item is
  converted. -/
  sscanf_ld : String → Option Int := fun _ => none
  /-- Result of `sscanf(str, "%hd", &x)`. -/
  sscanf_hd : String → Option Int := fun _ => none
  /-- Result of `sscanf(str, "%lf", &x)`. -/
  sscanf_lf : String → Option Int := fun _ => none

/-- The framework class `CameraParameters` (not part of this repository), as the
results of the accessors the source calls. -/
structure CameraParameters where
  get : String → Option String := fun _ => none
  getInt : String → Int := fun _ => -1
  getPreviewSize : Int × Int := (-1, -1)
  getPictureSize : Int × Int := (-1, -1)

/-! ## The hardware object -/

/-- The members of `QualcommCameraHardware` and the file-level statics the
operations use (`ZOOM_STEP`, `maxZoom`, `mJpegThreadRunning`, the four
`_values` strings, null until they are built), followed by the record of the
calls made so far.  Initial values are those of the constructor;
a member the constructor leaves unset starts at zero.  The client callbacks are
not stored: invoking one is an `Event`.  Members that no operation reads back
(`mCrop`, thread and library handles) are left out.  `mPreviewFrameSize` and
`mJpegSize` hold the `int` value assigned to them.  The mutex
`mSnapshotThreadWaitLock` is the only lock the source takes and releases by hand
on separate paths; it is a flag that is set while the lock is held.  The other
mutexes are scoped or taken and released in pairs. -/
structure State where
  mParameters : CameraParameters := {}
  mPreviewHeight : Int := -1
  mPreviewWidth : Int := -1
  mRawHeight : Int := -1
  mRawWidth : Int := -1
  mCameraRunning : Bool := false
  mPreviewInitialized : Bool := false
  mRawInitialized : Bool := false
  mFrameThreadRunning : Bool := false
  mSnapshotThreadRunning : Bool := false
  mReleasedRecordingFrame : Bool := false
  mMsgEnabled : Nat := 0
  mPreviewFrameSize : Int := 0
  mRawSize : Int := 0
  mJpegSize : Int := 0
  mJpegMaxSize : Int := 0
  mCameraControlFd : Int := -1
  mInPreviewCallback : Bool := false
  mCameraRecording : Bool := false
  mShutterPending : Bool := false
  mEffect : Int := 0
  mWhiteBalance : Int := 0
  mDimension : cam_ctrl_dimension_t := {}
  frames : Fin kPreviewBufferCount → msm_frame_t := fun _ => {}
  mPreviewHeap : Option PreviewPmemPool := none
  mRawHeap : Option PmemPool := none
  mThumbnailHeap : Option PmemPool := none
  mJpegHeap : Option AshmemPool := none
  ZOOM_STEP : Int := 0
  maxZoom : Int := -1
  mJpegThreadRunning : Bool := false
  mSnapshotThreadWaitLock : Bool := false
  antibanding_values : Option String := none
  effect_values : Option String := none
  whitebalance_values : Option String := none
  picturesize_values : Option String := none
  trace : List Event := []
  tick : Nat := 0

/-- Why an operation does not return. -/
inductive Halt
  | blocked
  | fault
  deriving DecidableEq, Repr

/-- An operation on the hardware object: it returns a result and the next state,
or it does not return. -/
abbrev M (α : Type) : Type := State → Except Halt (α × State)

/-- Sequencing of operations. -/
def M.bind {α β : Type} (m : M α) (f : α → M β) : M β := fun s =>
  match m s with
  | .ok (a, s1) => f a s1
  | .error e => .error e

/-- The operation that returns `a` and leaves the state alone. -/
def M.pure {α : Type} (a : α) : M α := fun s => .ok (a, s)

instance : Monad M where
  pure := M.pure
  bind := M.bind

/-- The current state. -/
def getS : M State := fun s => .ok (s, s)

/-- A state update. -/
def modifyS (f : State → State) : M Unit := fun s => .ok ((), f s)

/-- The operation that does not return. -/
def halt {α : Type} (h : Halt) : M α := fun _ => .error h

/-- A call that leaves the file: it is recorded and answered by the oracle. -/
def call (env : Env) (e : Event) : M Reply := fun s =>
  .ok (env.reply s.tick, { s with trace := s.trace ++ [e], tick := s.tick + 1 })

/-- A call into the client (callback) or a delay: it is recorded. -/
def emit (e : Event) : M Unit := fun s =>
  .ok ((), { s with trace := s.trace ++ [e] })

/-- A loop body run once for each element of a list, in order. -/
def forEach {α : Type} : List α → (α → M Unit) → M Unit
  | [], _ => M.pure ()
  | a :: rest, f => M.bind (f a) fun _ => forEach rest f

/-- The result an operation returned, if it returned. -/
def retval {α : Type} (r : Except Halt (α × State)) : Option α :=
  match r with
  | .ok (a, _) => some a
  | .error _ => none

/-- The state an operation left, if it returned. -/
def poststate {α : Type} (r : Except Halt (α × State)) : Option State :=
  match r with
  | .ok (_, s) => some s
  | .error _ => none

/-- Why an operation did not return, if it did not. -/
def haltOf {α : Type} (r : Except Halt (α × State)) : Option Halt :=
  match r with
  | .ok _ => none
  | .error h => some h

/-- Test of a message bit: `mMsgEnabled & msgType` is non-zero. -/
def State.msgEnabled (s : State) (msgType : Nat) : Bool :=
  s.mMsgEnabled &&& msgType != 0

/-- The method `enableMsgType`.  A mask is the 32-bit pattern of the `int32_t`
the source holds. -/
def enableMsgType (msgType : Nat) : M Unit :=
  modifyS fun s => { s with mMsgEnabled := s.mMsgEnabled ||| msgType }

/-- The method `disableMsgType`. -/
def disableMsgType (msgType : Nat) : M Unit :=
  modifyS fun s => { s with mMsgEnabled := s.mMsgEnabled &&& notU32 msgType }

/-- The method `msgTypeEnabled`: the `int` value `mMsgEnabled & msgType`
converted to `bool`. -/
def msgTypeEnabled (msgType : Nat) : M Bool := do
  let s ← getS
  pure (s.mMsgEnabled &&& msgType != 0)

/-! ## Device control commands -/

/-- The function `native_start_preview`. -/
def native_start_preview (env : Env) (camfd : Int) : M Bool := do
  let r ← call env (.ioctl_ctrl_command camfd .CAMERA_START_PREVIEW .null)
  if r.rc < 0 then pure false else pure true

/-- The function `native_stop_preview`. -/
def native_stop_preview (env : Env) (camfd : Int) : M Bool := do
  let r ← call env (.ioctl_ctrl_command camfd .CAMERA_STOP_PREVIEW .null)
  if r.rc < 0 then pure false else pure true

/-- The function `native_start_snapshot`. -/
def native_start_snapshot (env : Env) (camfd : Int) : M Bool := do
  let r ← call env (.ioctl_ctrl_command camfd .CAMERA_START_SNAPSHOT .null)
  if r.rc < 0 then pure false else pure true

/-- The function `native_stop_snapshot`. -/
def native_stop_snapshot (env : Env) (camfd : Int) : M Bool := do
  let r ← call env (.ioctl_ctrl_command camfd .CAMERA_STOP_SNAPSHOT .null)
  if r.rc < 0 then pure false else pure true

/-- The function `native_get_maxzoom`: on success the device's answer is stored
in the static `maxZoom`, the only place it is called for. -/
def native_get_maxzoom (env : Env) (camfd : Int) : M Bool := do
  let r ← call env (.ioctl_ctrl_command camfd .CAMERA_GET_PARM_MAXZOOM .null)
  if r.rc < 0 then pure false
  else do
    modifyS fun s => { s with maxZoom := wrap32 r.value }
    pure true

/-- The function `native_get_picture`. -/
def native_get_picture (env : Env) (camfd : Int) : M Bool := do
  let r ← call env (.ioctl_get_picture camfd)
  if r.rc < 0 then pure false else pure true

/-- The method `native_set_parm`. -/
def native_set_parm (env : Env) (type : cam_ctrl_type) (value : CtrlValue) : M Bool := do
  let s ← getS
  let r ← call env (.ioctl_ctrl_command s.mCameraControlFd type value)
  if r.rc < 0 ∨ r.status ≠ CAM_CTRL_SUCCESS then pure false else pure true

/-- The method `native_set_dimension`, applied to `mDimension`. -/
def native_set_dimension (env : Env) : M Bool := do
  let s ← getS
  native_set_parm env .CAMERA_SET_PARM_DIMENSION (.dimension s.mDimension)

/-- The record `pmemBuf` that `reg_unreg_buf` fills in from a frame. -/
def reg_unreg_pmemBuf (frame : msm_frame_t) (pmem_type : msm_pmem_t) (active : Bool) :
    msm_pmem_info_t :=
  { type := pmem_type
    fd := frame.fd
    vaddr := frame.buffer
    y_off := land32 (cadd frame.y_off 3) (not32 3)
    cbcr_off := land32 (cadd frame.cbcr_off 3) (not32 3)
    active := active }

/-- The method `reg_unreg_buf`. -/
def reg_unreg_buf (env : Env) (camfd : Int) (frame : msm_frame_t) (pmem_type : msm_pmem_t)
    (unregister active : Bool) : M Bool := do
  let pmemBuf := reg_unreg_pmemBuf frame pmem_type active
  let r ← call env
    (if unregister then .ioctl_unregister_pmem camfd pmemBuf
     else .ioctl_register_pmem camfd pmemBuf)
  if r.rc < 0 then pure false else pure true

/-- The method `native_register_preview_bufs`. -/
def native_register_preview_bufs (env : Env) (camfd : Int) (frame : msm_frame_t)
    (active : Bool) : M Unit := do
  let _ ← reg_unreg_buf env camfd frame .MSM_PMEM_OUTPUT2 false active
  pure ()

/-- The method `native_unregister_preview_bufs`. -/
def native_unregister_preview_bufs (env : Env) (camfd : Int) (frame : msm_frame_t) :
    M Unit := do
  let _ ← reg_unreg_buf env camfd frame .MSM_PMEM_OUTPUT2 true true
  pure ()

/-- The function `register_buf`. -/
def register_buf (env : Env) (camfd size pmempreviewfd : Int) (buf : Int)
    (pmem_type : msm_pmem_t) (active : Bool) (register_buffer : Bool) : M Bool := do
  let pmemBuf : msm_pmem_info_t :=
    { type := pmem_type
      fd := pmempreviewfd
      vaddr := buf
      y_off := 0
      cbcr_off :=
        if pmem_type = .MSM_PMEM_RAW_MAINIMG then 0
        else land32 (cadd (cdiv (cmul size 2) 3) 1) (not32 1)
      active := active }
  let r ← call env
    (if register_buffer then .ioctl_register_pmem camfd pmemBuf
     else .ioctl_unregister_pmem camfd pmemBuf)
  if r.rc < 0 then pure false else pure true

/-! ## Pool construction and destruction -/

/-- The constructor `AshmemPool::AshmemPool`.  The framework always returns a
heap object; a failed mapping shows as a base of `MAP_FAILED`. -/
def AshmemPool.new (env : Env) (buffer_size num_buffers frame_size frame_offset : Int)
    (name : String) : M AshmemPool := do
  let ashmem_size := AshmemPool.ashmemSize env.pagesize buffer_size num_buffers
  let r ← call env (.new_MemoryHeapBase ashmem_size)
  let pool : MemPool :=
    { mBufferSize := buffer_size
      mNumBuffers := num_buffers
      mFrameSize := frame_size
      mFrameOffset := frame_offset
      mName := name
      mHeap := some { heapID := r.rc, base := r.value, size := ashmem_size } }
  pure { toMemPool := pool.completeInitialization }

/-- The constructor `PmemPool::PmemPool`.  Creating the master heap and the pmem
heap on top of it is one call; its return value is what `getHeapID()` reports
and its out value what `base()` reports. -/
def PmemPool.new (env : Env) (pmem_pool : String) (camera_control_fd : Int)
    (pmem_type : msm_pmem_t) (buffer_size num_buffers frame_size frame_offset : Int)
    (name : String) : M PmemPool := do
  let p0 : PmemPool :=
    { mBufferSize := buffer_size
      mNumBuffers := num_buffers
      mFrameSize := frame_size
      mFrameOffset := frame_offset
      mName := name
      mPmemType := pmem_type
      mCameraControlFd := camera_control_fd
      mAlignedSize := PmemPool.alignedSize buffer_size num_buffers }
  let r ← call env (.new_MemoryHeapPmem pmem_pool p0.mAlignedSize)
  if 0 ≤ r.rc then do
    let heap : MemoryHeap := { heapID := r.rc, base := r.value, size := p0.mAlignedSize }
    let g ← call env (.ioctl_pmem_get_size heap.heapID)
    if g.rc ≠ 0 then
      -- mHeap.clear(); return;
      pure { p0 with mFd := heap.heapID }
    else do
      if pmem_type ≠ .MSM_PMEM_OUTPUT2 then
        forEach (List.range num_buffers.toNat) fun cnt => do
          let _ ← register_buf env camera_control_fd buffer_size heap.heapID
            (heap.base + cmul buffer_size cnt) pmem_type true true
          pure ()
      let p1 : PmemPool := { p0 with mHeap := some heap, mFd := heap.heapID, mSize := g.value }
      pure { p1 with toMemPool := p1.toMemPool.completeInitialization }
  else
    pure { p0 with toMemPool := p0.toMemPool.completeInitialization }

/-- The destructor `PmemPool::~PmemPool` followed by `MemPool::~MemPool`.  The
unregister loop reads `mHeap->getHeapID()`; with a null `mHeap` that is a null
dereference. -/
def PmemPool.destroy (env : Env) (p : PmemPool) : M Unit :=
  if p.mPmemType ≠ .MSM_PMEM_OUTPUT2 then
    forEach (List.range p.mNumBuffers.toNat) fun cnt =>
      match p.mHeap with
      | none => halt .fault
      | some heap => do
        let _ ← register_buf env p.mCameraControlFd p.mBufferSize heap.heapID
          (heap.base + cmul p.mBufferSize cnt) p.mPmemType true false
        pure ()
  else pure ()

/-- The constructor `PreviewPmemPool::PreviewPmemPool`. -/
def PreviewPmemPool.new (env : Env) (control_fd buffer_size num_buffers frame_size
    frame_offset : Int) (name : String) : M PreviewPmemPool := do
  let p ← PmemPool.new env "/dev/pmem_adsp" control_fd .MSM_PMEM_OUTPUT2 buffer_size
    num_buffers frame_size frame_offset name
  pure ⟨{ p with mPmemType := .MSM_PMEM_OUTPUT2 }, rfl⟩

/-- The destructor `PreviewPmemPool::~PreviewPmemPool` followed by those of its
base classes. -/
def PreviewPmemPool.destroy (env : Env) (p : PreviewPmemPool) : M Unit :=
  PmemPool.destroy env p.val

/-- The destructor of an optional pool: releasing the last reference held by a
strong pointer. -/
def releasePmem (env : Env) (h : Option PmemPool) : M Unit :=
  match h with
  | none => pure ()
  | some p => p.destroy env

/-- The statement `mPreviewHeap.clear()`. -/
def clearPreviewHeap (env : Env) : M Unit := do
  let s ← getS
  match s.mPreviewHeap with
  | none => pure ()
  | some p => do
    p.destroy env
    modifyS fun s => { s with mPreviewHeap := none }

/-- The statement `mPreviewHeap = new PreviewPmemPool(...)`, after the object
has been constructed: the old pool loses its reference. -/
def assignPreviewHeap (env : Env) (p : PreviewPmemPool) : M Unit := do
  let s ← getS
  match s.mPreviewHeap with
  | none => pure ()
  | some old => old.destroy env
  modifyS fun s => { s with mPreviewHeap := some p }

/-- The statement `mRawHeap.clear()`. -/
def clearRawHeap (env : Env) : M Unit := do
  let s ← getS
  releasePmem env s.mRawHeap
  modifyS fun s => { s with mRawHeap := none }

/-- The statement `mRawHeap = new PmemPool(...)`, after the object has been
constructed. -/
def assignRawHeap (env : Env) (p : PmemPool) : M Unit := do
  let s ← getS
  releasePmem env s.mRawHeap
  modifyS fun s => { s with mRawHeap := some p }

/-- The statement `mThumbnailHeap.clear()`. -/
def clearThumbnailHeap (env : Env) : M Unit := do
  let s ← getS
  releasePmem env s.mThumbnailHeap
  modifyS fun s => { s with mThumbnailHeap := none }

/-- The statement `mThumbnailHeap = new PmemPool(...)`, after the object has
been constructed. -/
def assignThumbnailHeap (env : Env) (p : PmemPool) : M Unit := do
  let s ← getS
  releasePmem env s.mThumbnailHeap
  modifyS fun s => { s with mThumbnailHeap := some p }

/-- The statement `mJpegHeap.clear()`; destroying an `AshmemPool` makes no call
to the device. -/
def clearJpegHeap : M Unit :=
  modifyS fun s => { s with mJpegHeap := none }

/-! ## Preview -/

/-- The mutex operation `mSnapshotThreadWaitLock.lock()`. -/
def lockSnapshotThreadWaitLock : M Unit := fun s =>
  if s.mSnapshotThreadWaitLock then .error .blocked
  else .ok ((), { s with mSnapshotThreadWaitLock := true })

/-- The mutex operation `mSnapshotThreadWaitLock.unlock()`. -/
def unlockSnapshotThreadWaitLock : M Unit :=
  modifyS fun s => { s with mSnapshotThreadWaitLock := false }

/-- The loop `while (flag) condition.wait(lock)`: with the flag set the caller
sleeps until another thread clears it. -/
def waitWhile (flag : State → Bool) : M Unit := fun s =>
  if flag s then .error .blocked else .ok ((), s)

/-- The body of the registration loop of `initPreview`, from iteration `cnt` on.
The result is `false` when the loop leaves the function through its
`return false`. -/
def initPreviewFrames (env : Env) : List (Fin kPreviewBufferCount) → M Bool
  | [] => M.pure true
  | cnt :: rest => M.bind getS fun s =>
    match s.mPreviewHeap with
    | none => halt .fault
    | some pool =>
      match pool.val.mHeap with
      | none => halt .fault
      | some heap =>
        let frame : msm_frame_t :=
          { s.frames cnt with
            fd := heap.heapID
            buffer := (toU32 heap.base : Int)
            y_off := 0
            cbcr_off := cmul s.mPreviewWidth s.mPreviewHeight }
        if frame.buffer = 0 then
          M.bind (modifyS fun s => { s with frames := Function.update s.frames cnt frame })
            fun _ => M.pure false
        else
          let frame : msm_frame_t := { frame with path := MSM_FRAME_ENC }
          let activeBuffer : Bool := cnt.val != kPreviewBufferCount - 1
          M.bind (modifyS fun s => { s with frames := Function.update s.frames cnt frame })
            fun _ =>
          M.bind (native_register_preview_bufs env s.mCameraControlFd frame activeBuffer)
            fun _ =>
          M.bind
            (if cnt.val = kPreviewBufferCount - 1 then
              M.bind (call env (.pthread_create .cam_frame_click)) fun r =>
                modifyS fun s => { s with mFrameThreadRunning := decide (r.rc = 0) }
            else M.pure ())
            fun _ => initPreviewFrames env rest

/-- The method `initPreview`. -/
def initPreview (env : Env) : M Bool := do
  -- mFrameThreadWaitLock: while (mFrameThreadRunning) wait
  waitWhile fun s => s.mFrameThreadRunning
  lockSnapshotThreadWaitLock
  waitWhile fun s => s.mSnapshotThreadRunning
  unlockSnapshotThreadWaitLock
  modifyS fun s =>
    { s with mPreviewFrameSize := cdiv (cmul (cmul s.mPreviewWidth s.mPreviewHeight) 3) 2 }
  let s ← getS
  let pool ← PreviewPmemPool.new env s.mCameraControlFd
    (cmul (cmul s.mPreviewWidth s.mPreviewHeight) 2) kPreviewBufferCount
    s.mPreviewFrameSize 0 "preview"
  assignPreviewHeap env pool
  if !pool.val.initialized then do
    clearPreviewHeap env
    pure false
  else do
    let ok ← native_set_dimension env
    let completed ← if ok then initPreviewFrames env (List.finRange kPreviewBufferCount)
      else pure true
    if !completed then pure false
    else do
      let s ← getS
      pure s.mFrameThreadRunning

/-- The method `deinitPreview`. -/
def deinitPreview (env : Env) : M Unit := do
  let s ← getS
  if s.mFrameThreadRunning then do
    let r ← call env (.pthread_kill .cam_frame_click)
    if r.rc = 0 then modifyS fun s => { s with mFrameThreadRunning := false }
  let s ← getS
  forEach (List.finRange kPreviewBufferCount) fun cnt =>
    native_unregister_preview_bufs env s.mCameraControlFd (s.frames cnt)
  clearPreviewHeap env

/-- The method `startPreviewInternal`. -/
def startPreviewInternal (env : Env) : M Int := do
  let s ← getS
  if s.mCameraRunning then pure NO_ERROR
  else do
    let ready ← if !s.mPreviewInitialized then do
        let b ← initPreview env
        modifyS fun s => { s with mPreviewInitialized := b }
        pure b
      else pure true
    if !ready then pure UNKNOWN_ERROR
    else do
      let s ← getS
      let running ← native_start_preview env s.mCameraControlFd
      modifyS fun s => { s with mCameraRunning := running }
      if !running then do
        deinitPreview env
        modifyS fun s => { s with mPreviewInitialized := false }
        pure UNKNOWN_ERROR
      else pure NO_ERROR

/-- The method `startPreview`. -/
def startPreview (env : Env) : M Int := startPreviewInternal env

/-- The method `stopPreviewInternal`. -/
def stopPreviewInternal (env : Env) : M Unit := do
  let s ← getS
  if s.mCameraRunning then do
    let stopped ← native_stop_preview env s.mCameraControlFd
    modifyS fun s => { s with mCameraRunning := !stopped }
    let s ← getS
    if !s.mCameraRunning && s.mPreviewInitialized then do
      deinitPreview env
      modifyS fun s => { s with mPreviewInitialized := false }

/-- The index `receivePreviewFrame` computes for a frame: the distance of the
frame address from the heap base, divided by `mPreviewFrameSize`. -/
def previewFrameIndex (mPreviewFrameSize buffer base : Int) : Int :=
  cdiv (wrap32 (buffer - base)) mPreviewFrameSize

/-- The element `mBuffers[offset]` of a pool; an index outside the array is a
fault. -/
def MemPool.bufferAt (p : MemPool) (offset : Int) : M MemoryBase :=
  if offset < 0 then halt .fault
  else
    match p.mBuffers[offset.toNat]? with
    | none => halt .fault
    | some buffer => pure buffer

/-- The method `receivePreviewFrame`.  The wait on `mRecordWait` needs another
thread to signal it.  The time stamp handed to the client is not recorded. -/
def receivePreviewFrame (env : Env) (frame : msm_frame_t) : M Unit := do
  let s ← getS
  if !s.mCameraRunning then pure ()
  else
    match s.mPreviewHeap with
    | none => halt .fault
    | some pool =>
      match pool.val.mHeap with
      | none => halt .fault
      | some heap =>
        if s.mPreviewFrameSize = 0 then halt .fault
        else do
          let offset := previewFrameIndex s.mPreviewFrameSize frame.buffer heap.base
          modifyS fun s => { s with mInPreviewCallback := true }
          if s.msgEnabled CAMERA_MSG_PREVIEW_FRAME then do
            let buffer ← pool.val.toMemPool.bufferAt offset
            emit (.dataCb CAMERA_MSG_PREVIEW_FRAME buffer)
          if s.msgEnabled CAMERA_MSG_VIDEO_FRAME then do
            let buffer ← pool.val.toMemPool.bufferAt offset
            emit (.dataCbTimestamp CAMERA_MSG_VIDEO_FRAME buffer)
            let s ← getS
            if s.mReleasedRecordingFrame != true then do
              let _ ← call env .cam_release_frame
              halt .blocked
            modifyS fun s => { s with mReleasedRecordingFrame := false }
          modifyS fun s => { s with mInPreviewCallback := false }

/-- The method `releaseRecordingFrame`.  The signal on `mRecordWait` wakes a
thread that waits on it and changes no member. -/
def releaseRecordingFrame (env : Env) : M Unit := do
  let _ ← call env .cam_release_frame
  modifyS fun s => { s with mReleasedRecordingFrame := true }

/-! ## Snapshot -/

/-- The method `deinitRaw`. -/
def deinitRaw (env : Env) : M Unit := do
  clearThumbnailHeap env
  clearJpegHeap
  clearRawHeap env
  modifyS fun s => { s with mRawInitialized := false }

/-- The tail of `initRaw`, from the comment `// Jpeg` on. -/
def initRawJpeg (env : Env) (initJpegHeap : Bool) : M Bool := do
  if initJpegHeap then do
    let s ← getS
    let jpeg ← AshmemPool.new env s.mJpegMaxSize kJpegBufferCount 0 0 "jpeg"
    modifyS fun s => { s with mJpegHeap := some jpeg }
    if !jpeg.initialized then do
      clearJpegHeap
      clearRawHeap env
      pure false
    else do
      modifyS fun s => { s with mRawInitialized := true }
      pure true
  else do
    modifyS fun s => { s with mRawInitialized := true }
    pure true

/-- The method `initRaw`. -/
def initRaw (env : Env) (initJpegHeap : Bool) : M Bool := do
  modifyS fun s =>
    { s with
      mDimension :=
        { s.mDimension with picture_width := s.mRawWidth, picture_height := s.mRawHeight }
      mRawSize := cdiv (cmul (cmul s.mRawWidth s.mRawHeight) 3) 2
      mJpegMaxSize := cdiv (cmul (cmul s.mRawWidth s.mRawHeight) 3) 2 }
  let ok ← native_set_dimension env
  if !ok then pure false
  else do
    -- if (mJpegHeap != NULL) mJpegHeap.clear();
    clearJpegHeap
    let s ← getS
    let thumb ← PmemPool.new env "/dev/pmem_adsp" s.mCameraControlFd .MSM_PMEM_THUMBNAIL
      THUMBNAIL_BUFFER_SIZE 1 THUMBNAIL_BUFFER_SIZE 0 "thumbnail camera"
    assignThumbnailHeap env thumb
    if !thumb.initialized then do
      clearThumbnailHeap env
      clearRawHeap env
      pure false
    else do
      let s ← getS
      let raw ← PmemPool.new env "/dev/pmem_camera" s.mCameraControlFd .MSM_PMEM_MAINIMG
        s.mJpegMaxSize kRawBufferCount s.mRawSize 0 "snapshot camera"
      assignRawHeap env raw
      if !raw.initialized then do
        let raw ← PmemPool.new env "/dev/pmem_adsp" s.mCameraControlFd .MSM_PMEM_MAINIMG
          s.mJpegMaxSize kRawBufferCount s.mRawSize 0 "snapshot camera"
        assignRawHeap env raw
        if !raw.initialized then do
          clearRawHeap env
          pure false
        else initRawJpeg env initJpegHeap
      else initRawJpeg env initJpegHeap

/-- The method `notifyShutter`. -/
def notifyShutter : M Unit := do
  let s ← getS
  if s.mShutterPending && s.msgEnabled CAMERA_MSG_SHUTTER then do
    emit (.notifyCb CAMERA_MSG_SHUTTER 0 0)
    modifyS fun s => { s with mShutterPending := false }

/-- The method `native_jpeg_encode`. -/
def native_jpeg_encode (env : Env) : M Bool := do
  let s ← getS
  let jpeg_quality := s.mParameters.getInt "jpeg-quality"
  let qualitySet ← if 0 ≤ jpeg_quality then do
      let r ← call env (.jpeg_encoder_setMainImageQuality jpeg_quality)
      pure (decide (r.rc ≠ 0))
    else pure true
  if !qualitySet then pure false
  else do
    modifyS fun s =>
      { s with mDimension := { s.mDimension with filler7 := 2560, filler8 := 1920 } }
    let r ← call env (.pthread_create .jpeg_encoder_thread)
    if r.rc = 0 then modifyS fun s => { s with mJpegThreadRunning := true }
    pure true

/-- The method `receiveJpegPictureFragment`.  The locals `remaining` and
`buff_size` are `uint32_t`; the copy is recorded with its destination address
and its length. -/
def receiveJpegPictureFragment (buff_size : Nat) : M Unit := do
  let s ← getS
  match s.mJpegHeap with
  | none => halt .fault
  | some jpeg =>
    match jpeg.mHeap with
    | none => halt .fault
    | some heap => do
      let remaining := toU32 (heap.size - s.mJpegSize)
      let buff_size := if buff_size % 2 ^ 32 > remaining then remaining else buff_size % 2 ^ 32
      emit (.memcpy (heap.base + s.mJpegSize) buff_size)
      modifyS fun s => { s with mJpegSize := wrap32 (s.mJpegSize + buff_size) }

/-- The method `receiveJpegPicture`.  Its first statements print
`mJpegHeap->mBufferSize` and `mJpegHeap->mFrameOffset`, so it needs the jpeg
pool to exist. -/
def receiveJpegPicture (env : Env) : M Unit := do
  let s ← getS
  match s.mJpegHeap with
  | none => halt .fault
  | some jpeg => do
    if s.msgEnabled CAMERA_MSG_COMPRESSED_IMAGE then
      emit (.dataCb CAMERA_MSG_COMPRESSED_IMAGE
        { heap := jpeg.mHeap
          offset := cadd (cmul 0 jpeg.mBufferSize) jpeg.mFrameOffset
          size := s.mJpegSize })
    let s ← getS
    if s.mRawInitialized then deinitRaw env

/-- The macro `PARSE_LOCATION` of `runJpegEncodeThread` for the parameter `key`:
the value stored in the position record, and whether the location may still be
encoded. -/
def PARSE_LOCATION (s : State) (key : String) (scan : String → Option Int) : Int × Bool :=
  match s.mParameters.get key with
  | some str =>
    match scan str with
    | some what => (what, true)
    | none => (0, false)
  | none => (0, false)

/-- The method `runJpegEncodeThread`.  The converter `yuv420_save2jpeg` and
`writeExif` are calls that leave the file: the converter answers non-zero when
it succeeded, and each reports the size it stored through `&mJpegSize` (the
converter only when it succeeded). -/
def runJpegEncodeThread (env : Env) : M Unit := do
  let s ← getS
  let rotation := s.mParameters.getInt "rotation"
  let (timestamp, ok1) := PARSE_LOCATION s "gps-timestamp" env.sscanf_ld
  let timestamp ← if timestamp = 0 then do
      let r ← call env .time
      pure r.value
    else pure timestamp
  let (altitude, ok2) := PARSE_LOCATION s "gps-altitude" env.sscanf_hd
  let (latitude, ok3) := PARSE_LOCATION s "gps-latitude" env.sscanf_lf
  let (longitude, ok4) := PARSE_LOCATION s "gps-longitude" env.sscanf_lf
  let encode_location := ok1 && ok2 && ok3 && ok4
  let pt : camera_position_type :=
    { timestamp := timestamp, altitude := altitude, latitude := latitude,
      longitude := longitude }
  let npt := if encode_location then some pt else none
  let jpeg_quality := s.mParameters.getInt "jpeg-quality"
  match s.mJpegHeap with
  | none => halt .fault
  | some jpeg =>
    match jpeg.mHeap with
    | none => halt .fault
    | some jpegHeap =>
      match s.mRawHeap with
      | none => halt .fault
      | some raw =>
        match raw.mHeap with
        | none => halt .fault
        | some rawHeap => do
          let r ← call env (.yuv420_save2jpeg jpegHeap.base rawHeap.base s.mRawWidth
            s.mRawHeight jpeg_quality)
          if r.rc ≠ 0 then modifyS fun s => { s with mJpegSize := r.value }
          let s ← getS
          let w ← call env (.writeExif jpegHeap.base jpegHeap.base s.mJpegSize rotation npt)
          modifyS fun s => { s with mJpegSize := w.value }
          receiveJpegPicture env

/-- The method `receiveRawPicture`. -/
def receiveRawPicture (env : Env) : M Unit := do
  notifyShutter
  let s ← getS
  let goOn ← if s.msgEnabled CAMERA_MSG_RAW_IMAGE then do
      let got ← native_get_picture env s.mCameraControlFd
      if !got then pure false
      else
        match s.mRawHeap with
        | none => halt .fault
        | some raw =>
          match raw.mBuffers[0]? with
          | none => halt .fault
          | some buffer => do
            emit (.dataCb CAMERA_MSG_RAW_IMAGE buffer)
            pure true
    else pure true
  if !goOn then pure ()
  else do
    let s ← getS
    let encoding ← if s.msgEnabled CAMERA_MSG_COMPRESSED_IMAGE then do
        modifyS fun s =>
          { s with mJpegSize := cdiv (cmul (cmul s.mRawWidth s.mRawHeight) 3) 2 }
        let r ← call env .jpeg_encoder_init
        if r.rc ≠ 0 then native_jpeg_encode env else pure false
      else pure false
    if encoding then pure ()
    else do
      let s ← getS
      if s.mRawInitialized then deinitRaw env

/-- The method `runSnapshotThread`. -/
def runSnapshotThread (env : Env) : M Unit := do
  let s ← getS
  let started ← native_start_snapshot env s.mCameraControlFd
  if started then receiveRawPicture env
  lockSnapshotThreadWaitLock
  modifyS fun s => { s with mSnapshotThreadRunning := false }
  unlockSnapshotThreadWaitLock

/-- The statements of `takePicture` before the call of `initRaw`: take the
serialization lock, wait for an old snapshot thread, stop a running preview. -/
def takePictureEntry (env : Env) : M Unit := do
  lockSnapshotThreadWaitLock
  waitWhile fun s => s.mSnapshotThreadRunning
  let s ← getS
  if s.mCameraRunning then stopPreviewInternal env

/-- The method `takePicture`. -/
def takePicture (env : Env) : M Int := do
  takePictureEntry env
  let s ← getS
  let ok ← initRaw env (s.msgEnabled CAMERA_MSG_COMPRESSED_IMAGE)
  if !ok then pure UNKNOWN_ERROR
  else do
    modifyS fun s => { s with mShutterPending := true }
    let r ← call env (.pthread_create .snapshot_thread)
    modifyS fun s => { s with mSnapshotThreadRunning := decide (r.rc = 0) }
    unlockSnapshotThreadWaitLock
    let s ← getS
    pure (if s.mSnapshotThreadRunning then NO_ERROR else UNKNOWN_ERROR)

/-! ## Parameters -/

/-- One row of a name-to-code table; the row with no name ends the table. -/
structure str_map where
  desc : Option String
  val : Int
  deriving DecidableEq, Repr

/-- The enumeration constants the tables refer to.  They are declared in vendor
headers that are not among the sources, so their values are left open. -/
structure CameraEnums where
  CAMERA_WB_AUTO : Int
  CAMERA_WB_INCANDESCENT : Int
  CAMERA_WB_FLUORESCENT : Int
  CAMERA_WB_DAYLIGHT : Int
  CAMERA_WB_CLOUDY_DAYLIGHT : Int
  CAMERA_WB_TWILIGHT : Int
  CAMERA_WB_SHADE : Int
  CAMERA_EFFECT_OFF : Int
  CAMERA_EFFECT_MONO : Int
  CAMERA_EFFECT_NEGATIVE : Int
  CAMERA_EFFECT_SOLARIZE : Int
  CAMERA_EFFECT_SEPIA : Int
  CAMERA_EFFECT_POSTERIZE : Int
  CAMERA_EFFECT_WHITEBOARD : Int
  CAMERA_EFFECT_BLACKBOARD : Int
  CAMERA_EFFECT_AQUA : Int
  CAMERA_ANTIBANDING_OFF : Int
  CAMERA_ANTIBANDING_50HZ : Int
  CAMERA_ANTIBANDING_60HZ : Int
  CAMERA_ANTIBANDING_AUTO : Int
  SHOT_3M_SIZE : Int
  SHOT_2M_SIZE : Int
  SHOT_1M_SIZE : Int

/-- The table `whitebalance` of the source. -/
def whitebalance (c : CameraEnums) : List str_map :=
  [ { desc := some "auto", val := c.CAMERA_WB_AUTO },
    { desc := some "incandescent", val := c.CAMERA_WB_INCANDESCENT },
    { desc := some "fluorescent", val := c.CAMERA_WB_FLUORESCENT },
    { desc := some "daylight", val := c.CAMERA_WB_DAYLIGHT },
    { desc := some "cloudy", val := c.CAMERA_WB_CLOUDY_DAYLIGHT },
    { desc := some "twilight", val := c.CAMERA_WB_TWILIGHT },
    { desc := some "shade", val := c.CAMERA_WB_SHADE },
    { desc := none, val := 0 } ]

/-- The table `effect` of the source. -/
def effect (c : CameraEnums) : List str_map :=
  [ { desc := some "none", val := c.CAMERA_EFFECT_OFF },
    { desc := some "mono", val := c.CAMERA_EFFECT_MONO },
    { desc := some "negative", val := c.CAMERA_EFFECT_NEGATIVE },
    { desc := some "solarize", val := c.CAMERA_EFFECT_SOLARIZE },
    { desc := some "sepia", val := c.CAMERA_EFFECT_SEPIA },
    { desc := some "posterize", val := c.CAMERA_EFFECT_POSTERIZE },
    { desc := some "whiteboard", val := c.CAMERA_EFFECT_WHITEBOARD },
    { desc := some "blackboard", val := c.CAMERA_EFFECT_BLACKBOARD },
    { desc := some "aqua", val := c.CAMERA_EFFECT_AQUA },
    { desc := none, val := 0 } ]

/-- The table `antibanding` of the source. -/
def antibanding (c : CameraEnums) : List str_map :=
  [ { desc := some "off", val := c.CAMERA_ANTIBANDING_OFF },
    { desc := some "50hz", val := c.CAMERA_ANTIBANDING_50HZ },
    { desc := some "60hz", val := c.CAMERA_ANTIBANDING_60HZ },
    { desc := some "auto", val := c.CAMERA_ANTIBANDING_AUTO },
    { desc := none, val := 0 } ]

/-- The table `picturesize` of the source. -/
def picturesize (c : CameraEnums) : List str_map :=
  [ { desc := some "2048x1536", val := c.SHOT_3M_SIZE },
    { desc := some "1600x1200", val := c.SHOT_2M_SIZE },
    { desc := some "1024x768", val := c.SHOT_1M_SIZE },
    { desc := none, val := 0 } ]

/-- The loop of `attr_lookup`: rows are tried in order up to the row with no
name. -/
def attr_lookup_loop (name : String) : List str_map → Int
  | [] => NOT_FOUND
  | trav :: rest =>
    match trav.desc with
    | none => NOT_FOUND
    | some desc => if desc = name then trav.val else attr_lookup_loop name rest

/-- The function `attr_lookup`. -/
def attr_lookup (arr : List str_map) (name : Option String) : Int :=
  match name with
  | some n => attr_lookup_loop n arr
  | none => NOT_FOUND

/-- The method `getParm`. -/
def State.getParm (s : State) (parm_str : String) (parm_map : List str_map) : Int :=
  match s.mParameters.get parm_str with
  | none => NOT_FOUND
  | some str => attr_lookup parm_map (some str)

/-- The method `setEffect`. -/
def setEffect (c : CameraEnums) (env : Env) : M Unit := do
  let s ← getS
  let value := s.getParm "effect" (effect c)
  if value ≠ NOT_FOUND ∧ value ≠ s.mEffect then do
    let _ ← native_set_parm env .CAMERA_SET_PARM_EFFECT (.int32 value)
    modifyS fun s => { s with mEffect := value }

/-- The method `setWhiteBalance`. -/
def setWhiteBalance (c : CameraEnums) (env : Env) : M Unit := do
  let s ← getS
  let value := s.getParm "whitebalance" (whitebalance c)
  if value ≠ NOT_FOUND ∧ value ≠ s.mWhiteBalance then do
    let _ ← native_set_parm env .CAMERA_SET_PARM_WB (.int32 value)
    modifyS fun s => { s with mWhiteBalance := value }

/-- The method `setAntibanding`. -/
def setAntibanding (c : CameraEnums) (env : Env) : M Unit := do
  let s ← getS
  let value := s.getParm "antibanding" (antibanding c)
  if value ≠ NOT_FOUND then do
    let _ ← native_set_parm env .CAMERA_SET_PARM_ANTIBANDING (.int32 value)
    pure ()

/-- The method `setZoom`. -/
def setZoom (c : CameraEnums) (env : Env) : M Unit := do
  let s ← getS
  let known ← if s.maxZoom = -1 then native_get_maxzoom env s.mCameraControlFd else pure true
  if !known then pure ()
  else do
    let size := s.getParm "picture-size" (picturesize c)
    if size ≠ NOT_FOUND then
      modifyS fun s =>
        { s with
          ZOOM_STEP :=
            if size = c.SHOT_1M_SIZE then 4
            else if size = c.SHOT_2M_SIZE then 2
            else 0 }
    let s ← getS
    let value := cmul s.ZOOM_STEP (s.mParameters.getInt "zoom")
    if 0 ≤ value ∧ value ≤ s.maxZoom then do
      let _ ← native_set_parm env .CAMERA_SET_PARM_ZOOM (.int32 value)
      emit (.usleep 30000)

/-- The method `setParameters`. -/
def setParameters (c : CameraEnums) (env : Env) (params : CameraParameters) : M Int := do
  let (width, height) := params.getPreviewSize
  match preview_sizes.find? fun ps => width = ps.width ∧ height = ps.height with
  | none => pure BAD_VALUE
  | some ps => do
    modifyS fun s =>
      { s with
        mPreviewWidth := ps.width
        mPreviewHeight := ps.height
        mRawWidth := params.getPictureSize.1
        mRawHeight := params.getPictureSize.2
        mDimension :=
          { s.mDimension with
            display_width := ps.width
            display_height := ps.height
            picture_width := params.getPictureSize.1
            picture_height := params.getPictureSize.2
            ui_thumbnail_width :=
              if params.getInt "jpeg-thumbnail-width" < 0 then THUMBNAIL_WIDTH
              else params.getInt "jpeg-thumbnail-width"
            ui_thumbnail_height :=
              if params.getInt "jpeg-thumbnail-height" < 0 then THUMBNAIL_HEIGHT
              else params.getInt "jpeg-thumbnail-height" }
        mParameters := params }
    let s ← getS
    if s.mCameraRunning then do
      setEffect c env
      setWhiteBalance c env
      setZoom c env
    pure NO_ERROR

/-- The constant `DEFAULT_PICTURE_WIDTH`. -/
def DEFAULT_PICTURE_WIDTH : Int := 1600

/-- The constant `DEFAULT_PICTURE_HEIGHT`. -/
def DEFAULT_PICTURE_HEIGHT : Int := 1200

/-- The loop of the macro `INIT_VALUES_FOR`: each name up to the unnamed row is
copied behind what has been written so far, followed by a comma. -/
def INIT_VALUES_loop : List str_map → List Char → List Char
  | [], written => written
  | trav :: rest, written =>
    match trav.desc with
    | none => written
    | some desc => INIT_VALUES_loop rest (written ++ desc.data ++ [','])

/-- The bytes the macro `INIT_VALUES_FOR` has written to its buffer when the
loop ends; the terminator then takes the place of the last of them. -/
def INIT_VALUES_bytes (parm : List str_map) : Nat :=
  (String.mk (INIT_VALUES_loop parm [])).utf8ByteSize

/-- The macro `INIT_VALUES_FOR(parm)`, applied to the table and to the variable
`parm_values`: a variable that is set stays; otherwise a buffer of 30 bytes for
each row of the table, the unnamed row included, is filled by the loop and the
last comma is replaced by the terminator.  Writing outside the buffer, before
its start when the table has no name or behind its end, is a fault. -/
def INIT_VALUES_FOR (parm : List str_map) (parm_values : Option String) :
    Except Halt (Option String) :=
  match parm_values with
  | some values => .ok (some values)
  | none =>
    if INIT_VALUES_loop parm [] = [] ∨ INIT_VALUES_bytes parm > parm.length * 30 then
      .error .fault
    else .ok (some (String.mk (INIT_VALUES_loop parm []).dropLast))

/-- The statement `INIT_VALUES_FOR(parm);` inside an operation. -/
def initValues (parm : List str_map) (parm_values : Option String) : M (Option String) :=
  match INIT_VALUES_FOR parm parm_values with
  | .ok values => pure values
  | .error h => halt h

/-- The number a decimal string stands for, as `CameraParameters::getInt` reads
the values the source stores: an optional minus sign and digits. -/
def decimalValue (str : String) : Int :=
  let digits (cs : List Char) : Nat :=
    (cs.takeWhile Char.isDigit).foldl (fun n ch => 10 * n + (ch.toNat - 48)) 0
  match str.data with
  | '-' :: cs => -(digits cs : Int)
  | cs => (digits cs : Int)

/-- A parameter set given by the pairs stored with `set` and by the sizes stored
with `setPreviewSize` and `setPictureSize`; `getInt` of an absent key is -1. -/
def CameraParameters.ofPairs (pairs : List (String × String))
    (previewSize pictureSize : Int × Int) : CameraParameters :=
  { get := fun key => (pairs.find? fun kv => kv.1 = key).map fun kv => kv.2
    getInt := fun key =>
      match pairs.find? fun kv => kv.1 = key with
      | none => -1
      | some kv => decimalValue kv.2
    getPreviewSize := previewSize
    getPictureSize := pictureSize }

/-- The value `CameraParameters::setPreviewSize` and `setPictureSize` store
under the keys `preview-size` and `picture-size`: width and height in decimal
with an `x` between them. -/
def sizeValue (width height : Int) : String :=
  toString width ++ "x" ++ toString height

/-- The parameter set `p` that `initDefaultParameters` builds, given the three
`_values` strings it stores, with the pairs in the order of the calls.  The keys
and the values named by constants of `CameraParameters` are written out;
`EFFECT_NONE + 1` is the string `"none"` without its first character.  An index
outside `preview_sizes` is a fault. -/
def defaultParameters (antibanding_values effect_values whitebalance_values : String) :
    Option CameraParameters :=
  match preview_sizes[DEFAULT_PREVIEW_SETTING]? with
  | none => none
  | some ps =>
    some (CameraParameters.ofPairs
      [("preview-size", sizeValue ps.width ps.height),
       ("preview-frame-rate", "15"),
       ("preview-format", "yuv420sp"),
       ("picture-format", "jpeg"),
       ("jpeg-quality", "100"),
       ("jpeg-thumbnail-width", "192"),
       ("jpeg-thumbnail-height", "144"),
       ("jpeg-thumbnail-quality", "85"),
       ("picture-size", sizeValue DEFAULT_PICTURE_WIDTH DEFAULT_PICTURE_HEIGHT),
       ("antibanding", "off"),
       ("effect", "one"),
       ("whitebalance", "auto"),
       ("flash-mode", "off"),
       ("focus-mode", "fixed"),
       ("antibanding-values", antibanding_values),
       ("effect-values", effect_values),
       ("whitebalance-values", whitebalance_values),
       ("picture-size-values", "2048x1536,1600x1200,1024x768"),
       ("preview-size-values", "320x240,240x160,192x144"),
       ("flash-mode-values", "off"),
       ("focus-mode-values", "fixed"),
       ("preview-format-values", "yuv420sp"),
       ("preview-frame-rate-values", "24,15,10"),
       ("zoom-supported", "true"),
       ("zoom", "0"),
       ("max-zoom", "4"),
       ("zoom-ratios", "100,150,200,250,300")]
      (ps.width, ps.height) (DEFAULT_PICTURE_WIDTH, DEFAULT_PICTURE_HEIGHT))

/-- The method `initDefaultParameters`; its result is what the call of
`setParameters` returned. -/
def initDefaultParameters (c : CameraEnums) (env : Env) : M Int := do
  let s ← getS
  let ab ← initValues (antibanding c) s.antibanding_values
  modifyS fun s => { s with antibanding_values := ab }
  let eff ← initValues (effect c) s.effect_values
  modifyS fun s => { s with effect_values := eff }
  let wb ← initValues (whitebalance c) s.whitebalance_values
  modifyS fun s => { s with whitebalance_values := wb }
  let pic ← initValues (picturesize c) s.picturesize_values
  modifyS fun s => { s with picturesize_values := pic }
  match defaultParameters (ab.getD "") (eff.getD "") (wb.getD "") with
  | none => halt .fault
  | some p => do
    modifyS fun s => { s with mEffect := 1, mWhiteBalance := 1 }
    setParameters c env p

/-- The state the constructor leaves. -/
def State.init : State := {}


/-! ## Specification vocabulary -/

/-- Termination with a postcondition: from `s` the operation returns, and the result and the
state it leaves satisfy `Q`. -/
def wp {α : Type} (m : M α) (Q : α → State → Prop) (s : State) : Prop :=
  ∃ a s1, m s = .ok (a, s1) ∧ Q a s1

/-- Conditional correctness: if the operation returns from `s`, the result and the
state it leaves satisfy `Q`. -/
def wlp {α : Type} (m : M α) (Q : α → State → Prop) (s : State) : Prop :=
  ∀ a s1, m s = .ok (a, s1) → Q a s1

/-- The test the code applies to each answer of a preview start whose first
call is the call numbered `n`, in the order of the calls.  The pool is created
when `getHeapID()` is not negative, and its base is neither `MAP_FAILED` nor
null; `ioctl(PMEM_GET_SIZE)` returns zero; the dimension command returns a
value that is not negative and writes back the status `CAM_CTRL_SUCCESS`; each
of the `kPreviewBufferCount` register calls returns a value that is not
negative; `pthread_create` returns zero; the start command returns a value that
is not negative. -/
def Env.previewStarts (env : Env) (n : Nat) : Prop :=
  (0 ≤ (env.reply n).rc ∧ (env.reply n).value ≠ MAP_FAILED ∧ toU32 (env.reply n).value ≠ 0) ∧
  (env.reply (n + 1)).rc = 0 ∧
  (0 ≤ (env.reply (n + 2)).rc ∧ (env.reply (n + 2)).status = CAM_CTRL_SUCCESS) ∧
  (∀ i, i < kPreviewBufferCount → 0 ≤ (env.reply (n + 3 + i)).rc) ∧
  (env.reply (n + 7)).rc = 0 ∧
  0 ≤ (env.reply (n + 8)).rc

/-- The heap handle of the preview pool created by the call numbered
`s.tick`: the descriptor and the base the world answers, and the size asked
for. -/
def previewHeap (env : Env) (s : State) : MemoryHeap :=
  { heapID := (env.reply s.tick).rc
    base := (env.reply s.tick).value
    size := (PmemPool.alignedSize (cmul (cmul s.mPreviewWidth s.mPreviewHeight) 2)
      kPreviewBufferCount : Nat) }

/-- The record a preview start stores in every entry of `frames`: the
descriptor and the base address of the preview heap, as a `uint32_t`. -/
def previewFrame (env : Env) (s : State) : msm_frame_t :=
  { fd := (previewHeap env s).heapID
    buffer := (toU32 (previewHeap env s).base : Int)
    y_off := 0
    cbcr_off := cmul s.mPreviewWidth s.mPreviewHeight
    path := MSM_FRAME_ENC }

/-- The calls of a preview start in which every call succeeds, in order: the
pool is created and its size queried, the dimensions are sent, the
`kPreviewBufferCount` frames are registered, all but the last as active, the
frame thread is created, and the start command is sent. -/
def previewStartCalls (env : Env) (s : State) : List Event :=
  [Event.new_MemoryHeapPmem "/dev/pmem_adsp"
     (PmemPool.alignedSize (cmul (cmul s.mPreviewWidth s.mPreviewHeight) 2) kPreviewBufferCount),
   Event.ioctl_pmem_get_size (previewHeap env s).heapID,
   Event.ioctl_ctrl_command s.mCameraControlFd .CAMERA_SET_PARM_DIMENSION
     (.dimension s.mDimension)] ++
  (List.finRange kPreviewBufferCount).map (fun cnt =>
    Event.ioctl_register_pmem s.mCameraControlFd
      (reg_unreg_pmemBuf (previewFrame env s) .MSM_PMEM_OUTPUT2
        (cnt.val != kPreviewBufferCount - 1))) ++
  [Event.pthread_create .cam_frame_click,
   Event.ioctl_ctrl_command s.mCameraControlFd .CAMERA_START_PREVIEW .null]

/-- An idle instance: no preview running or initialised, no frame thread and no
snapshot worker in flight, and the snapshot serialization lock free. -/
def State.idle (s : State) : Prop :=
  s.mCameraRunning = false ∧ s.mPreviewInitialized = false ∧ s.mFrameThreadRunning = false ∧
  s.mSnapshotThreadRunning = false ∧ s.mSnapshotThreadWaitLock = false

/-- An operation keeps an invariant: if it returns from a state that satisfies
`I`, the state it leaves satisfies `I`. -/
def keeps {α : Type} (I : State → Prop) (m : M α) : Prop :=
  ∀ s, I s → wlp m (fun _ s1 => I s1) s

/-- The loop of `clp2` on its own: the five shift-and-or steps. -/
def smear (x : Nat) : Nat :=
  let x := x ||| (x >>> 1)
  let x := x ||| (x >>> 2)
  let x := x ||| (x >>> 4)
  let x := x ||| (x >>> 8)
  let x := x ||| (x >>> 16)
  x

/-- The events `deinitPreview` adds to the record of calls: the signal to the
frame thread when one is flagged running, then one unregister call for each
entry of `frames`, in order. -/
def deinitPreviewEvents (s : State) : List Event :=
  (if s.mFrameThreadRunning then [Event.pthread_kill .cam_frame_click] else []) ++
  (List.finRange kPreviewBufferCount).map fun cnt =>
    Event.ioctl_unregister_pmem s.mCameraControlFd
      (reg_unreg_pmemBuf (s.frames cnt) .MSM_PMEM_OUTPUT2 true)

/-- The count of snapshot worker threads created so far. -/
def snapshotThreadsCreated (s : State) : Nat :=
  s.trace.count (Event.pthread_create .snapshot_thread)

/-- The part of the state that neither the preview operations nor the pool
allocation of the snapshot touch. -/
def State.snapshotControl (s s1 : State) : Prop :=
  s1.mSnapshotThreadRunning = s.mSnapshotThreadRunning ∧
  s1.mShutterPending = s.mShutterPending ∧
  s1.mSnapshotThreadWaitLock = s.mSnapshotThreadWaitLock ∧
  s1.mMsgEnabled = s.mMsgEnabled ∧
  snapshotThreadsCreated s1 = snapshotThreadsCreated s

/-- The step `setZoom` multiplies the zoom by: fixed by the parameter
`picture-size` when it names a row of the table, else the static `ZOOM_STEP`
as it stands. -/
def zoomStep (c : CameraEnums) (s : State) : Int :=
  if s.getParm "picture-size" (picturesize c) ≠ NOT_FOUND then
    if s.getParm "picture-size" (picturesize c) = c.SHOT_1M_SIZE then 4
    else if s.getParm "picture-size" (picturesize c) = c.SHOT_2M_SIZE then 2
    else 0
  else s.ZOOM_STEP

/-- The value `setZoom` compares with the bounds: step times zoom, as an
`int32_t`. -/
def zoomValue (c : CameraEnums) (s : State) : Int :=
  cmul (zoomStep c s) (s.mParameters.getInt "zoom")

/-- The calls `setZoom` makes once the maximum zoom is known: the zoom command
and the delay when the value is within the bounds, none otherwise. -/
def zoomEvents (c : CameraEnums) (s : State) : List Event :=
  if 0 ≤ zoomValue c s ∧ zoomValue c s ≤ s.maxZoom then
    [Event.ioctl_ctrl_command s.mCameraControlFd .CAMERA_SET_PARM_ZOOM
       (.int32 (zoomValue c s)),
     Event.usleep 30000]
  else []

/-- The calls `setEffect` makes. -/
def effectEvents (c : CameraEnums) (s : State) : List Event :=
  if s.getParm "effect" (effect c) ≠ NOT_FOUND ∧ s.getParm "effect" (effect c) ≠ s.mEffect then
    [Event.ioctl_ctrl_command s.mCameraControlFd .CAMERA_SET_PARM_EFFECT
       (.int32 (s.getParm "effect" (effect c)))]
  else []

/-- The calls `setWhiteBalance` makes. -/
def whiteBalanceEvents (c : CameraEnums) (s : State) : List Event :=
  if s.getParm "whitebalance" (whitebalance c) ≠ NOT_FOUND ∧
      s.getParm "whitebalance" (whitebalance c) ≠ s.mWhiteBalance then
    [Event.ioctl_ctrl_command s.mCameraControlFd .CAMERA_SET_PARM_WB
       (.int32 (s.getParm "whitebalance" (whitebalance c)))]
  else []

/-- A frame that `receivePreviewFrame` can deliver as a video frame: the
preview runs, the video-frame message is enabled, and the index computed for
the frame selects the descriptor `buffer` of the preview pool. -/
def State.videoFrameReady (s : State) (frame : msm_frame_t) (buffer : MemoryBase) : Prop :=
  s.mCameraRunning = true ∧ s.msgEnabled CAMERA_MSG_VIDEO_FRAME = true ∧
  s.mPreviewFrameSize ≠ 0 ∧
  ∃ pool heap, s.mPreviewHeap = some pool ∧ pool.val.mHeap = some heap ∧
    0 ≤ previewFrameIndex s.mPreviewFrameSize frame.buffer heap.base ∧
    pool.val.mBuffers[(previewFrameIndex s.mPreviewFrameSize frame.buffer heap.base).toNat]? =
      some buffer

/-- The callbacks `receivePreviewFrame` makes for a frame it delivers as a
video frame. -/
def videoFrameEvents (s : State) (buffer : MemoryBase) : List Event :=
  (if s.msgEnabled CAMERA_MSG_PREVIEW_FRAME then
    [Event.dataCb CAMERA_MSG_PREVIEW_FRAME buffer] else []) ++
  [Event.dataCbTimestamp CAMERA_MSG_VIDEO_FRAME buffer]

/-- The sizes a string of the form `"WxH,WxH,..."` lists, read from left to
right: `width` is the number before the `x` of the current item, if the `x` has
been passed, and `n` the number read since. -/
def listedSizesFrom : List Char → Option Nat → Nat → List (Int × Int)
  | [], width, n =>
    match width with
    | some w => [((w : Int), (n : Int))]
    | none => []
  | ch :: rest, width, n =>
    if ch = 'x' then listedSizesFrom rest (some n) 0
    else if ch = ',' then
      (match width with
        | some w => [((w : Int), (n : Int))]
        | none => []) ++ listedSizesFrom rest none 0
    else listedSizesFrom rest width (10 * n + (ch.toNat - 48))

/-- The sizes a supported-sizes string lists. -/
def listedSizes (str : String) : List (Int × Int) :=
  listedSizesFrom str.data none 0

/-- A reply that reports success. -/
def Reply.ok : Reply := { rc := 0, status := CAM_CTRL_SUCCESS, value := 0x40000000 }

/-- A reply that reports failure. -/
def Reply.failed : Reply := { rc := -1, status := 0, value := 0 }

/-- The world in which every call succeeds. -/
def Env.allSucceed : Env := { reply := fun _ => Reply.ok }

/-- The world in which the `n`-th call fails and every other call succeeds. -/
def Env.failAt (n : Nat) : Env :=
  { reply := fun k => if k = n then Reply.failed else Reply.ok }

/-- A parameter set that asks for a 320x240 preview and a 1600x1200 picture. -/
def CameraParameters.qvga : CameraParameters :=
  { getPreviewSize := (320, 240), getPictureSize := (1600, 1200) }

/-- A parameter set that asks for a 640x480 preview, which is not in
`preview_sizes`. -/
def CameraParameters.vga : CameraParameters :=
  { getPreviewSize := (640, 480), getPictureSize := (1600, 1200) }

/-- A numbering of the enumeration constants. -/
def CameraEnums.sample : CameraEnums :=
  { CAMERA_WB_AUTO := 1, CAMERA_WB_INCANDESCENT := 3, CAMERA_WB_FLUORESCENT := 4,
    CAMERA_WB_DAYLIGHT := 5, CAMERA_WB_CLOUDY_DAYLIGHT := 6, CAMERA_WB_TWILIGHT := 7,
    CAMERA_WB_SHADE := 8,
    CAMERA_EFFECT_OFF := 1, CAMERA_EFFECT_MONO := 2, CAMERA_EFFECT_NEGATIVE := 3,
    CAMERA_EFFECT_SOLARIZE := 4, CAMERA_EFFECT_SEPIA := 7, CAMERA_EFFECT_POSTERIZE := 8,
    CAMERA_EFFECT_WHITEBOARD := 9, CAMERA_EFFECT_BLACKBOARD := 10, CAMERA_EFFECT_AQUA := 11,
    CAMERA_ANTIBANDING_OFF := 0, CAMERA_ANTIBANDING_50HZ := 2, CAMERA_ANTIBANDING_60HZ := 1,
    CAMERA_ANTIBANDING_AUTO := 3,
    SHOT_3M_SIZE := 0, SHOT_2M_SIZE := 1, SHOT_1M_SIZE := 2 }

/-- The state `createInstance` leaves before any parameter set is applied: the
values of the constructor, `mEffect` and `mWhiteBalance` as
`initDefaultParameters` sets them, and the control descriptor opened by
`startCamera`. -/
def State.opened : State :=
  { State.init with mCameraControlFd := 20, mEffect := 1, mWhiteBalance := 1 }

/-- The state `setParameters` leaves when it is given the 320x240 parameter set
in `State.opened`: idle, preview size 320x240, picture size 1600x1200. -/
def State.qvga : State :=
  { State.opened with
    mParameters := CameraParameters.qvga
    mPreviewWidth := 320
    mPreviewHeight := 240
    mRawWidth := 1600
    mRawHeight := 1200
    mDimension :=
      { display_width := 320, display_height := 240, picture_width := 1600,
        picture_height := 1200, ui_thumbnail_width := 192, ui_thumbnail_height := 144 } }

/-- The state `State.qvga` with the compressed-image message enabled. -/
def State.qvgaCompressed : State :=
  { State.qvga with mMsgEnabled := CAMERA_MSG_COMPRESSED_IMAGE }

/-- The state `State.qvga` with the preview running: initialised, frame thread
flagged running. -/
def State.previewing : State :=
  { State.qvga with
    mCameraRunning := true, mPreviewInitialized := true, mFrameThreadRunning := true }

/-- The world that answers the first calls with the replies of a list and
every later call with success. -/
def Env.ofList (replies : List Reply) : Env :=
  { reply := fun n => replies.getD n Reply.ok }

/-- The world in which the preview heap gets the descriptor 25, mapped at
`0x40000000`, each register call returns 1, and every other call answers with
success. -/
def Env.heapDescriptor25 : Env :=
  Env.ofList
    [{ rc := 25, status := 0, value := 0x40000000 }, Reply.ok, Reply.ok,
     { rc := 1 }, { rc := 1 }, { rc := 1 }, { rc := 1 }]

/-- The world of a snapshot whose conversion to JPEG fails: every device call
succeeds, `jpeg_encoder_init` (the call numbered 10 of the run from
`State.qvgaCompressed`) answers true, and the converter `yuv420_save2jpeg` (the
call numbered 13) answers false. -/
def Env.encodeFails : Env :=
  { reply := fun n =>
      if n = 10 then { rc := 1 }
      else if n = 13 then { rc := 0 }
      else if n = 14 then { value := 2048 }
      else Reply.ok }

/-- The run of one snapshot: `takePicture`, then the snapshot thread, then the
encode thread it creates. -/
def snapshotRun (env : Env) : M Unit := do
  let _ ← takePicture env
  runSnapshotThread env
  runJpegEncodeThread env

/-- A parameter set for a running preview: sepia effect, daylight white balance,
a 1024x768 picture and zoom 1. -/
def CameraParameters.live : CameraParameters :=
  { CameraParameters.qvga with
    get := fun key =>
      if key = "effect" then some "sepia"
      else if key = "whitebalance" then some "daylight"
      else if key = "picture-size" then some "1024x768"
      else none
    getInt := fun key => if key = "zoom" then 1 else -1 }

/-- The state `State.previewing` with the parameter set
`CameraParameters.live` and a maximum zoom of 12 already fetched. -/
def State.live : State :=
  { State.previewing with mParameters := CameraParameters.live, maxZoom := 12 }

/-- The world in which every call succeeds except the mapping of the jpeg pool
of `initRaw` (the call numbered 7 of a run from a state without pools), which
answers `MAP_FAILED`. -/
def Env.jpegMapFails : Env :=
  { reply := fun n => if n = 7 then { rc := 0, value := MAP_FAILED } else Reply.ok }

/-- A jpeg pool as `initRaw` builds it for a 1600x1200 picture. -/
def AshmemPool.sample : AshmemPool :=
  { mBufferSize := 2880000, mNumBuffers := 1, mFrameSize := 0, mFrameOffset := 0,
    mHeap := some { heapID := 0, base := 0x40000000, size := 2883584 }, mName := "jpeg" }

/-- The state `State.qvgaCompressed` while the fragments of a picture are being
assembled: the jpeg pool exists and 2883000 bytes have been received. -/
def State.jpegAssembly : State :=
  { State.qvgaCompressed with mJpegHeap := some AshmemPool.sample, mJpegSize := 2883000 }

/-- A preview pool as `initPreview` builds it for a 320x240 preview. -/
def PreviewPmemPool.sample : PreviewPmemPool :=
  ⟨{ toMemPool := MemPool.completeInitialization
       { mBufferSize := 153600, mNumBuffers := 4, mFrameSize := 115200, mFrameOffset := 0,
         mHeap := some { heapID := 0, base := 0x40000000, size := 1048576 },
         mName := "preview" }
     mPmemType := .MSM_PMEM_OUTPUT2
     mCameraControlFd := 20
     mAlignedSize := 1048576 }, rfl⟩

/-- The state `State.previewing` while recording: the video-frame message is
enabled and the preview pool exists. -/
def State.recording : State :=
  { State.previewing with
    mMsgEnabled := CAMERA_MSG_VIDEO_FRAME
    mCameraRecording := true
    mPreviewFrameSize := 115200
    mPreviewHeap := some PreviewPmemPool.sample }

/-- The state `State.qvgaCompressed` with the four GPS parameters set, the
timestamp to `"0"`. -/
def State.gpsZero : State :=
  { State.qvgaCompressed with
    mParameters :=
      { CameraParameters.qvga with
        get := fun key =>
          if key = "gps-timestamp" then some "0"
          else if key = "gps-altitude" then some "120"
          else if key = "gps-latitude" then some "47"
          else if key = "gps-longitude" then some "8"
          else none } }

/-- A raw pool as `initRaw` builds it for a 1600x1200 picture. -/
def PmemPool.sampleRaw : PmemPool :=
  { toMemPool := MemPool.completeInitialization
      { mBufferSize := 2880000, mNumBuffers := 1, mFrameSize := 2880000, mFrameOffset := 0,
        mHeap := some { heapID := 0, base := 0x40000000, size := 4194304 },
        mName := "snapshot camera" }
    mPmemType := .MSM_PMEM_MAINIMG
    mCameraControlFd := 20
    mAlignedSize := 4194304 }

/-- The state `State.gpsZero` when the encode thread starts: the raw and jpeg
pools are in place. -/
def State.encoding : State :=
  { State.gpsZero with
    mRawHeap := some PmemPool.sampleRaw
    mJpegHeap := some AshmemPool.sample
    mJpegSize := 2880000 }

theorem smear_step (y z n : Nat)
    (h : ∀ i, z.testBit i = true ↔ ∃ d, d < n ∧ y.testBit (i + d) = true) (i : Nat) :
    (z ||| (z >>> n)).testBit i = true ↔ ∃ d, d < 2 * n ∧ y.testBit (i + d) = true := by
  rw [Nat.testBit_or, Nat.testBit_shiftRight, Bool.or_eq_true, h, h]
  constructor
  · rintro (⟨d, hd, hb⟩ | ⟨d, hd, hb⟩)
    · exact ⟨d, by omega, hb⟩
    · exact ⟨n + d, by omega, by rw [← hb]; congr 1; omega⟩
  · rintro ⟨d, hd, hb⟩
    by_cases hdn : d < n
    · exact Or.inl ⟨d, hdn, hb⟩
    · exact Or.inr ⟨d - n, by omega, by rw [← hb]; congr 1; omega⟩

theorem smear_testBit (y i : Nat) :
    (smear y).testBit i = true ↔ ∃ d, d < 32 ∧ y.testBit (i + d) = true := by
  have h0 : ∀ i, y.testBit i = true ↔ ∃ d, d < 1 ∧ y.testBit (i + d) = true := by
    intro i
    constructor
    · intro h; exact ⟨0, by omega, by simpa using h⟩
    · rintro ⟨d, hd, hb⟩
      have : d = 0 := by omega
      subst this; simpa using hb
  have h1 := smear_step y _ 1 h0
  have h2 := smear_step y _ 2 h1
  have h4 := smear_step y _ 4 h2
  have h8 := smear_step y _ 8 h4
  have h16 := smear_step y _ 16 h8
  exact h16 i

theorem smear_eq (y m : Nat) (hm : m < 32) (hlo : 2 ^ m ≤ y) (hhi : y < 2 ^ (m + 1)) :
    smear y = 2 ^ (m + 1) - 1 := by
  have htop : y.testBit m = true := by
    by_contra hc
    have hc' : y.testBit m = false := by simpa using hc
    have : y < 2 ^ m := by
      apply Nat.lt_pow_two_of_testBit
      intro i hi
      rcases Nat.eq_or_lt_of_le hi with h | h
      · subst h; exact hc'
      · apply Nat.testBit_lt_two_pow
        calc y < 2 ^ (m + 1) := hhi
          _ ≤ 2 ^ i := Nat.pow_le_pow_right (by omega) h
    omega
  apply Nat.eq_of_testBit_eq
  intro i
  rw [Nat.testBit_two_pow_sub_one]
  by_cases hi : i < m + 1
  · have : (smear y).testBit i = true := by
      rw [smear_testBit]
      exact ⟨m - i, by omega, by rw [← htop]; congr 1; omega⟩
    simp [this, hi]
  · have : ¬ ((smear y).testBit i = true) := by
      rw [smear_testBit]
      rintro ⟨d, -, hb⟩
      have : y.testBit (i + d) = false := by
        apply Nat.testBit_lt_two_pow
        calc y < 2 ^ (m + 1) := hhi
          _ ≤ 2 ^ (i + d) := Nat.pow_le_pow_right (by omega) (by omega)
      simp [this] at hb
    simp [hi] 
    simpa using this


theorem smear_zero : smear 0 = 0 := by decide

theorem clp2_eq_smear (x : Nat) (h1 : 1 ≤ x) (h2 : x < 2 ^ 32) :
    clp2 x = (smear (x - 1) + 1) % 2 ^ 32 := by
  have : (x % 2 ^ 32 + 2 ^ 32 - 1) % 2 ^ 32 = x - 1 := by
    rw [Nat.mod_eq_of_lt h2]
    have : x + 2 ^ 32 - 1 = (x - 1) + 2 ^ 32 := by omega
    rw [this, Nat.add_mod_right, Nat.mod_eq_of_lt (by omega)]
  unfold clp2 smear
  simp only [this]

theorem clp2_spec (x : Nat) (h1 : 1 ≤ x) (h2 : x ≤ 2 ^ 31) :
    ∃ k, clp2 x = 2 ^ k ∧ x ≤ 2 ^ k ∧ 2 ^ k < 2 * x := by
  rw [clp2_eq_smear x h1 (by omega)]
  by_cases hx : x = 1
  · subst hx
    exact ⟨0, by decide, by decide, by decide⟩
  · have hy : x - 1 ≠ 0 := by omega
    obtain ⟨m, hm, hhigh⟩ := Nat.exists_most_significant_bit hy
    have hlo : 2 ^ m ≤ x - 1 := Nat.testBit_implies_ge hm
    have hhi : x - 1 < 2 ^ (m + 1) := by
      apply Nat.lt_pow_two_of_testBit
      intro i hi
      exact hhigh i (by omega)
    have hm31 : m < 31 := by
      by_contra hc
      have : 2 ^ 31 ≤ 2 ^ m := Nat.pow_le_pow_right (by omega) (by omega)
      omega
    have hpow : 2 ^ (m + 1) ≤ 2 ^ 31 := Nat.pow_le_pow_right (by omega) (by omega)
    have hpos : 0 < 2 ^ (m + 1) := Nat.two_pow_pos _
    refine ⟨m + 1, ?_, by omega, ?_⟩
    · rw [smear_eq (x - 1) m (by omega) hlo hhi]
      rw [Nat.sub_add_cancel hpos, Nat.mod_eq_of_lt (by omega)]
    · rw [Nat.pow_succ]; omega

theorem toU32_of_nonneg (x : Int) (h0 : 0 ≤ x) (h1 : x < 2 ^ 32) : ((toU32 x : Nat) : Int) = x := by
  unfold toU32
  rw [Int.emod_eq_of_lt h0 h1]
  exact Int.toNat_of_nonneg h0

theorem toS32_of_lt (n : Nat) (h : n < 2 ^ 31) : toS32 n = n := by
  unfold toS32
  have : n % 2 ^ 32 = n := Nat.mod_eq_of_lt (by omega)
  rw [this, if_pos h]

theorem wrap32_of_range (x : Int) (h0 : 0 ≤ x) (h1 : x < 2 ^ 31) : wrap32 x = x := by
  unfold wrap32
  have h := toU32_of_nonneg x h0 (by omega)
  rw [toS32_of_lt _ (by omega), h]

theorem toU32_lt (x : Int) : toU32 x < 2 ^ 32 := by
  unfold toU32
  have h0 : 0 ≤ x % 2 ^ 32 := Int.emod_nonneg _ (by norm_num)
  have h1 : x % 2 ^ 32 < 2 ^ 32 := Int.emod_lt_of_pos _ (by norm_num)
  omega

theorem toU32_toS32 (n : Nat) : toU32 (toS32 n) = n % 2 ^ 32 := by
  unfold toS32 toU32
  split <;> omega

theorem toU32_wrap32 (x : Int) : toU32 (wrap32 x) = toU32 x := by
  unfold wrap32
  rw [toU32_toS32, Nat.mod_eq_of_lt (toU32_lt x)]

theorem and_high_mask (X k : Nat) (hX : X < 2 ^ 32) (hk : k ≤ 32) :
    X &&& (2 ^ 32 - 2 ^ k) = 2 ^ k * (X / 2 ^ k) := by
  have hpk : 2 ^ k - 1 < 2 ^ 32 := by
    have : 2 ^ k ≤ 2 ^ 32 := Nat.pow_le_pow_right (by omega) hk
    have := Nat.two_pow_pos k
    omega
  have hM : 2 ^ 32 - 2 ^ k = 2 ^ 32 - ((2 ^ k - 1) + 1) := by
    have := Nat.two_pow_pos k
    omega
  apply Nat.eq_of_testBit_eq
  intro i
  rw [Nat.testBit_and, hM, Nat.testBit_two_pow_sub_succ hpk, Nat.testBit_two_pow_sub_one,
    Nat.testBit_mul_pow_two, ← Nat.shiftRight_eq_div_pow, Nat.testBit_shiftRight]
  by_cases hik : i < k
  · have : ¬ (i ≥ k) := by omega
    simp [hik, this]
  · have hge : i ≥ k := by omega
    have hadd : k + (i - k) = i := by omega
    by_cases hi32 : i < 32
    · simp [hik, hge, hadd, hi32]
    · have : X.testBit i = false :=
        Nat.testBit_lt_two_pow (lt_of_lt_of_le hX (Nat.pow_le_pow_right (by omega) (by omega)))
      simp [hik, hge, hadd, hi32, this]

theorem ashmemSize_eq (S N P : Int) (k : Nat) (hS : 0 ≤ S) (hN : 0 ≤ N) (hP : P = 2 ^ k)
    (hov : N * S + P - 1 < 2 ^ 31) :
    AshmemPool.ashmemSize P S N = P * ((N * S + P - 1) / P) := by
  have hn : 0 ≤ N * S := mul_nonneg hN hS
  have hPpos : (0 : Int) < P := by rw [hP]; positivity
  have hk : k ≤ 31 := by
    by_contra hc
    have h1 : (2 : Int) ^ 32 ≤ 2 ^ k := pow_le_pow_right₀ (by norm_num) (by omega)
    rw [← hP] at h1
    omega
  have hmask : wrap32 (P - 1) = P - 1 := wrap32_of_range _ (by omega) (by omega)
  have hmul : cmul S N = N * S := by
    unfold cmul
    rw [mul_comm S N]
    exact wrap32_of_range _ hn (by omega)
  have hadd : cadd (N * S) (P - 1) = N * S + P - 1 := by
    unfold cadd
    rw [show N * S + (P - 1) = N * S + P - 1 by ring]
    exact wrap32_of_range _ (by omega) hov
  have hpkN : (2 : Nat) ^ k ≤ 2 ^ 31 := Nat.pow_le_pow_right (by omega) hk
  have hnot : toU32 (not32 (P - 1)) = 2 ^ 32 - 2 ^ k := by
    unfold not32
    rw [toU32_wrap32, hP]
    unfold toU32
    have hc : ((2 : Int) ^ k) = (((2 : Nat) ^ k : Nat) : Int) := by push_cast; rfl
    rw [hc]
    have := Nat.two_pow_pos k
    omega
  obtain ⟨X, hX⟩ : ∃ X : Nat, (X : Int) = N * S + P - 1 := ⟨(N * S + P - 1).toNat, by omega⟩
  have hXlt : X < 2 ^ 31 := by omega
  have hUx : toU32 (N * S + P - 1) = X := by
    have := toU32_of_nonneg (N * S + P - 1) (by omega) (by omega)
    omega
  unfold AshmemPool.ashmemSize
  simp only [hmask, hmul, hadd]
  unfold land32
  rw [hnot, hUx, and_high_mask X k (by omega) (by omega)]
  have hle : 2 ^ k * (X / 2 ^ k) ≤ X := Nat.mul_div_le X (2 ^ k)
  rw [toS32_of_lt _ (by omega), ← hX, hP]
  push_cast
  rfl

/-! ## Rules for `wp` and `wlp` -/

theorem bind_apply {α β : Type} (m : M α) (f : α → M β) (s : State) :
    (m >>= f) s = M.bind m f s := rfl

theorem pure_apply {α : Type} (a : α) (s : State) :
    (pure a : M α) s = Except.ok (a, s) := rfl

theorem wp_bind {α β : Type} (m : M α) (f : α → M β) (Q : β → State → Prop) (s : State) :
    wp (m >>= f) Q s ↔ wp m (fun a s1 => wp (f a) Q s1) s := by
  unfold wp
  rw [bind_apply]
  unfold M.bind
  constructor
  · rintro ⟨b, s2, h, hQ⟩
    cases hm : m s with
    | error e => rw [hm] at h; cases h
    | ok p =>
      obtain ⟨a, s1⟩ := p
      rw [hm] at h
      exact ⟨a, s1, rfl, b, s2, h, hQ⟩
  · rintro ⟨a, s1, hm, b, s2, h, hQ⟩
    rw [hm]
    exact ⟨b, s2, h, hQ⟩

theorem wp_Mbind {α β : Type} (m : M α) (f : α → M β) (Q : β → State → Prop) (s : State) :
    wp (M.bind m f) Q s ↔ wp m (fun a s1 => wp (f a) Q s1) s := wp_bind m f Q s

theorem wlp_bind {α β : Type} (m : M α) (f : α → M β) (Q : β → State → Prop) (s : State) :
    wlp (m >>= f) Q s ↔ wlp m (fun a s1 => wlp (f a) Q s1) s := by
  unfold wlp
  rw [bind_apply]
  unfold M.bind
  constructor
  · intro h a s1 hm b s2 hf
    apply h
    rw [hm]
    exact hf
  · intro h b s2 hb
    cases hm : m s with
    | error e => rw [hm] at hb; cases hb
    | ok p =>
      obtain ⟨a, s1⟩ := p
      rw [hm] at hb
      exact h a s1 hm b s2 hb

theorem wlp_Mbind {α β : Type} (m : M α) (f : α → M β) (Q : β → State → Prop) (s : State) :
    wlp (M.bind m f) Q s ↔ wlp m (fun a s1 => wlp (f a) Q s1) s := wlp_bind m f Q s

theorem wp_pure {α : Type} (a : α) (Q : α → State → Prop) (s : State) :
    wp (pure a) Q s ↔ Q a s := by
  unfold wp
  constructor
  · rintro ⟨b, s1, h, hQ⟩
    cases h
    exact hQ
  · intro h
    exact ⟨a, s, rfl, h⟩

theorem wp_Mpure {α : Type} (a : α) (Q : α → State → Prop) (s : State) :
    wp (M.pure a) Q s ↔ Q a s := wp_pure a Q s

theorem wlp_pure {α : Type} (a : α) (Q : α → State → Prop) (s : State) :
    wlp (pure a) Q s ↔ Q a s := by
  unfold wlp
  constructor
  · intro h
    exact h a s rfl
  · intro h b s1 hb
    cases hb
    exact h

theorem wlp_Mpure {α : Type} (a : α) (Q : α → State → Prop) (s : State) :
    wlp (M.pure a) Q s ↔ Q a s := wlp_pure a Q s

theorem wp_getS (Q : State → State → Prop) (s : State) : wp getS Q s ↔ Q s s := by
  unfold wp getS
  constructor
  · rintro ⟨a, s1, h, hQ⟩; cases h; exact hQ
  · intro h; exact ⟨s, s, rfl, h⟩

theorem wlp_getS (Q : State → State → Prop) (s : State) : wlp getS Q s ↔ Q s s := by
  unfold wlp getS
  constructor
  · intro h; exact h s s rfl
  · intro h a s1 ha; cases ha; exact h

theorem wp_modifyS (f : State → State) (Q : Unit → State → Prop) (s : State) :
    wp (modifyS f) Q s ↔ Q () (f s) := by
  unfold wp modifyS
  constructor
  · rintro ⟨a, s1, h, hQ⟩; cases h; exact hQ
  · intro h; exact ⟨(), f s, rfl, h⟩

theorem wlp_modifyS (f : State → State) (Q : Unit → State → Prop) (s : State) :
    wlp (modifyS f) Q s ↔ Q () (f s) := by
  unfold wlp modifyS
  constructor
  · intro h; exact h () (f s) rfl
  · intro h a s1 ha; cases ha; exact h

theorem wp_halt {α : Type} (e : Halt) (Q : α → State → Prop) (s : State) :
    wp (halt e) Q s ↔ False := by
  unfold wp halt
  constructor
  · rintro ⟨a, s1, h, -⟩; cases h
  · exact False.elim

theorem wlp_halt {α : Type} (e : Halt) (Q : α → State → Prop) (s : State) :
    wlp (halt e) Q s ↔ True := by
  unfold wlp halt
  constructor
  · intro _; trivial
  · intro _ a s1 h; cases h

theorem wp_call (env : Env) (e : Event) (Q : Reply → State → Prop) (s : State) :
    wp (call env e) Q s ↔
      Q (env.reply s.tick) { s with trace := s.trace ++ [e], tick := s.tick + 1 } := by
  unfold wp call
  constructor
  · rintro ⟨a, s1, h, hQ⟩; cases h; exact hQ
  · intro h; exact ⟨_, _, rfl, h⟩

theorem wlp_call (env : Env) (e : Event) (Q : Reply → State → Prop) (s : State) :
    wlp (call env e) Q s ↔
      Q (env.reply s.tick) { s with trace := s.trace ++ [e], tick := s.tick + 1 } := by
  unfold wlp call
  constructor
  · intro h; exact h _ _ rfl
  · intro h a s1 ha; cases ha; exact h

theorem wp_emit (e : Event) (Q : Unit → State → Prop) (s : State) :
    wp (emit e) Q s ↔ Q () { s with trace := s.trace ++ [e] } := by
  unfold wp emit
  constructor
  · rintro ⟨a, s1, h, hQ⟩; cases h; exact hQ
  · intro h; exact ⟨_, _, rfl, h⟩

theorem wp_waitWhile (flag : State → Bool) (Q : Unit → State → Prop) (s : State) :
    wp (waitWhile flag) Q s ↔ flag s = false ∧ Q () s := by
  unfold wp waitWhile
  constructor
  · rintro ⟨a, s1, h, hQ⟩
    split at h
    · cases h
    · cases h; exact ⟨by simpa using ‹¬ flag s = true›, hQ⟩
  · rintro ⟨hf, hQ⟩
    exact ⟨(), s, by simp [hf], hQ⟩

theorem wlp_waitWhile (flag : State → Bool) (Q : Unit → State → Prop) (s : State) :
    wlp (waitWhile flag) Q s ↔ (flag s = false → Q () s) := by
  unfold wlp waitWhile
  constructor
  · intro h hf
    exact h () s (by simp [hf])
  · intro h a s1 ha
    split at ha
    · cases ha
    · cases ha; exact h (by simpa using ‹¬ flag s = true›)

theorem wp_lock (Q : Unit → State → Prop) (s : State) :
    wp lockSnapshotThreadWaitLock Q s ↔
      s.mSnapshotThreadWaitLock = false ∧ Q () { s with mSnapshotThreadWaitLock := true } := by
  unfold wp lockSnapshotThreadWaitLock
  constructor
  · rintro ⟨a, s1, h, hQ⟩
    split at h
    · cases h
    · cases h; exact ⟨by simpa using ‹¬ s.mSnapshotThreadWaitLock = true›, hQ⟩
  · rintro ⟨hf, hQ⟩
    exact ⟨(), _, by simp [hf], hQ⟩

theorem wp_ite {α : Type} (c : Prop) [Decidable c] (m n : M α) (Q : α → State → Prop)
    (s : State) : wp (if c then m else n) Q s ↔ (c → wp m Q s) ∧ (¬c → wp n Q s) := by
  split <;> simp [*]

theorem wp_mono {α : Type} (m : M α) (Q R : α → State → Prop) (s : State)
    (h : wp m Q s) (hQR : ∀ a s1, Q a s1 → R a s1) : wp m R s := by
  obtain ⟨a, s1, hm, hQ⟩ := h
  exact ⟨a, s1, hm, hQR a s1 hQ⟩

theorem wlp_mono {α : Type} (m : M α) (Q R : α → State → Prop) (s : State)
    (h : wlp m Q s) (hQR : ∀ a s1, Q a s1 → R a s1) : wlp m R s :=
  fun a s1 hm => hQR a s1 (h a s1 hm)

theorem wp_and_wlp {α : Type} (m : M α) (Q R : α → State → Prop) (s : State)
    (h : wp m Q s) (h2 : wlp m R s) : wp m (fun a s1 => Q a s1 ∧ R a s1) s := by
  obtain ⟨a, s1, hm, hQ⟩ := h
  exact ⟨a, s1, hm, hQ, h2 a s1 hm⟩

theorem wlp_forEach {α : Type} (I : State → Prop) (f : α → M Unit)
    (hf : ∀ a s, I s → wlp (f a) (fun _ s1 => I s1) s) (l : List α) (s : State) (hs : I s) :
    wlp (forEach l f) (fun _ s1 => I s1) s := by
  induction l generalizing s with
  | nil =>
    unfold forEach
    rw [wlp_Mpure]; exact hs
  | cons a rest ih =>
    unfold forEach
    rw [wlp_Mbind]
    exact wlp_mono _ _ _ _ (hf a s hs) (fun _ s1 h1 => ih s1 h1)

theorem wp_forEach {α : Type} (I : State → Prop) (f : α → M Unit)
    (hf : ∀ a s, I s → wp (f a) (fun _ s1 => I s1) s) (l : List α) (s : State) (hs : I s) :
    wp (forEach l f) (fun _ s1 => I s1) s := by
  induction l generalizing s with
  | nil =>
    unfold forEach
    rw [wp_Mpure]; exact hs
  | cons a rest ih =>
    unfold forEach
    rw [wp_Mbind]
    exact wp_mono _ _ _ _ (hf a s hs) (fun _ s1 h1 => ih s1 h1)

/-! ## Pool sizes -/

@[simp] theorem completeInitialization_mHeap (p : MemPool) :
    p.completeInitialization.mHeap = p.mHeap := by
  unfold MemPool.completeInitialization; split <;> rfl

@[simp] theorem completeInitialization_mFrameSize (p : MemPool) :
    p.completeInitialization.mFrameSize = p.mFrameSize := by
  unfold MemPool.completeInitialization; split <;> rfl

@[simp] theorem completeInitialization_mNumBuffers (p : MemPool) :
    p.completeInitialization.mNumBuffers = p.mNumBuffers := by
  unfold MemPool.completeInitialization; split <;> rfl

@[simp] theorem completeInitialization_mBufferSize (p : MemPool) :
    p.completeInitialization.mBufferSize = p.mBufferSize := by
  unfold MemPool.completeInitialization; split <;> rfl

@[simp] theorem completeInitialization_initialized (p : MemPool) :
    p.completeInitialization.initialized = p.initialized := by
  unfold MemPool.initialized; simp


theorem wp_register_buf (env : Env) (camfd size fd buf : Int) (t : msm_pmem_t) (a r : Bool)
    (Q : Bool → State → Prop) (s : State) :
    wp (register_buf env camfd size fd buf t a r) Q s ↔
      Q (decide (0 ≤ (env.reply s.tick).rc))
        { s with
          trace := s.trace ++
            [if r then Event.ioctl_register_pmem camfd
                { type := t, fd := fd, vaddr := buf, y_off := 0
                  cbcr_off :=
                    if t = .MSM_PMEM_RAW_MAINIMG then 0
                    else land32 (cadd (cdiv (cmul size 2) 3) 1) (not32 1)
                  active := a }
              else Event.ioctl_unregister_pmem camfd
                { type := t, fd := fd, vaddr := buf, y_off := 0
                  cbcr_off :=
                    if t = .MSM_PMEM_RAW_MAINIMG then 0
                    else land32 (cadd (cdiv (cmul size 2) 3) 1) (not32 1)
                  active := a }]
          tick := s.tick + 1 } := by
  unfold register_buf
  by_cases h : (env.reply s.tick).rc < 0
  · have h2 : ¬ (0 ≤ (env.reply s.tick).rc) := by omega
    simp [wp_bind, wp_call, wp_pure, h, h2]
  · have h2 : 0 ≤ (env.reply s.tick).rc := by omega
    simp [wp_bind, wp_call, wp_pure, h, h2]

theorem PmemPool_new_requests (env : Env) (dev : String) (fd : Int) (t : msm_pmem_t)
    (bs n fs fo : Int) (name : String) (s : State) :
    wp (PmemPool.new env dev fd t bs n fs fo name) (fun pool s1 =>
      pool.mAlignedSize = PmemPool.alignedSize bs n ∧
      ∃ rest, s1.trace =
        s.trace ++ Event.new_MemoryHeapPmem dev (PmemPool.alignedSize bs n) :: rest) s := by
  have hstep : ∀ (s1 : State) (e : Event),
      (∃ rest, s1.trace =
        s.trace ++ Event.new_MemoryHeapPmem dev (PmemPool.alignedSize bs n) :: rest) →
      ∃ rest, s1.trace ++ [e] =
        s.trace ++ Event.new_MemoryHeapPmem dev (PmemPool.alignedSize bs n) :: rest := by
    rintro s1 e ⟨rest, hrest⟩
    exact ⟨rest ++ [e], by simp [hrest]⟩
  have h0 : ∃ rest, s.trace ++ [Event.new_MemoryHeapPmem dev (PmemPool.alignedSize bs n)] =
      s.trace ++ Event.new_MemoryHeapPmem dev (PmemPool.alignedSize bs n) :: rest :=
    ⟨[], rfl⟩
  unfold PmemPool.new
  dsimp only
  rw [wp_bind, wp_call]
  split
  · rw [wp_bind, wp_call]
    split
    · rw [wp_pure]
      exact ⟨rfl, hstep ⟨_, _, _, _, _, _, _, _, _, _, _, _, _, _, _, _, _, _, _, _, _, _, _,
        _, _, _, _, _, _, _, _, _, _, _, _, _, _, _⟩ _ h0⟩
    · split
      · rw [wp_bind]
        refine wp_mono _ _ _ _ (wp_forEach
          (fun s1 => ∃ rest, s1.trace =
            s.trace ++ Event.new_MemoryHeapPmem dev (PmemPool.alignedSize bs n) :: rest)
          _ ?_ _ _ (hstep ⟨_, _, _, _, _, _, _, _, _, _, _, _, _, _, _, _, _, _, _, _, _, _, _,
            _, _, _, _, _, _, _, _, _, _, _, _, _, _, _⟩ _ h0)) ?_
        · rintro cnt s1 h1
          rw [wp_bind, wp_register_buf, wp_pure]
          exact hstep s1 _ h1
        · rintro _ s1 h
          rw [wp_pure]
          exact ⟨rfl, h⟩
      · rw [wp_bind, wp_pure, wp_pure]
        exact ⟨rfl, hstep ⟨_, _, _, _, _, _, _, _, _, _, _, _, _, _, _, _, _, _, _, _, _, _, _,
          _, _, _, _, _, _, _, _, _, _, _, _, _, _, _⟩ _ h0⟩
  · rw [wp_pure]
    exact ⟨rfl, h0⟩

theorem AshmemPool_new_requests (env : Env) (bs n fs fo : Int) (name : String) (s : State) :
    wp (AshmemPool.new env bs n fs fo name) (fun pool s1 =>
      pool.mHeap.map (fun h => h.size) = some (AshmemPool.ashmemSize env.pagesize bs n) ∧
      s1.trace =
        s.trace ++ [Event.new_MemoryHeapBase (AshmemPool.ashmemSize env.pagesize bs n)]) s := by
  unfold AshmemPool.new
  simp [wp_bind, wp_call, wp_pure]

/-- C3: for every buffer size `S` and buffer count `N` with `1 ≤ N*S ≤ 2^31`, the
constructor of a device-shared pool returns and its first call asks the heap
device for a region of `clp2(N*S)` bytes, computed in 32-bit unsigned
arithmetic; that size is a power of two and is at least `N*S`; for `N = 4`,
`S = 38016` it is `262144`. -/
theorem C3_pmem_region_size_is_power_of_two (S N : Int)
    (h1 : 1 ≤ N * S) (h2 : N * S ≤ 2 ^ 31) :
    (∀ (env : Env) (dev : String) (fd : Int) (t : msm_pmem_t) (fs fo : Int) (name : String)
        (s : State),
      ∃ pool s1 rest, PmemPool.new env dev fd t S N fs fo name s = .ok (pool, s1) ∧
        s1.trace =
          s.trace ++ Event.new_MemoryHeapPmem dev (PmemPool.alignedSize S N) :: rest) ∧
    (∃ k : Nat, PmemPool.alignedSize S N = 2 ^ k) ∧
    N * S ≤ (PmemPool.alignedSize S N : Int) ∧
    PmemPool.alignedSize 38016 4 = 262144 := by
  have hu : ((toU32 (cmul S N) : Nat) : Int) = N * S := by
    unfold cmul
    rw [toU32_wrap32, mul_comm S N]
    exact toU32_of_nonneg _ (by omega) (by omega)
  obtain ⟨k, hk, hle, -⟩ := clp2_spec (toU32 (cmul S N)) (by omega) (by omega)
  refine ⟨?_, ⟨k, hk⟩, ?_, by decide⟩
  · intro env dev fd t fs fo name s
    obtain ⟨pool, s1, hnew, -, rest, hrest⟩ :=
      PmemPool_new_requests env dev fd t S N fs fo name s
    exact ⟨pool, s1, rest, hnew, hrest⟩
  · unfold PmemPool.alignedSize
    rw [hk, ← hu]
    exact_mod_cast hle

theorem C3_pmem_region_size_is_power_of_two_witness :
    (1 : Int) ≤ 4 * 38016 ∧ (4 : Int) * 38016 ≤ 2 ^ 31 ∧
    ((∀ (env : Env) (dev : String) (fd : Int) (t : msm_pmem_t) (fs fo : Int) (name : String)
        (s : State),
      ∃ pool s1 rest, PmemPool.new env dev fd t 38016 4 fs fo name s = .ok (pool, s1) ∧
        s1.trace =
          s.trace ++ Event.new_MemoryHeapPmem dev (PmemPool.alignedSize 38016 4) :: rest) ∧
    (∃ k : Nat, PmemPool.alignedSize 38016 4 = 2 ^ k) ∧
    (4 : Int) * 38016 ≤ (PmemPool.alignedSize 38016 4 : Int) ∧
    PmemPool.alignedSize 38016 4 = 262144) :=
  ⟨by norm_num, by norm_num,
    C3_pmem_region_size_is_power_of_two 38016 4 (by norm_num) (by norm_num)⟩

/-- C4: for every buffer size `S ≥ 0`, buffer count `N ≥ 0` and page size `P` that
is a power of two, with `N*S + P - 1` inside the range of a 32-bit signed int,
the constructor of a process-local pool returns and its one call asks for a
backing region whose size is the least multiple of `P` that is at least `N*S`:
it is a multiple of `P`, it is at least `N*S`, it is below `N*S + P`, and no
multiple of `P` that is at least `N*S` is smaller. -/
theorem C4_ashmem_region_size_is_page_multiple (S N P : Int) (k : Nat)
    (hS : 0 ≤ S) (hN : 0 ≤ N) (hP : P = 2 ^ k) (hov : N * S + P - 1 < 2 ^ 31) :
    (∀ (env : Env) (fs fo : Int) (name : String) (s : State), env.pagesize = P →
      ∃ pool s1, AshmemPool.new env S N fs fo name s = .ok (pool, s1) ∧
        s1.trace = s.trace ++ [Event.new_MemoryHeapBase (AshmemPool.ashmemSize P S N)]) ∧
    P ∣ AshmemPool.ashmemSize P S N ∧
    N * S ≤ AshmemPool.ashmemSize P S N ∧
    AshmemPool.ashmemSize P S N < N * S + P ∧
    ∀ m : Int, P ∣ m → N * S ≤ m → AshmemPool.ashmemSize P S N ≤ m := by
  have hPpos : (0 : Int) < P := by rw [hP]; positivity
  refine ⟨?_, ?_⟩
  · intro env fs fo name s hpage
    obtain ⟨pool, s1, hnew, -, htrace⟩ := AshmemPool_new_requests env S N fs fo name s
    rw [hpage] at htrace
    exact ⟨pool, s1, hnew, htrace⟩
  rw [ashmemSize_eq S N P k hS hN hP hov]
  have hdiv := Int.emod_add_ediv (N * S + P - 1) P
  have hr0 := Int.emod_nonneg (N * S + P - 1) (ne_of_gt hPpos)
  have hr1 := Int.emod_lt_of_pos (N * S + P - 1) hPpos
  refine ⟨Dvd.intro _ rfl, by linarith, by linarith, ?_⟩
  rintro m ⟨c, rfl⟩ hm
  apply mul_le_mul_of_nonneg_left _ (le_of_lt hPpos)
  by_contra hc
  have h1 : c + 1 ≤ (N * S + P - 1) / P := by omega
  have h2 := mul_le_mul_of_nonneg_left h1 (le_of_lt hPpos)
  linarith

theorem C4_ashmem_region_size_is_page_multiple_witness :
    (0 : Int) ≤ 2880000 ∧ (0 : Int) ≤ 1 ∧ (4096 : Int) = 2 ^ 12 ∧
    (1 : Int) * 2880000 + 4096 - 1 < 2 ^ 31 ∧
    ((∀ (env : Env) (fs fo : Int) (name : String) (s : State), env.pagesize = 4096 →
      ∃ pool s1, AshmemPool.new env 2880000 1 fs fo name s = .ok (pool, s1) ∧
        s1.trace =
          s.trace ++ [Event.new_MemoryHeapBase (AshmemPool.ashmemSize 4096 2880000 1)]) ∧
    (4096 : Int) ∣ AshmemPool.ashmemSize 4096 2880000 1 ∧
    1 * 2880000 ≤ AshmemPool.ashmemSize 4096 2880000 1 ∧
    AshmemPool.ashmemSize 4096 2880000 1 < 1 * 2880000 + 4096 ∧
    ∀ m : Int, (4096 : Int) ∣ m → 1 * 2880000 ≤ m → AshmemPool.ashmemSize 4096 2880000 1 ≤ m) :=
  ⟨by norm_num, by norm_num, by norm_num, by norm_num,
    C4_ashmem_region_size_is_page_multiple 2880000 1 4096 12
      (by norm_num) (by norm_num) (by norm_num) (by norm_num)⟩

/-! ## Parameters and preview -/

/-- C1: for every hardware state and every parameter set whose preview size is
not an entry of `preview_sizes`, `setParameters` returns `BAD_VALUE` and leaves
the state as it was: the stored parameter set, the preview and raw dimensions,
every field of `mDimension`, and the record of device calls (none is issued). -/
theorem C1_setParameters_rejects_unsupported_preview_size (c : CameraEnums) (env : Env) (params : CameraParameters)
    (s : State)
    (h : (⟨params.getPreviewSize.1, params.getPreviewSize.2⟩ : preview_size_type) ∉ preview_sizes) :
    setParameters c env params s = .ok (BAD_VALUE, s) := by
  have hfind : preview_sizes.find? (fun ps => decide (params.getPreviewSize.1 = ps.width ∧ params.getPreviewSize.2 = ps.height)) = none := by
    rw [List.find?_eq_none]
    intro ps hps hm
    simp only [decide_eq_true_eq] at hm
    apply h
    have : ps = ⟨params.getPreviewSize.1, params.getPreviewSize.2⟩ := by
      cases ps; simp only [preview_size_type.mk.injEq]; exact ⟨hm.1.symm, hm.2.symm⟩
    rw [← this]; exact hps
  unfold setParameters
  simp only [hfind]
  rfl

theorem C1_setParameters_rejects_unsupported_preview_size_witness :
    (⟨CameraParameters.vga.getPreviewSize.1, CameraParameters.vga.getPreviewSize.2⟩ :
      preview_size_type) ∉ preview_sizes ∧
    setParameters CameraEnums.sample Env.allSucceed CameraParameters.vga State.qvga =
      .ok (BAD_VALUE, State.qvga) :=
  ⟨by decide,
    C1_setParameters_rejects_unsupported_preview_size CameraEnums.sample Env.allSucceed
      CameraParameters.vga State.qvga (by decide)⟩

theorem finRange_preview : List.finRange kPreviewBufferCount = [0, 1, 2, 3] := by decide

theorem PreviewPmemPool.destroy_eq (env : Env) (p : PreviewPmemPool) :
    p.destroy env = pure () := by
  unfold PreviewPmemPool.destroy PmemPool.destroy
  simp [p.property]

theorem wp_assignPreviewHeap (env : Env) (p : PreviewPmemPool) (Q : Unit → State → Prop)
    (s : State) :
    wp (assignPreviewHeap env p) Q s ↔ Q () { s with mPreviewHeap := some p } := by
  unfold assignPreviewHeap
  cases h : s.mPreviewHeap <;>
    simp [wp_bind, wp_getS, h, wp_pure, wp_modifyS, PreviewPmemPool.destroy_eq]

theorem wp_clearPreviewHeap (env : Env) (Q : Unit → State → Prop) (s : State) :
    wp (clearPreviewHeap env) Q s ↔ Q () { s with mPreviewHeap := none } := by
  unfold clearPreviewHeap
  cases h : s.mPreviewHeap
  · simp only [wp_bind, wp_getS, h, wp_pure]
    have : s = { s with mPreviewHeap := none } := by cases s; simp_all
    rw [← this]
  · simp [wp_bind, wp_getS, h, wp_pure, wp_modifyS, PreviewPmemPool.destroy_eq]

theorem wp_native_register_preview_bufs (env : Env) (fd : Int) (frame : msm_frame_t)
    (active : Bool) (Q : Unit → State → Prop) (s : State) :
    wp (native_register_preview_bufs env fd frame active) Q s ↔
      Q () { s with
        trace := s.trace ++
          [.ioctl_register_pmem fd (reg_unreg_pmemBuf frame .MSM_PMEM_OUTPUT2 active)]
        tick := s.tick + 1 } := by
  unfold native_register_preview_bufs reg_unreg_buf
  by_cases h : (env.reply s.tick).rc < 0 <;>
    simp [wp_bind, wp_call, wp_pure, h]

theorem previewStartCalls_take (env : Env) (s : State) :
    (previewStartCalls env s).take 8 ++
      [Event.ioctl_ctrl_command s.mCameraControlFd .CAMERA_START_PREVIEW .null] =
      previewStartCalls env s := by
  simp [previewStartCalls, finRange_preview]

set_option maxHeartbeats 1000000 in
theorem initPreview_started (env : Env) (s : State)
    (h3 : s.mFrameThreadRunning = false)
    (h4 : s.mSnapshotThreadRunning = false) (h5 : s.mSnapshotThreadWaitLock = false)
    (henv : env.previewStarts s.tick) :
    wp (initPreview env) (fun b s2 => b = true ∧ s2.mFrameThreadRunning = true ∧
      s2.mCameraRunning = s.mCameraRunning ∧
      s2.mPreviewInitialized = s.mPreviewInitialized ∧
      s2.mCameraControlFd = s.mCameraControlFd ∧
      s2.mMsgEnabled = s.mMsgEnabled ∧
      s2.mPreviewFrameSize = cdiv (cmul (cmul s.mPreviewWidth s.mPreviewHeight) 3) 2 ∧
      s2.trace = s.trace ++ (previewStartCalls env s).take 8 ∧
      s2.tick = s.tick + 8 ∧
      (∀ cnt, s2.frames cnt = previewFrame env s) ∧
      ∃ pool, s2.mPreviewHeap = some pool ∧
        pool.val.toMemPool = MemPool.completeInitialization
          { mBufferSize := cmul (cmul s.mPreviewWidth s.mPreviewHeight) 2
            mNumBuffers := kPreviewBufferCount
            mFrameSize := cdiv (cmul (cmul s.mPreviewWidth s.mPreviewHeight) 3) 2
            mFrameOffset := 0
            mHeap := some (previewHeap env s)
            mName := "preview" }) s := by
  obtain ⟨⟨h0a, h0b, h0c⟩, h1, ⟨h2a, h2b⟩, -, h7, -⟩ := henv
  have hn2 : ¬ (env.reply (s.tick + 2)).rc < 0 := by omega
  simp [initPreview, wp_bind, wp_pure, wp_getS, wp_modifyS, wp_call, wp_waitWhile, wp_lock,
    unlockSnapshotThreadWaitLock, wp_assignPreviewHeap, wp_clearPreviewHeap,
    h3, h4, h5, PreviewPmemPool.new, PmemPool.new, h0a, h0b, h0c, h1, h2a, h2b, h7, hn2,
    MemPool.initialized, native_set_dimension, native_set_parm,
    finRange_preview, initPreviewFrames, wp_Mbind, wp_Mpure, wp_native_register_preview_bufs]
  refine ⟨?_, ?_, ?_⟩
  · simp [previewStartCalls, finRange_preview, previewFrame, previewHeap]
    rfl
  · intro cnt
    fin_cases cnt <;> simp [Function.update, previewFrame, previewHeap]
  · simp [previewHeap]

theorem wp_native_start_preview (env : Env) (fd : Int) (Q : Bool → State → Prop) (s : State) :
    wp (native_start_preview env fd) Q s ↔
      Q (decide (0 ≤ (env.reply s.tick).rc))
        { s with
          trace := s.trace ++ [.ioctl_ctrl_command fd .CAMERA_START_PREVIEW .null]
          tick := s.tick + 1 } := by
  unfold native_start_preview
  by_cases h : (env.reply s.tick).rc < 0
  · have h2 : ¬ (0 ≤ (env.reply s.tick).rc) := by omega
    simp [wp_bind, wp_call, wp_pure, h, h2]
  · have h2 : 0 ≤ (env.reply s.tick).rc := by omega
    simp [wp_bind, wp_call, wp_pure, h, h2]

theorem startPreview_started (env : Env) (s : State) (hidle : s.idle)
    (henv : env.previewStarts s.tick) :
    wp (startPreview env) (fun r s2 => r = NO_ERROR ∧ s2.mCameraRunning = true ∧
      s2.mFrameThreadRunning = true ∧ s2.mPreviewInitialized = true ∧
      s2.mMsgEnabled = s.mMsgEnabled ∧
      s2.mPreviewFrameSize = cdiv (cmul (cmul s.mPreviewWidth s.mPreviewHeight) 3) 2 ∧
      s2.trace = s.trace ++ previewStartCalls env s ∧
      s2.tick = s.tick + 9 ∧
      (∀ cnt, s2.frames cnt = previewFrame env s) ∧
      ∃ pool, s2.mPreviewHeap = some pool ∧
        pool.val.toMemPool = MemPool.completeInitialization
          { mBufferSize := cmul (cmul s.mPreviewWidth s.mPreviewHeight) 2
            mNumBuffers := kPreviewBufferCount
            mFrameSize := cdiv (cmul (cmul s.mPreviewWidth s.mPreviewHeight) 3) 2
            mFrameOffset := 0
            mHeap := some (previewHeap env s)
            mName := "preview" }) s := by
  obtain ⟨h1, h2, h3, h4, h5⟩ := hidle
  have h8 : 0 ≤ (env.reply (s.tick + 8)).rc := henv.2.2.2.2.2
  have hn8 : ¬ (env.reply (s.tick + 8)).rc < 0 := by omega
  unfold startPreview startPreviewInternal
  simp only [wp_bind, wp_getS, h1, h2, Bool.false_eq_true, if_false, Bool.not_false, if_true]
  apply wp_mono _ _ _ _ (initPreview_started env s h3 h4 h5 henv)
  rintro b s1 ⟨rfl, hf, hc, hi, hfd, hm, hsz, htr, htk, hfr, pool, hpool, hmp⟩
  rw [← previewStartCalls_take env s]
  simp [wp_bind, wp_getS, wp_modifyS, wp_pure, wp_native_start_preview, hf, hm, hsz, hpool, hmp,
    htk, h8, hn8, hfr, htr, hfd]

theorem setParameters_accept (c : CameraEnums) (env : Env) (params : CameraParameters)
    (s : State) (ps : preview_size_type) (hps : ps ∈ preview_sizes)
    (hsize : params.getPreviewSize = (ps.width, ps.height))
    (hrun : s.mCameraRunning = false) :
    setParameters c env params s = .ok (NO_ERROR,
      { s with
        mPreviewWidth := ps.width
        mPreviewHeight := ps.height
        mRawWidth := params.getPictureSize.1
        mRawHeight := params.getPictureSize.2
        mDimension :=
          { s.mDimension with
            display_width := ps.width
            display_height := ps.height
            picture_width := params.getPictureSize.1
            picture_height := params.getPictureSize.2
            ui_thumbnail_width :=
              if params.getInt "jpeg-thumbnail-width" < 0 then THUMBNAIL_WIDTH
              else params.getInt "jpeg-thumbnail-width"
            ui_thumbnail_height :=
              if params.getInt "jpeg-thumbnail-height" < 0 then THUMBNAIL_HEIGHT
              else params.getInt "jpeg-thumbnail-height" }
        mParameters := params }) := by
  simp only [preview_sizes, List.mem_cons, List.mem_singleton, List.not_mem_nil, or_false] at hps
  unfold setParameters
  rcases hps with rfl | rfl | rfl | rfl <;>
    simp [hsize, preview_sizes, List.find?, bind_apply, M.bind, modifyS, getS, hrun, pure_apply]

theorem Env.heapDescriptor25_previewStarts : Env.heapDescriptor25.previewStarts 0 := by
  unfold Env.previewStarts
  decide

/-- C2: for each of the four sizes `(w, h)` of `preview_sizes`, starting idle and
with every device command, pool allocation and thread creation of the start
answered with what the code takes as success (the heap descriptor may be any
value that is not negative), `setParameters` returns `NO_ERROR`, makes no call
and records `w` and `h` as the preview width and height; the following
`startPreview` returns `NO_ERROR` with the preview running, initialised and the
frame thread flagged running.  The calls made are exactly the nine of
`previewStartCalls`, answered in this order: pool creation, size query,
dimension command, one register call for each of the `kPreviewBufferCount`
frames, creation of the frame thread, start command.  Every entry of `frames` holds the descriptor and the
base address of the pool.  The pool has `kPreviewBufferCount` slots of `w*h*2`
bytes and one descriptor for each slot; the payload size of the pool and of
every descriptor is `w*h*3/2`, with `2 * payload = 3 * w * h`. -/
theorem C2_supported_preview_size_starts_preview (c : CameraEnums) (env : Env) (params : CameraParameters) (s : State)
    (ps : preview_size_type) (hps : ps ∈ preview_sizes)
    (hsize : params.getPreviewSize = (ps.width, ps.height))
    (hidle : s.idle) (henv : env.previewStarts s.tick) :
    ∃ s1 s2 pool,
      setParameters c env params s = .ok (NO_ERROR, s1) ∧
      s1.mPreviewWidth = ps.width ∧ s1.mPreviewHeight = ps.height ∧
      startPreview env s1 = .ok (NO_ERROR, s2) ∧
      s2.mCameraRunning = true ∧ s2.mFrameThreadRunning = true ∧
      s2.mPreviewHeap = some pool ∧
      pool.val.mFrameSize = ps.width * ps.height * 3 / 2 ∧
      2 * pool.val.mFrameSize = 3 * ps.width * ps.height ∧
      s2.mPreviewFrameSize = pool.val.mFrameSize ∧
      s1.trace = s.trace ∧ s1.tick = s.tick ∧
      s2.mPreviewInitialized = true ∧
      s2.trace = s1.trace ++ previewStartCalls env s1 ∧
      s2.tick = s1.tick + (previewStartCalls env s1).length ∧
      (previewStartCalls env s1).length = 9 ∧
      (∀ cnt, s2.frames cnt = previewFrame env s1) ∧
      pool.val.mHeap = some (previewHeap env s1) ∧
      pool.val.mBufferSize = ps.width * ps.height * 2 ∧
      pool.val.mNumBuffers = kPreviewBufferCount ∧
      pool.val.mBuffers.length = kPreviewBufferCount ∧
      ∀ b ∈ pool.val.mBuffers, b.size = ps.width * ps.height * 3 / 2 := by
  obtain ⟨s1, hs1, hw, hh, htr1, htk1, hidle1⟩ :
      ∃ s1, setParameters c env params s = .ok (NO_ERROR, s1) ∧
        s1.mPreviewWidth = ps.width ∧ s1.mPreviewHeight = ps.height ∧
        s1.trace = s.trace ∧ s1.tick = s.tick ∧ s1.idle :=
    ⟨_, setParameters_accept c env params s ps hps hsize hidle.1, rfl, rfl, rfl, rfl, hidle⟩
  rw [← htk1] at henv
  obtain ⟨r, s2, hrun, rfl, hcam, hthr, hini, -, hpfs, htr, htk, hfr, pool, hpool, hmp⟩ :=
    startPreview_started env s1 hidle1 henv
  have hlen : (previewStartCalls env s1).length = 9 := by
    simp [previewStartCalls]
  rw [hw, hh] at hmp hpfs
  have harith : cdiv (cmul (cmul ps.width ps.height) 3) 2 = ps.width * ps.height * 3 / 2 ∧
      2 * (ps.width * ps.height * 3 / 2) = 3 * ps.width * ps.height ∧
      cmul (cmul ps.width ps.height) 2 = ps.width * ps.height * 2 ∧
      (0 : Int) < ps.width * ps.height * 3 / 2 := by
    simp only [preview_sizes, List.mem_cons, List.mem_singleton, List.not_mem_nil, or_false] at hps
    rcases hps with rfl | rfl | rfl | rfl <;> decide
  rw [harith.1, harith.2.2.1] at hmp
  have hmp2 : pool.val.toMemPool =
      { mBufferSize := ps.width * ps.height * 2
        mNumBuffers := kPreviewBufferCount
        mFrameSize := ps.width * ps.height * 3 / 2
        mFrameOffset := 0
        mHeap := some (previewHeap env s1)
        mBuffers := (List.range kPreviewBufferCount).map fun (i : Nat) =>
          { heap := some (previewHeap env s1)
            offset := cadd (cmul (i : Int) (ps.width * ps.height * 2)) 0
            size := ps.width * ps.height * 3 / 2 }
        mName := "preview" } := by
    rw [hmp]
    unfold MemPool.completeInitialization
    simp [harith.2.2.2]
  refine ⟨s1, s2, pool, hs1, hw, hh, hrun, hcam, hthr, hpool, ?_, ?_, ?_, htr1, htk1, hini, htr,
    by rw [hlen, htk], hlen, hfr, ?_, ?_, ?_, ?_, ?_⟩
  · rw [hmp2]
  · rw [hmp2]; exact harith.2.1
  · rw [hpfs, harith.1, hmp2]
  · rw [hmp2]
  · rw [hmp2]
  · rw [hmp2]
  · rw [hmp2]; simp
  · rw [hmp2]
    intro b hb
    simp only [List.mem_map] at hb
    obtain ⟨i, -, rfl⟩ := hb
    rfl

theorem C2_supported_preview_size_starts_preview_witness :
    (⟨320, 240⟩ : preview_size_type) ∈ preview_sizes ∧
    CameraParameters.qvga.getPreviewSize = (320, 240) ∧
    State.opened.idle ∧ Env.heapDescriptor25.previewStarts State.opened.tick ∧
    ∃ s1 s2 pool,
      setParameters CameraEnums.sample Env.heapDescriptor25 CameraParameters.qvga State.opened =
        .ok (NO_ERROR, s1) ∧
      s1.mPreviewWidth = 320 ∧ s1.mPreviewHeight = 240 ∧
      startPreview Env.heapDescriptor25 s1 = .ok (NO_ERROR, s2) ∧
      s2.mCameraRunning = true ∧ s2.mFrameThreadRunning = true ∧
      s2.mPreviewHeap = some pool ∧
      pool.val.mFrameSize = 320 * 240 * 3 / 2 ∧
      2 * pool.val.mFrameSize = 3 * 320 * 240 ∧
      s2.mPreviewFrameSize = pool.val.mFrameSize ∧
      s1.trace = State.opened.trace ∧ s1.tick = State.opened.tick ∧
      s2.mPreviewInitialized = true ∧
      s2.trace = s1.trace ++ previewStartCalls Env.heapDescriptor25 s1 ∧
      s2.tick = s1.tick + (previewStartCalls Env.heapDescriptor25 s1).length ∧
      (previewStartCalls Env.heapDescriptor25 s1).length = 9 ∧
      (∀ cnt, s2.frames cnt = previewFrame Env.heapDescriptor25 s1) ∧
      pool.val.mHeap = some (previewHeap Env.heapDescriptor25 s1) ∧
      pool.val.mBufferSize = 320 * 240 * 2 ∧
      pool.val.mNumBuffers = kPreviewBufferCount ∧
      pool.val.mBuffers.length = kPreviewBufferCount ∧
      ∀ b ∈ pool.val.mBuffers, b.size = 320 * 240 * 3 / 2 :=
  ⟨by decide, rfl, ⟨rfl, rfl, rfl, rfl, rfl⟩, Env.heapDescriptor25_previewStarts,
    C2_supported_preview_size_starts_preview CameraEnums.sample Env.heapDescriptor25
      CameraParameters.qvga State.opened ⟨320, 240⟩ (by decide) rfl
      ⟨rfl, rfl, rfl, rfl, rfl⟩ Env.heapDescriptor25_previewStarts⟩

theorem wlp_of_wp_iff {α : Type} (m : M α) (Q : α → State → Prop) (s : State)
    (a : α) (s1 : State) (h : ∀ R, wp m R s ↔ R a s1) : wlp m Q s ↔ Q a s1 := by
  obtain ⟨b, s2, hm, rfl, rfl⟩ := (h (fun x y => x = a ∧ y = s1)).2 ⟨rfl, rfl⟩
  unfold wlp
  constructor
  · intro hq; exact hq _ _ hm
  · intro hq x y hxy
    rw [hm] at hxy
    cases hxy
    exact hq

theorem wlp_clearPreviewHeap (env : Env) (Q : Unit → State → Prop) (s : State) :
    wlp (clearPreviewHeap env) Q s ↔ Q () { s with mPreviewHeap := none } :=
  wlp_of_wp_iff _ _ _ _ _ (fun R => wp_clearPreviewHeap env R s)

theorem wp_native_stop_preview (env : Env) (fd : Int) (Q : Bool → State → Prop) (s : State) :
    wp (native_stop_preview env fd) Q s ↔
      Q (decide (0 ≤ (env.reply s.tick).rc))
        { s with
          trace := s.trace ++ [.ioctl_ctrl_command fd .CAMERA_STOP_PREVIEW .null]
          tick := s.tick + 1 } := by
  unfold native_stop_preview
  by_cases h : (env.reply s.tick).rc < 0
  · have h2 : ¬ (0 ≤ (env.reply s.tick).rc) := by omega
    simp [wp_bind, wp_call, wp_pure, h, h2]
  · have h2 : 0 ≤ (env.reply s.tick).rc := by omega
    simp [wp_bind, wp_call, wp_pure, h, h2]

theorem wp_native_unregister_preview_bufs (env : Env) (fd : Int) (frame : msm_frame_t)
    (Q : Unit → State → Prop) (s : State) :
    wp (native_unregister_preview_bufs env fd frame) Q s ↔
      Q () { s with
        trace := s.trace ++
          [.ioctl_unregister_pmem fd (reg_unreg_pmemBuf frame .MSM_PMEM_OUTPUT2 true)]
        tick := s.tick + 1 } := by
  unfold native_unregister_preview_bufs reg_unreg_buf
  by_cases h : (env.reply s.tick).rc < 0 <;>
    simp [wp_bind, wp_call, wp_pure, h]

theorem wp_forEach_unregister (env : Env) (fd : Int)
    (fr : Fin kPreviewBufferCount → msm_frame_t) (l : List (Fin kPreviewBufferCount))
    (Q : Unit → State → Prop) (s : State) :
    wp (forEach l fun cnt => native_unregister_preview_bufs env fd (fr cnt)) Q s ↔
      Q () { s with
        trace := s.trace ++ l.map fun cnt =>
          Event.ioctl_unregister_pmem fd (reg_unreg_pmemBuf (fr cnt) .MSM_PMEM_OUTPUT2 true)
        tick := s.tick + l.length } := by
  induction l generalizing s with
  | nil =>
    unfold forEach
    rw [wp_Mpure]
    simp
  | cons a rest ih =>
    unfold forEach
    rw [wp_Mbind, wp_native_unregister_preview_bufs, ih]
    have : ∀ (x y : State), x = y → (Q () x ↔ Q () y) := fun x y h => by rw [h]
    apply this
    simp [List.append_assoc, Nat.add_assoc, Nat.add_comm]

theorem deinitPreview_spec (env : Env) (s : State) :
    wp (deinitPreview env) (fun _ s1 =>
      s1.mPreviewHeap = none ∧ s1.trace = s.trace ++ deinitPreviewEvents s ∧
      s1.mCameraRunning = s.mCameraRunning ∧ s1.mPreviewInitialized = s.mPreviewInitialized ∧
      (s.mFrameThreadRunning = false → s1.mFrameThreadRunning = false)) s := by
  unfold deinitPreview
  by_cases hf : s.mFrameThreadRunning = true
  · by_cases hk : (env.reply s.tick).rc = 0 <;>
    simp [wp_bind, wp_getS, wp_call, wp_modifyS, wp_pure, wp_clearPreviewHeap, hf, hk,
      wp_forEach_unregister, deinitPreviewEvents]
  · simp [wp_bind, wp_getS, wp_call, wp_modifyS, wp_pure, wp_clearPreviewHeap, hf,
      wp_forEach_unregister, deinitPreviewEvents]

theorem retval_eq_some {α : Type} (r : Except Halt (α × State)) (a : α)
    (h : retval r = some a) : ∃ s1, r = .ok (a, s1) := by
  cases r with
  | error e => simp [retval] at h
  | ok p =>
    obtain ⟨b, s1⟩ := p
    simp only [retval, Option.some.injEq] at h
    exact ⟨s1, by rw [h]⟩

theorem wp_of_eq {α : Type} (m : M α) (Q : α → State → Prop) (s s1 : State) (a : α)
    (h : m s = .ok (a, s1)) : wp m Q s ↔ Q a s1 := by
  unfold wp
  constructor
  · rintro ⟨b, s2, hb, hQ⟩
    rw [h] at hb
    cases hb
    exact hQ
  · intro hQ
    exact ⟨a, s1, h, hQ⟩

theorem keeps_bind {α β : Type} {I : State → Prop} {m : M α} {f : α → M β}
    (hm : keeps I m) (hf : ∀ a, keeps I (f a)) : keeps I (m >>= f) := by
  intro s hs
  rw [wlp_bind]
  exact wlp_mono _ _ _ _ (hm s hs) (fun a s1 h1 => hf a s1 h1)

theorem keeps_Mbind {α β : Type} {I : State → Prop} {m : M α} {f : α → M β}
    (hm : keeps I m) (hf : ∀ a, keeps I (f a)) : keeps I (M.bind m f) :=
  keeps_bind hm hf

theorem keeps_pure {α : Type} {I : State → Prop} (a : α) : keeps I (pure a : M α) := by
  intro s hs
  rw [wlp_pure]; exact hs

theorem keeps_Mpure {α : Type} {I : State → Prop} (a : α) : keeps I (M.pure a) :=
  keeps_pure a

theorem keeps_getS {I : State → Prop} : keeps I getS := by
  intro s hs
  rw [wlp_getS]; exact hs

theorem keeps_halt {α : Type} {I : State → Prop} (e : Halt) : keeps I (halt e : M α) := by
  intro s _
  rw [wlp_halt]; trivial

theorem keeps_modifyS {I : State → Prop} {f : State → State} (h : ∀ s, I s → I (f s)) :
    keeps I (modifyS f) := by
  intro s hs
  rw [wlp_modifyS]; exact h s hs

theorem keeps_call {I : State → Prop} (env : Env) (e : Event)
    (h : ∀ s, I s → I { s with trace := s.trace ++ [e], tick := s.tick + 1 }) :
    keeps I (call env e) := by
  intro s hs
  rw [wlp_call]; exact h s hs

theorem keeps_ite {α : Type} {I : State → Prop} {c : Prop} [Decidable c] {m n : M α}
    (hm : keeps I m) (hn : keeps I n) : keeps I (if c then m else n) := by
  split
  · exact hm
  · exact hn

theorem keeps_forEach {α : Type} {I : State → Prop} {f : α → M Unit} (l : List α)
    (hf : ∀ a, keeps I (f a)) : keeps I (forEach l f) :=
  fun s hs => wlp_forEach I f (fun a s1 h1 => hf a s1 h1) l s hs

theorem keeps_waitWhile {I : State → Prop} (flag : State → Bool) : keeps I (waitWhile flag) := by
  intro s hs
  rw [wlp_waitWhile]; intro _; exact hs

theorem snapshotControl_call (s s1 : State) (e : Event)
    (he : e ≠ Event.pthread_create .snapshot_thread) (h : s.snapshotControl s1) :
    s.snapshotControl { s1 with trace := s1.trace ++ [e], tick := s1.tick + 1 } := by
  obtain ⟨h1, h2, h3, h4, h5⟩ := h
  refine ⟨h1, h2, h3, h4, ?_⟩
  unfold snapshotThreadsCreated at *
  simp [List.count_append, List.count_singleton, he, h5]

theorem keeps_register_buf (s : State) (env : Env) (camfd size fd buf : Int)
    (t : msm_pmem_t) (a r : Bool) :
    keeps s.snapshotControl (register_buf env camfd size fd buf t a r) := by
  unfold register_buf
  refine keeps_bind (keeps_call env _ fun s1 h => snapshotControl_call s s1 _ ?_ h) fun _ => ?_
  · split <;> simp
  · exact keeps_ite (keeps_pure _) (keeps_pure _)

theorem keeps_PmemPool_new (s : State) (env : Env) (dev : String) (fd : Int) (t : msm_pmem_t)
    (bs n fs fo : Int) (name : String) :
    keeps s.snapshotControl (PmemPool.new env dev fd t bs n fs fo name) := by
  unfold PmemPool.new
  dsimp only
  refine keeps_bind (keeps_call env _ fun s1 h => snapshotControl_call s s1 _ (by simp) h)
    fun r => ?_
  refine keeps_ite ?_ (keeps_pure _)
  refine keeps_bind (keeps_call env _ fun s1 h => snapshotControl_call s s1 _ (by simp) h)
    fun g => ?_
  refine keeps_ite (keeps_pure _) ?_
  refine keeps_ite ?_ (keeps_pure _)
  refine keeps_bind ?_ fun _ => keeps_pure _
  exact keeps_forEach _ fun cnt =>
    keeps_bind (keeps_register_buf s env _ _ _ _ _ _ _) fun _ => keeps_pure _

theorem keeps_PmemPool_destroy (s : State) (env : Env) (p : PmemPool) :
    keeps s.snapshotControl (p.destroy env) := by
  unfold PmemPool.destroy
  refine keeps_ite ?_ (keeps_pure _)
  refine keeps_forEach _ fun cnt => ?_
  split
  · exact keeps_halt _
  · exact keeps_bind (keeps_register_buf s env _ _ _ _ _ _ _) fun _ => keeps_pure _

theorem keeps_releasePmem (s : State) (env : Env) (h : Option PmemPool) :
    keeps s.snapshotControl (releasePmem env h) := by
  unfold releasePmem
  split
  · exact keeps_pure _
  · exact keeps_PmemPool_destroy s env _

theorem keeps_clearRawHeap (s : State) (env : Env) :
    keeps s.snapshotControl (clearRawHeap env) := by
  unfold clearRawHeap
  exact keeps_bind keeps_getS fun s0 =>
    keeps_bind (keeps_releasePmem s env _) fun _ => keeps_modifyS fun _ h => h

theorem keeps_assignRawHeap (s : State) (env : Env) (p : PmemPool) :
    keeps s.snapshotControl (assignRawHeap env p) := by
  unfold assignRawHeap
  exact keeps_bind keeps_getS fun s0 =>
    keeps_bind (keeps_releasePmem s env _) fun _ => keeps_modifyS fun _ h => h

theorem keeps_clearThumbnailHeap (s : State) (env : Env) :
    keeps s.snapshotControl (clearThumbnailHeap env) := by
  unfold clearThumbnailHeap
  exact keeps_bind keeps_getS fun s0 =>
    keeps_bind (keeps_releasePmem s env _) fun _ => keeps_modifyS fun _ h => h

theorem keeps_assignThumbnailHeap (s : State) (env : Env) (p : PmemPool) :
    keeps s.snapshotControl (assignThumbnailHeap env p) := by
  unfold assignThumbnailHeap
  exact keeps_bind keeps_getS fun s0 =>
    keeps_bind (keeps_releasePmem s env _) fun _ => keeps_modifyS fun _ h => h

theorem keeps_clearJpegHeap (s : State) : keeps s.snapshotControl clearJpegHeap := by
  unfold clearJpegHeap
  exact keeps_modifyS fun _ h => h

theorem keeps_AshmemPool_new (s : State) (env : Env) (bs n fs fo : Int) (name : String) :
    keeps s.snapshotControl (AshmemPool.new env bs n fs fo name) := by
  unfold AshmemPool.new
  exact keeps_bind (keeps_call env _ fun s1 h => snapshotControl_call s s1 _ (by simp) h)
    fun r => keeps_pure _

theorem keeps_native_set_parm (s : State) (env : Env) (t : cam_ctrl_type) (v : CtrlValue) :
    keeps s.snapshotControl (native_set_parm env t v) := by
  unfold native_set_parm
  exact keeps_bind keeps_getS fun s0 =>
    keeps_bind (keeps_call env _ fun s1 h => snapshotControl_call s s1 _ (by simp) h)
      fun r => keeps_ite (keeps_pure _) (keeps_pure _)

theorem keeps_native_set_dimension (s : State) (env : Env) :
    keeps s.snapshotControl (native_set_dimension env) := by
  unfold native_set_dimension
  exact keeps_bind keeps_getS fun s0 => keeps_native_set_parm s env _ _

theorem keeps_initRawJpeg (s : State) (env : Env) (b : Bool) :
    keeps s.snapshotControl (initRawJpeg env b) := by
  unfold initRawJpeg
  refine keeps_ite ?_ ?_
  · refine keeps_bind keeps_getS fun s0 => ?_
    refine keeps_bind (keeps_AshmemPool_new s env _ _ _ _ _) fun jpeg => ?_
    refine keeps_bind (keeps_modifyS fun _ h => h) fun _ => ?_
    refine keeps_ite ?_ ?_
    · exact keeps_bind (keeps_clearJpegHeap s) fun _ =>
        keeps_bind (keeps_clearRawHeap s env) fun _ => keeps_pure _
    · exact keeps_bind (keeps_modifyS fun _ h => h) fun _ => keeps_pure _
  · exact keeps_bind (keeps_modifyS fun _ h => h) fun _ => keeps_pure _

theorem keeps_initRaw (s : State) (env : Env) (b : Bool) :
    keeps s.snapshotControl (initRaw env b) := by
  unfold initRaw
  refine keeps_bind (keeps_modifyS fun _ h => h) fun _ => ?_
  refine keeps_bind (keeps_native_set_dimension s env) fun ok => ?_
  refine keeps_ite (keeps_pure _) ?_
  refine keeps_bind (keeps_clearJpegHeap s) fun _ => ?_
  refine keeps_bind keeps_getS fun s0 => ?_
  refine keeps_bind (keeps_PmemPool_new s env _ _ _ _ _ _ _ _) fun thumb => ?_
  refine keeps_bind (keeps_assignThumbnailHeap s env _) fun _ => ?_
  refine keeps_ite ?_ ?_
  · exact keeps_bind (keeps_clearThumbnailHeap s env) fun _ =>
      keeps_bind (keeps_clearRawHeap s env) fun _ => keeps_pure _
  refine keeps_bind keeps_getS fun s1 => ?_
  refine keeps_bind (keeps_PmemPool_new s env _ _ _ _ _ _ _ _) fun raw => ?_
  refine keeps_bind (keeps_assignRawHeap s env _) fun _ => ?_
  refine keeps_ite ?_ (keeps_initRawJpeg s env b)
  refine keeps_bind (keeps_PmemPool_new s env _ _ _ _ _ _ _ _) fun raw2 => ?_
  refine keeps_bind (keeps_assignRawHeap s env _) fun _ => ?_
  refine keeps_ite ?_ (keeps_initRawJpeg s env b)
  exact keeps_bind (keeps_clearRawHeap s env) fun _ => keeps_pure _

theorem keeps_reg_unreg_buf (s : State) (env : Env) (camfd : Int) (frame : msm_frame_t)
    (t : msm_pmem_t) (u a : Bool) :
    keeps s.snapshotControl (reg_unreg_buf env camfd frame t u a) := by
  unfold reg_unreg_buf
  refine keeps_bind (keeps_call env _ fun s1 h => snapshotControl_call s s1 _ ?_ h) fun _ => ?_
  · split <;> simp
  · exact keeps_ite (keeps_pure _) (keeps_pure _)

theorem keeps_clearPreviewHeap (s : State) (env : Env) :
    keeps s.snapshotControl (clearPreviewHeap env) := by
  intro s0 h0
  rw [wlp_clearPreviewHeap]
  exact h0

theorem keeps_native_unregister_preview_bufs (s : State) (env : Env) (fd : Int)
    (frame : msm_frame_t) :
    keeps s.snapshotControl (native_unregister_preview_bufs env fd frame) := by
  unfold native_unregister_preview_bufs
  exact keeps_bind (keeps_reg_unreg_buf s env _ _ _ _ _) fun _ => keeps_pure _

theorem keeps_deinitPreview (s : State) (env : Env) :
    keeps s.snapshotControl (deinitPreview env) := by
  unfold deinitPreview
  dsimp only
  repeat (first
    | exact keeps_pure _
    | exact keeps_getS
    | exact keeps_modifyS (fun _ h => h)
    | exact keeps_call env _ (fun s1 h => snapshotControl_call s s1 _ (by simp) h)
    | exact keeps_clearPreviewHeap s env
    | exact keeps_native_unregister_preview_bufs s env _ _
    | apply keeps_bind
    | apply keeps_ite
    | apply keeps_forEach
    | intro _)

theorem keeps_native_stop_preview (s : State) (env : Env) (fd : Int) :
    keeps s.snapshotControl (native_stop_preview env fd) := by
  unfold native_stop_preview
  exact keeps_bind (keeps_call env _ fun s1 h => snapshotControl_call s s1 _ (by simp) h)
      fun r => keeps_ite (keeps_pure _) (keeps_pure _)

theorem keeps_stopPreviewInternal (s : State) (env : Env) :
    keeps s.snapshotControl (stopPreviewInternal env) := by
  unfold stopPreviewInternal
  repeat (first
    | exact keeps_pure _
    | exact keeps_getS
    | exact keeps_modifyS (fun _ h => h)
    | exact keeps_native_stop_preview s env _
    | exact keeps_deinitPreview s env
    | apply keeps_bind
    | apply keeps_ite
    | intro _)

theorem stopPreviewInternal_returns (env : Env) (s : State) :
    wp (stopPreviewInternal env) (fun _ _ => True) s := by
  unfold stopPreviewInternal
  by_cases hrun : s.mCameraRunning = true
  · simp only [wp_bind, wp_getS, hrun, if_true, wp_native_stop_preview, wp_modifyS]
    split
    · rw [wp_bind]
      exact wp_mono _ _ _ _ (deinitPreview_spec env _) (fun _ _ _ => by simp [wp_modifyS])
    · simp [wp_pure]
  · simp [wp_bind, wp_getS, hrun, wp_pure]

theorem takePictureEntry_spec (env : Env) (s : State)
    (hsnap : s.mSnapshotThreadRunning = false) (hlock : s.mSnapshotThreadWaitLock = false) :
    wp (takePictureEntry env) (fun _ s0 =>
      s0.mSnapshotThreadRunning = false ∧ s0.mShutterPending = s.mShutterPending ∧
      s0.mSnapshotThreadWaitLock = true ∧ s0.mMsgEnabled = s.mMsgEnabled ∧
      snapshotThreadsCreated s0 = snapshotThreadsCreated s) s := by
  unfold takePictureEntry
  rw [wp_bind, wp_lock]
  refine ⟨hlock, ?_⟩
  rw [wp_bind, wp_waitWhile]
  refine ⟨hsnap, ?_⟩
  rw [wp_bind, wp_getS]
  split
  · have h1 := stopPreviewInternal_returns env { s with mSnapshotThreadWaitLock := true }
    have h2 := keeps_stopPreviewInternal { s with mSnapshotThreadWaitLock := true } env
      { s with mSnapshotThreadWaitLock := true } ⟨rfl, rfl, rfl, rfl, rfl⟩
    refine wp_mono _ _ _ _ (wp_and_wlp _ _ _ _ h1 h2) ?_
    rintro _ s0 ⟨-, h3, h4, h5, h6, h7⟩
    exact ⟨by rw [h3]; exact hsnap, h4, h5, h6, h7⟩
  · rw [wp_pure]
    exact ⟨hsnap, rfl, rfl, rfl, rfl⟩

theorem takePictureEntry_lock_free (env : Env) (s s0 : State)
    (hentry : takePictureEntry env s = .ok ((), s0)) : s.mSnapshotThreadWaitLock = false := by
  by_contra h
  have h1 : s.mSnapshotThreadWaitLock = true := by simpa using h
  unfold takePictureEntry at hentry
  simp [bind_apply, M.bind, lockSnapshotThreadWaitLock, h1] at hentry

/-- C8: from a state with no snapshot worker in flight, when `takePicture` has
taken the serialization lock and stopped a running preview (leaving `s0`) and
`initRaw` fails there, `takePicture` returns `UNKNOWN_ERROR`, creates no snapshot
worker thread, leaves `mSnapshotThreadRunning` false and leaves the
shutter-pending flag as it was. -/
theorem C8_failed_initRaw_starts_no_worker (env : Env) (s s0 : State)
    (hsnap : s.mSnapshotThreadRunning = false)
    (hentry : takePictureEntry env s = .ok ((), s0))
    (hfail : retval (initRaw env (s0.msgEnabled CAMERA_MSG_COMPRESSED_IMAGE) s0) = some false) :
    ∃ s1, takePicture env s = .ok (UNKNOWN_ERROR, s1) ∧
      snapshotThreadsCreated s1 = snapshotThreadsCreated s ∧
      s1.mSnapshotThreadRunning = false ∧
      s1.mShutterPending = s.mShutterPending := by
  have hlock := takePictureEntry_lock_free env s s0 hentry
  obtain ⟨u, s0', he, h1, h2, h3, h4, h5⟩ := takePictureEntry_spec env s hsnap hlock
  rw [hentry] at he
  cases he
  obtain ⟨s1, hs1⟩ := retval_eq_some _ _ hfail
  obtain ⟨k1, k2, k3, k4, k5⟩ := keeps_initRaw s0 env _ s0 ⟨rfl, rfl, rfl, rfl, rfl⟩ _ _ hs1
  refine ⟨s1, ?_, by rw [k5, h5], by rw [k1, h1], by rw [k2, h2]⟩
  have key : wp (takePicture env) (fun r s2 => r = UNKNOWN_ERROR ∧ s2 = s1) s := by
    unfold takePicture
    rw [wp_bind, wp_of_eq _ _ _ _ _ hentry]
    simp [wp_bind, wp_getS, wp_of_eq _ _ _ _ _ hs1, wp_pure]
  obtain ⟨r, s2, hr, rfl, rfl⟩ := key
  exact hr

theorem C8_failed_initRaw_starts_no_worker_witness :
    State.qvga.mSnapshotThreadRunning = false ∧
    takePictureEntry (Env.failAt 0) State.qvga =
      .ok ((), { State.qvga with mSnapshotThreadWaitLock := true }) ∧
    retval (initRaw (Env.failAt 0)
      (State.msgEnabled { State.qvga with mSnapshotThreadWaitLock := true }
        CAMERA_MSG_COMPRESSED_IMAGE)
      { State.qvga with mSnapshotThreadWaitLock := true }) = some false ∧
    ∃ s1, takePicture (Env.failAt 0) State.qvga = .ok (UNKNOWN_ERROR, s1) ∧
      snapshotThreadsCreated s1 = snapshotThreadsCreated State.qvga ∧
      s1.mSnapshotThreadRunning = false ∧
      s1.mShutterPending = State.qvga.mShutterPending :=
  ⟨rfl, rfl, by decide,
    C8_failed_initRaw_starts_no_worker (Env.failAt 0) State.qvga
      { State.qvga with mSnapshotThreadWaitLock := true } rfl rfl (by decide)⟩

/-! ## Failure paths that keep their resources -/

theorem State.qvga_reachable (env : Env) :
    setParameters CameraEnums.sample env CameraParameters.qvga State.opened =
      .ok (NO_ERROR, State.qvga) := rfl

/-- C6: the code at two failing inputs, and at a third for contrast.  From the
idle state `State.qvga`, when the preview pool is allocated and the
set-dimension command fails (third call), `startPreview` returns
`UNKNOWN_ERROR` and the preview pool is still held; when the frame thread cannot
be created (eighth call), `startPreview` returns `UNKNOWN_ERROR`, the preview
pool is still held, and the four preview buffers have been registered with the
device and none unregistered.  When instead the start-preview command fails
(ninth call), the pool is released and each of the four registered buffers is
unregistered. -/
theorem C6_failed_startPreview_keeps_preview_pool :
    retval (startPreview (Env.failAt 2) State.qvga) = some UNKNOWN_ERROR ∧
    (poststate (startPreview (Env.failAt 2) State.qvga)).map
      (fun s => (s.mPreviewHeap.isSome, s.mCameraRunning, s.mPreviewInitialized)) =
      some (true, false, false) ∧
    retval (startPreview (Env.failAt 7) State.qvga) = some UNKNOWN_ERROR ∧
    (poststate (startPreview (Env.failAt 7) State.qvga)).map
      (fun s => (s.mPreviewHeap.isSome,
        s.trace.countP (fun e => match e with | .ioctl_register_pmem _ _ => true | _ => false),
        s.trace.countP (fun e => match e with | .ioctl_unregister_pmem _ _ => true | _ => false))) =
      some (true, 4, 0) ∧
    retval (startPreview (Env.failAt 8) State.qvga) = some UNKNOWN_ERROR ∧
    (poststate (startPreview (Env.failAt 8) State.qvga)).map
      (fun s => (s.mPreviewHeap.isSome,
        s.trace.countP (fun e => match e with | .ioctl_register_pmem _ _ => true | _ => false),
        s.trace.countP (fun e => match e with | .ioctl_unregister_pmem _ _ => true | _ => false))) =
      some (false, 4, 4) := by
  decide!

/-- C9: the code at a failing input.  From `State.qvgaCompressed`, with `initRaw`
succeeding and the creation of the snapshot thread failing (ninth call),
`takePicture` returns `UNKNOWN_ERROR` and on return the raw, thumbnail and jpeg
pools are still held and `mRawInitialized` is true. -/
theorem C9_thread_failure_keeps_snapshot_pools :
    retval (initRaw (Env.failAt 8) true State.qvgaCompressed) = some true ∧
    retval (takePicture (Env.failAt 8) State.qvgaCompressed) = some UNKNOWN_ERROR ∧
    (poststate (takePicture (Env.failAt 8) State.qvgaCompressed)).map
      (fun s => (s.mRawHeap.isSome, s.mThumbnailHeap.isSome, s.mJpegHeap.isSome,
        s.mRawInitialized, s.mSnapshotThreadRunning)) =
      some (true, true, true, true, false) := by
  decide!

/-- C10: the code at a failing input.  From `State.qvgaCompressed`, a
`takePicture` that succeeds followed by the snapshot worker whose start-snapshot
command fails (tenth call): the worker finishes (`mSnapshotThreadRunning` is
false again), it started no encode thread, and the raw, thumbnail and jpeg pools
are still held with `mRawInitialized` true. -/
theorem C10_failed_snapshot_keeps_pools :
    (poststate ((takePicture (Env.failAt 9) >>= fun _ => runSnapshotThread (Env.failAt 9))
        State.qvgaCompressed)).map
      (fun s => (s.mRawHeap.isSome, s.mThumbnailHeap.isSome, s.mJpegHeap.isSome,
        s.mRawInitialized, s.mSnapshotThreadRunning,
        s.trace.count (Event.pthread_create .jpeg_encoder_thread))) =
      some (true, true, true, true, false, 0) := by
  decide!

/-! ## The message mask -/

theorem notU32_testBit (m : Nat) (hm : m < 2 ^ 32) (i : Nat) :
    (notU32 m).testBit i = (decide (i < 32) && !m.testBit i) := by
  have h : notU32 m = 2 ^ 32 - (m + 1) := by
    unfold notU32
    rw [Nat.mod_eq_of_lt hm]
    omega
  rw [h, Nat.testBit_two_pow_sub_succ hm]

theorem testBit_of_lt_two_pow_32 (M i : Nat) (hM : M < 2 ^ 32) (hi : 32 ≤ i) :
    M.testBit i = false := by
  apply Nat.testBit_lt_two_pow
  calc M < 2 ^ 32 := hM
    _ ≤ 2 ^ i := Nat.pow_le_pow_right (by decide) hi

/-- C17: on 32-bit masks, `enableMsgType m` sets the mask to `M | m` and
`disableMsgType m` sets it to `M & ~m` (bit by bit); after enabling and then
disabling `m` no bit of `m` is enabled and every bit outside `m` is as it was in
`M`; `msgTypeEnabled m` answers true exactly when `M & m` is non-zero, that is
when `M` and `m` share a bit. -/
theorem C17_message_mask_algebra (s : State) (m : Nat)
    (hM : s.mMsgEnabled < 2 ^ 32) (hm : m < 2 ^ 32) :
    enableMsgType m s = .ok ((), { s with mMsgEnabled := s.mMsgEnabled ||| m }) ∧
    (∃ s1, disableMsgType m s = .ok ((), s1) ∧
      ∀ i, s1.mMsgEnabled.testBit i = (s.mMsgEnabled.testBit i && !m.testBit i)) ∧
    (∃ s2, (enableMsgType m >>= fun _ => disableMsgType m) s = .ok ((), s2) ∧
      s2.mMsgEnabled &&& m = 0 ∧
      msgTypeEnabled m s2 = .ok (false, s2) ∧
      ∀ i, m.testBit i = false → s2.mMsgEnabled.testBit i = s.mMsgEnabled.testBit i) ∧
    (∃ b, msgTypeEnabled m s = .ok (b, s) ∧
      (b = true ↔ s.mMsgEnabled &&& m ≠ 0) ∧
      (b = true ↔ ∃ i, s.mMsgEnabled.testBit i = true ∧ m.testBit i = true)) := by
  refine ⟨rfl, ⟨_, rfl, ?_⟩, ⟨_, rfl, ?_, ?_, ?_⟩, ⟨_, rfl, ?_, ?_⟩⟩
  · intro i
    simp only [Nat.testBit_and, notU32_testBit m hm]
    by_cases hi : i < 32
    · simp [hi]
    · simp [hi, testBit_of_lt_two_pow_32 _ i hM (by omega)]
  · apply Nat.eq_of_testBit_eq
    intro i
    simp only [Nat.testBit_and, Nat.testBit_or, notU32_testBit m hm, Nat.zero_testBit]
    cases m.testBit i <;> simp
  · have h0 : (s.mMsgEnabled ||| m) &&& notU32 m &&& m = 0 := by
      apply Nat.eq_of_testBit_eq
      intro i
      simp only [Nat.testBit_and, Nat.testBit_or, notU32_testBit m hm, Nat.zero_testBit]
      cases m.testBit i <;> simp
    show Except.ok (((s.mMsgEnabled ||| m) &&& notU32 m &&& m != 0), _) = _
    rw [h0]
    rfl
  · intro i hi
    simp only [Nat.testBit_and, Nat.testBit_or, notU32_testBit m hm, hi]
    by_cases h32 : i < 32
    · simp [h32]
    · simp [h32, testBit_of_lt_two_pow_32 _ i hM (by omega)]
  · simp
  · rw [bne_iff_ne]
    constructor
    · intro h
      by_contra hno
      apply h
      apply Nat.eq_of_testBit_eq
      intro i
      rw [Nat.testBit_and, Nat.zero_testBit]
      by_contra hi
      apply hno
      refine ⟨i, ?_⟩
      revert hi
      cases s.mMsgEnabled.testBit i <;> cases m.testBit i <;> simp
    · rintro ⟨i, h1, h2⟩ h0
      have h := congrArg (fun n => Nat.testBit n i) h0
      simp [Nat.testBit_and, h1, h2] at h

theorem C17_message_mask_algebra_witness :
    enableMsgType CAMERA_MSG_SHUTTER State.qvgaCompressed =
      .ok ((), { State.qvgaCompressed with mMsgEnabled := 0x102 }) :=
  (C17_message_mask_algebra State.qvgaCompressed CAMERA_MSG_SHUTTER (by decide) (by decide)).1

/-! ## The parameter tables -/

theorem attr_lookup_loop_not_found (table : List str_map) (name : String)
    (h : ∀ row ∈ table, row.desc ≠ some name) : attr_lookup_loop name table = NOT_FOUND := by
  induction table with
  | nil => rfl
  | cons trav rest ih =>
    unfold attr_lookup_loop
    have h1 := h trav (List.mem_cons_self _ _)
    cases hd : trav.desc with
    | none => rfl
    | some desc =>
      have hne : desc ≠ name := by
        intro he
        apply h1
        rw [hd, he]
      simp only [hne, if_false]
      exact ih fun row hrow => h row (List.mem_cons_of_mem _ hrow)

/-- In a table whose names are pairwise distinct, the lookup of the name of a row
that stands before the unnamed row gives the code of that row. -/
theorem attr_lookup_loop_found (table : List str_map) (name : String) (row : str_map)
    (hrow : row ∈ table.takeWhile fun r => r.desc.isSome) (hdesc : row.desc = some name)
    (hnodup : (table.filterMap fun r => r.desc).Nodup) :
    attr_lookup_loop name table = row.val := by
  induction table with
  | nil => simp at hrow
  | cons trav rest ih =>
    unfold attr_lookup_loop
    cases hd : trav.desc with
    | none => simp [List.takeWhile, hd] at hrow
    | some desc =>
      simp only [List.takeWhile, hd, Option.isSome_some, List.mem_cons] at hrow
      simp only [List.filterMap_cons, hd, List.nodup_cons, List.mem_filterMap] at hnodup
      by_cases he : desc = name
      · simp only [he, if_true]
        rcases hrow with rfl | hrow
        · rfl
        · exfalso
          apply hnodup.1
          refine ⟨row, (List.takeWhile_sublist _).subset hrow, ?_⟩
          rw [hdesc, he]
      · simp only [he, if_false]
        rcases hrow with rfl | hrow
        · rw [hd] at hdesc
          exact absurd (Option.some.inj hdesc) he
        · exact ih hrow hnodup.2

/-- The named rows of the four tables of the source all stand before the
unnamed row, and their names are pairwise distinct. -/
theorem tables_wellformed (c : CameraEnums) (table : List str_map)
    (htable : table ∈ [whitebalance c, effect c, antibanding c, picturesize c]) :
    (table.filterMap fun r => r.desc).Nodup ∧
    ∀ row ∈ table, row.desc.isSome → row ∈ table.takeWhile fun r => r.desc.isSome := by
  simp only [List.mem_cons, List.mem_singleton, List.not_mem_nil, or_false] at htable
  rcases htable with rfl | rfl | rfl | rfl
  · refine ⟨by simp [whitebalance], ?_⟩
    intro row hrow hsome
    simp only [whitebalance, List.mem_cons, List.mem_singleton, List.not_mem_nil, or_false] at hrow
    rcases hrow with rfl | rfl | rfl | rfl | rfl | rfl | rfl | rfl <;>
      first | (simp at hsome; done) | simp [whitebalance, List.takeWhile]
  · refine ⟨by simp [effect], ?_⟩
    intro row hrow hsome
    simp only [effect, List.mem_cons, List.mem_singleton, List.not_mem_nil, or_false] at hrow
    rcases hrow with rfl | rfl | rfl | rfl | rfl | rfl | rfl | rfl | rfl | rfl <;>
      first | (simp at hsome; done) | simp [effect, List.takeWhile]
  · refine ⟨by simp [antibanding], ?_⟩
    intro row hrow hsome
    simp only [antibanding, List.mem_cons, List.mem_singleton, List.not_mem_nil, or_false] at hrow
    rcases hrow with rfl | rfl | rfl | rfl | rfl <;>
      first | (simp at hsome; done) | simp [antibanding, List.takeWhile]
  · refine ⟨by simp [picturesize], ?_⟩
    intro row hrow hsome
    simp only [picturesize, List.mem_cons, List.mem_singleton, List.not_mem_nil, or_false] at hrow
    rcases hrow with rfl | rfl | rfl | rfl <;>
      first | (simp at hsome; done) | simp [picturesize, List.takeWhile]

/-- C16: for each of the tables `whitebalance`, `effect`, `antibanding` and
`picturesize`, whatever the enumeration codes are: the names are pairwise
distinct; `attr_lookup` of the name of a row returns the code of that row;
`attr_lookup` of a string that is no name of the table, or of a null string,
returns `NOT_FOUND`; `getParm` returns `NOT_FOUND` when the key is absent from
the parameters and the lookup of its value otherwise. -/
theorem C16_attr_lookup_tables (c : CameraEnums) (table : List str_map)
    (htable : table ∈ [whitebalance c, effect c, antibanding c, picturesize c]) :
    (table.filterMap fun r => r.desc).Nodup ∧
    (∀ row str, row ∈ table → row.desc = some str → attr_lookup table (some str) = row.val) ∧
    (∀ str, (∀ row ∈ table, row.desc ≠ some str) → attr_lookup table (some str) = NOT_FOUND) ∧
    attr_lookup table none = NOT_FOUND ∧
    (∀ (s : State) key, s.mParameters.get key = none → s.getParm key table = NOT_FOUND) ∧
    (∀ (s : State) key str, s.mParameters.get key = some str →
      s.getParm key table = attr_lookup table (some str)) := by
  obtain ⟨hnodup, hbefore⟩ := tables_wellformed c table htable
  refine ⟨hnodup, ?_, ?_, rfl, ?_, ?_⟩
  · intro row str hrow hdesc
    exact attr_lookup_loop_found table str row (hbefore row hrow (by simp [hdesc])) hdesc hnodup
  · intro str h
    exact attr_lookup_loop_not_found table str h
  · intro s key h
    simp [State.getParm, h]
  · intro s key str h
    simp [State.getParm, h]

theorem C16_attr_lookup_tables_witness :
    attr_lookup (effect CameraEnums.sample) (some "sepia") = 7 ∧
    attr_lookup (effect CameraEnums.sample) (some "vivid") = NOT_FOUND :=
  have h := C16_attr_lookup_tables CameraEnums.sample (effect CameraEnums.sample) (by simp)
  ⟨h.2.1 { desc := some "sepia", val := 7 } "sepia" (by simp [effect, CameraEnums.sample]) rfl,
   h.2.2.1 "vivid" (by simp [effect])⟩

/-! ## Descriptors of a pool -/

/-- The descriptors `completeInitialization` creates when the frame size is
positive. -/
theorem completeInitialization_mBuffers (p : MemPool) (hF : 0 < p.mFrameSize) :
    p.completeInitialization.mBuffers =
      (List.range p.mNumBuffers.toNat).map fun (i : Nat) =>
        ({ heap := p.mHeap, offset := cadd (cmul (i : Int) p.mBufferSize) p.mFrameOffset,
           size := p.mFrameSize } : MemoryBase) := by
  unfold MemPool.completeInitialization
  rw [if_pos hF]

/-- The offset of a descriptor is exact when the slots fit an `int`. -/
theorem descriptor_offset_exact (B N F O : Int) (i : Nat) (hi : i < N.toNat)
    (hF : 0 < F) (hO : 0 ≤ O) (hfit : O + F ≤ B) (hsize : N * B < 2 ^ 31) :
    cadd (cmul i B) O = i * B + O ∧ (i + 1) * B ≤ N * B ∧ 0 ≤ (i : Int) * B := by
  have hB : 0 < B := by omega
  have hiN : (i : Int) + 1 ≤ N := by omega
  have h0 : 0 ≤ (i : Int) * B := mul_nonneg (by omega) hB.le
  have h1 : ((i : Int) + 1) * B ≤ N * B := mul_le_mul_of_nonneg_right hiN hB.le
  have h2 : ((i : Int) + 1) * B = i * B + B := by ring
  refine ⟨?_, h1, h0⟩
  unfold cadd cmul
  rw [wrap32_of_range _ h0 (by omega), wrap32_of_range _ (by omega) (by omega)]

/-- C19: `completeInitialization` creates no descriptor when the frame size is
not positive; otherwise it creates one descriptor for each of the `N` buffers,
the `i`-th on the pool heap with offset `i * B + O` (as the `int` expression
evaluates) and size `F`.  When `O ≥ 0`, `O + F ≤ B` and a region of `N * B` bytes
can be addressed by an `int`, the `i`-th descriptor starts at `i * B + O`, lies
inside its own slot `[i * B, (i + 1) * B)`, hence inside `[0, N * B)`, and two
different descriptors do not overlap. -/
theorem C19_completeInitialization_descriptors (p : MemPool) :
    (p.mFrameSize ≤ 0 → p.completeInitialization = p) ∧
    (0 < p.mFrameSize →
      p.completeInitialization.mBuffers.length = p.mNumBuffers.toNat ∧
      (∀ i : Nat, i < p.mNumBuffers.toNat →
        p.completeInitialization.mBuffers[i]? =
          some { heap := p.mHeap, offset := cadd (cmul i p.mBufferSize) p.mFrameOffset,
                 size := p.mFrameSize }) ∧
      (0 ≤ p.mFrameOffset → p.mFrameOffset + p.mFrameSize ≤ p.mBufferSize →
        p.mNumBuffers * p.mBufferSize < 2 ^ 31 →
        (∀ i : Nat, i < p.mNumBuffers.toNat →
          ∃ d, p.completeInitialization.mBuffers[i]? = some d ∧
            d.offset = i * p.mBufferSize + p.mFrameOffset ∧ d.size = p.mFrameSize ∧
            i * p.mBufferSize ≤ d.offset ∧
            d.offset + d.size ≤ (i + 1) * p.mBufferSize ∧
            0 ≤ d.offset ∧ d.offset + d.size ≤ p.mNumBuffers * p.mBufferSize) ∧
        (∀ i j : Nat, i < j → j < p.mNumBuffers.toNat →
          ∃ d e, p.completeInitialization.mBuffers[i]? = some d ∧
            p.completeInitialization.mBuffers[j]? = some e ∧
            d.offset + d.size ≤ e.offset))) := by
  refine ⟨?_, ?_⟩
  · intro hF
    unfold MemPool.completeInitialization
    rw [if_neg (by omega)]
  · intro hF
    have hb := completeInitialization_mBuffers p hF
    have hget : ∀ i : Nat, i < p.mNumBuffers.toNat →
        p.completeInitialization.mBuffers[i]? =
          some { heap := p.mHeap, offset := cadd (cmul i p.mBufferSize) p.mFrameOffset,
                 size := p.mFrameSize } := by
      intro i hi
      rw [hb, List.getElem?_map, List.getElem?_range hi]
      rfl
    refine ⟨by rw [hb]; simp, hget, ?_⟩
    intro hO hfit hsize
    refine ⟨?_, ?_⟩
    · intro i hi
      obtain ⟨he, h1, h0⟩ := descriptor_offset_exact p.mBufferSize p.mNumBuffers p.mFrameSize
        p.mFrameOffset i hi hF hO hfit hsize
      refine ⟨_, hget i hi, he, rfl, ?_, ?_, ?_, ?_⟩
      all_goals
        dsimp only
        rw [he]
        have : ((i : Int) + 1) * p.mBufferSize = i * p.mBufferSize + p.mBufferSize := by ring
        omega
    · intro i j hij hj
      obtain ⟨hei, _, _⟩ := descriptor_offset_exact p.mBufferSize p.mNumBuffers p.mFrameSize
        p.mFrameOffset i (by omega) hF hO hfit hsize
      obtain ⟨hej, _, _⟩ := descriptor_offset_exact p.mBufferSize p.mNumBuffers p.mFrameSize
        p.mFrameOffset j hj hF hO hfit hsize
      refine ⟨_, _, hget i (by omega), hget j hj, ?_⟩
      dsimp only
      rw [hei, hej]
      have hB : 0 ≤ p.mBufferSize := by omega
      have hle : ((i : Int) + 1) * p.mBufferSize ≤ j * p.mBufferSize :=
        mul_le_mul_of_nonneg_right (by omega) hB
      have : ((i : Int) + 1) * p.mBufferSize = i * p.mBufferSize + p.mBufferSize := by ring
      omega

theorem C19_completeInitialization_descriptors_witness :
    (MemPool.completeInitialization
      { mBufferSize := 153600, mNumBuffers := 4, mFrameSize := 115200, mFrameOffset := 0 }
      ).mBuffers.length = 4 :=
  ((C19_completeInitialization_descriptors
    { mBufferSize := 153600, mNumBuffers := 4, mFrameSize := 115200, mFrameOffset := 0 }).2
    (by decide)).1

/-! ## Pools without a heap -/

/-- C20: a thumbnail pool whose heap could not be created has no heap handle
after construction, and destroying it reads the absent heap: the destructor
does not return.  The same happens inside `initRaw` when the thumbnail
allocation fails and `initRaw` clears the pool. -/
theorem C20_destroy_of_pool_without_heap_faults :
    (retval (PmemPool.new (Env.failAt 0) "/dev/pmem_adsp" 20 .MSM_PMEM_THUMBNAIL
        THUMBNAIL_BUFFER_SIZE 1 THUMBNAIL_BUFFER_SIZE 0 "thumbnail camera" State.qvga)).map
      (fun p => (p.mHeap.isSome, p.mNumBuffers)) = some (false, 1) ∧
    (retval (PmemPool.new (Env.failAt 0) "/dev/pmem_adsp" 20 .MSM_PMEM_THUMBNAIL
        THUMBNAIL_BUFFER_SIZE 1 THUMBNAIL_BUFFER_SIZE 0 "thumbnail camera" State.qvga)).bind
      (fun p => haltOf (p.destroy Env.allSucceed State.qvga)) = some Halt.fault ∧
    haltOf (initRaw (Env.failAt 1) true State.qvgaCompressed) = some Halt.fault := by
  decide!

/-! ## Preview frames -/

theorem wp_native_set_parm (env : Env) (t : cam_ctrl_type) (v : CtrlValue)
    (Q : Bool → State → Prop) (s : State) :
    wp (native_set_parm env t v) Q s ↔
      Q (decide (0 ≤ (env.reply s.tick).rc ∧ (env.reply s.tick).status = CAM_CTRL_SUCCESS))
        { s with
          trace := s.trace ++ [.ioctl_ctrl_command s.mCameraControlFd t v]
          tick := s.tick + 1 } := by
  unfold native_set_parm
  by_cases h : (env.reply s.tick).rc < 0 ∨ (env.reply s.tick).status ≠ CAM_CTRL_SUCCESS
  · have h2 : ¬ (0 ≤ (env.reply s.tick).rc ∧ (env.reply s.tick).status = CAM_CTRL_SUCCESS) := by
      rcases h with h | h
      · omega
      · exact fun h3 => h h3.2
    simp [wp_bind, wp_call, wp_pure, wp_getS, h, h2]
  · have h2 : 0 ≤ (env.reply s.tick).rc ∧ (env.reply s.tick).status = CAM_CTRL_SUCCESS := by
      constructor
      · by_contra h3
        exact h (Or.inl (by omega))
      · by_contra h3
        exact h (Or.inr h3)
    have h3 : ¬ (env.reply s.tick).rc < 0 := by omega
    simp [wp_bind, wp_call, wp_pure, wp_getS, h2, h3]

theorem retval_of_wp {α : Type} (m : M α) (s : State) (a : α)
    (h : wp m (fun b _ => b = a) s) : retval (m s) = some a := by
  obtain ⟨b, s1, hm, hb⟩ := h
  rw [hm, hb]
  rfl

theorem wp_native_start_snapshot (env : Env) (fd : Int) (Q : Bool → State → Prop) (s : State) :
    wp (native_start_snapshot env fd) Q s ↔
      Q (decide (0 ≤ (env.reply s.tick).rc))
        { s with
          trace := s.trace ++ [.ioctl_ctrl_command fd .CAMERA_START_SNAPSHOT .null]
          tick := s.tick + 1 } := by
  unfold native_start_snapshot
  by_cases h : (env.reply s.tick).rc < 0
  · have h2 : ¬ (0 ≤ (env.reply s.tick).rc) := by omega
    simp [wp_bind, wp_call, wp_pure, h, h2]
  · have h2 : 0 ≤ (env.reply s.tick).rc := by omega
    simp [wp_bind, wp_call, wp_pure, h, h2]

theorem wp_native_stop_snapshot (env : Env) (fd : Int) (Q : Bool → State → Prop) (s : State) :
    wp (native_stop_snapshot env fd) Q s ↔
      Q (decide (0 ≤ (env.reply s.tick).rc))
        { s with
          trace := s.trace ++ [.ioctl_ctrl_command fd .CAMERA_STOP_SNAPSHOT .null]
          tick := s.tick + 1 } := by
  unfold native_stop_snapshot
  by_cases h : (env.reply s.tick).rc < 0
  · have h2 : ¬ (0 ≤ (env.reply s.tick).rc) := by omega
    simp [wp_bind, wp_call, wp_pure, h, h2]
  · have h2 : 0 ≤ (env.reply s.tick).rc := by omega
    simp [wp_bind, wp_call, wp_pure, h, h2]

/-- C12: `native_set_parm` returns false exactly when the ioctl returns a
negative value or the status differs from `CAM_CTRL_SUCCESS`.  The operations
start-preview, stop-preview, start-snapshot and stop-snapshot return false
exactly when the ioctl returns a negative value, whatever the status is: when
the device answers 0 with a status that is not `CAM_CTRL_SUCCESS`, each of the
four returns true while `native_set_parm` returns false. -/
theorem C12_only_set_parm_tests_the_status :
    (∀ (env : Env) (t : cam_ctrl_type) (v : CtrlValue) (s : State),
      retval (native_set_parm env t v s) =
        some (decide (0 ≤ (env.reply s.tick).rc ∧
          (env.reply s.tick).status = CAM_CTRL_SUCCESS))) ∧
    (∀ (env : Env) (fd : Int) (s : State),
      retval (native_start_preview env fd s) = some (decide (0 ≤ (env.reply s.tick).rc)) ∧
      retval (native_stop_preview env fd s) = some (decide (0 ≤ (env.reply s.tick).rc)) ∧
      retval (native_start_snapshot env fd s) = some (decide (0 ≤ (env.reply s.tick).rc)) ∧
      retval (native_stop_snapshot env fd s) = some (decide (0 ≤ (env.reply s.tick).rc))) ∧
    ((Env.ofList [{ rc := 0, status := 0 }]).reply 0).status ≠ CAM_CTRL_SUCCESS ∧
    retval (native_set_parm (Env.ofList [{ rc := 0, status := 0 }]) .CAMERA_SET_PARM_EFFECT
      (.int32 2) State.qvga) = some false ∧
    retval (native_start_preview (Env.ofList [{ rc := 0, status := 0 }]) 20 State.qvga) =
      some true ∧
    retval (native_stop_preview (Env.ofList [{ rc := 0, status := 0 }]) 20 State.qvga) =
      some true ∧
    retval (native_start_snapshot (Env.ofList [{ rc := 0, status := 0 }]) 20 State.qvga) =
      some true ∧
    retval (native_stop_snapshot (Env.ofList [{ rc := 0, status := 0 }]) 20 State.qvga) =
      some true := by
  refine ⟨?_, ?_, by decide, by decide, by decide, by decide, by decide, by decide⟩
  · intro env t v s
    exact retval_of_wp _ _ _ ((wp_native_set_parm env t v _ s).2 rfl)
  · intro env fd s
    exact ⟨retval_of_wp _ _ _ ((wp_native_start_preview env fd _ s).2 rfl),
      retval_of_wp _ _ _ ((wp_native_stop_preview env fd _ s).2 rfl),
      retval_of_wp _ _ _ ((wp_native_start_snapshot env fd _ s).2 rfl),
      retval_of_wp _ _ _ ((wp_native_stop_snapshot env fd _ s).2 rfl)⟩

/-! ## The encode thread -/

/-- C11: in a snapshot from `State.qvgaCompressed`, where the compressed-image
message is enabled, the raw capture succeeds and the converter
`yuv420_save2jpeg` (call 13) answers false.  `runJpegEncodeThread` goes on to
`writeExif` and `receiveJpegPicture`, and the client data callback is invoked
with `CAMERA_MSG_COMPRESSED_IMAGE`.  The raw, thumbnail and jpeg pools are
released afterwards. -/
theorem C11_failed_encode_still_delivers_compressed_image :
    State.qvgaCompressed.msgEnabled CAMERA_MSG_COMPRESSED_IMAGE = true ∧
    (poststate ((takePicture Env.encodeFails >>= fun _ => runSnapshotThread Env.encodeFails)
        State.qvgaCompressed)).map
      (fun s => (s.tick, s.mRawInitialized, s.mJpegThreadRunning, s.trace.length)) =
      some (12, true, true, 12) ∧
    (Env.encodeFails.reply 13).rc = 0 ∧
    (poststate (snapshotRun Env.encodeFails State.qvgaCompressed)).map
      (fun s => (s.trace.drop 12).take 4) =
      some [Event.time,
        Event.yuv420_save2jpeg 0x40000000 0x40000000 1600 1200 (-1),
        Event.writeExif 0x40000000 0x40000000 2880000 (-1) none,
        Event.dataCb CAMERA_MSG_COMPRESSED_IMAGE
          { heap := some { heapID := 0, base := 0x40000000, size := 2883584 },
            offset := 0, size := 2048 }] ∧
    (poststate (snapshotRun Env.encodeFails State.qvgaCompressed)).map
      (fun s => (s.mRawHeap.isSome, s.mThumbnailHeap.isSome, s.mJpegHeap.isSome,
        s.mRawInitialized)) = some (false, false, false, false) := by
  decide!

/-! ## Live parameter updates -/

theorem wp_setEffect (c : CameraEnums) (env : Env) (Q : Unit → State → Prop) (s : State) :
    wp (setEffect c env) Q s ↔
      Q () (if s.getParm "effect" (effect c) ≠ NOT_FOUND ∧
              s.getParm "effect" (effect c) ≠ s.mEffect then
            { s with
              mEffect := s.getParm "effect" (effect c)
              trace := s.trace ++ [.ioctl_ctrl_command s.mCameraControlFd
                .CAMERA_SET_PARM_EFFECT (.int32 (s.getParm "effect" (effect c)))]
              tick := s.tick + 1 }
          else s) := by
  unfold setEffect
  by_cases h : s.getParm "effect" (effect c) ≠ NOT_FOUND ∧
      s.getParm "effect" (effect c) ≠ s.mEffect
  · rw [if_pos h]
    simp only [wp_bind, wp_getS, if_pos h, wp_native_set_parm, wp_modifyS]
  · rw [if_neg h]
    simp only [wp_bind, wp_getS, if_neg h, wp_pure]

theorem wp_setWhiteBalance (c : CameraEnums) (env : Env) (Q : Unit → State → Prop)
    (s : State) :
    wp (setWhiteBalance c env) Q s ↔
      Q () (if s.getParm "whitebalance" (whitebalance c) ≠ NOT_FOUND ∧
              s.getParm "whitebalance" (whitebalance c) ≠ s.mWhiteBalance then
            { s with
              mWhiteBalance := s.getParm "whitebalance" (whitebalance c)
              trace := s.trace ++ [.ioctl_ctrl_command s.mCameraControlFd
                .CAMERA_SET_PARM_WB (.int32 (s.getParm "whitebalance" (whitebalance c)))]
              tick := s.tick + 1 }
          else s) := by
  unfold setWhiteBalance
  by_cases h : s.getParm "whitebalance" (whitebalance c) ≠ NOT_FOUND ∧
      s.getParm "whitebalance" (whitebalance c) ≠ s.mWhiteBalance
  · rw [if_pos h]
    simp only [wp_bind, wp_getS, if_pos h, wp_native_set_parm, wp_modifyS]
  · rw [if_neg h]
    simp only [wp_bind, wp_getS, if_neg h, wp_pure]

/-- The lookup of a parameter whose value is the name of a row of a table of
the source gives the code of that row. -/
theorem getParm_named (c : CameraEnums) (table : List str_map)
    (htable : table ∈ [whitebalance c, effect c, antibanding c, picturesize c])
    (s : State) (key : String) (row : str_map) (hrow : row ∈ table)
    (hsome : row.desc.isSome) (hdesc : row.desc = s.mParameters.get key) :
    s.getParm key table = row.val := by
  obtain ⟨hnodup, hbefore⟩ := tables_wellformed c table htable
  obtain ⟨str, hstr⟩ := Option.isSome_iff_exists.1 hsome
  unfold State.getParm
  rw [← hdesc, hstr]
  exact attr_lookup_loop_found table str row (hbefore row hrow hsome) hstr hnodup

/-- The lookup of a parameter whose value is no name of the table, or that is
absent, gives `NOT_FOUND`. -/
theorem getParm_unnamed (table : List str_map) (s : State) (key : String)
    (h : ∀ row ∈ table, row.desc.isSome → row.desc ≠ s.mParameters.get key) :
    s.getParm key table = NOT_FOUND := by
  unfold State.getParm
  cases hget : s.mParameters.get key with
  | none => rfl
  | some str =>
    apply attr_lookup_loop_not_found
    intro row hrow hdesc
    exact h row hrow (by simp [hdesc]) (by rw [hdesc, hget])

/-- C13: provided no code of the effect table and of the white-balance table
equals `NOT_FOUND`, `setEffect` returns, and it issues the effect command, with
the code of the named row, exactly when the parameter `effect` names a row of
the effect table whose code differs from `mEffect`; when a row is named,
`mEffect` is its code afterwards; when none is named, nothing is issued and
`mEffect` stays.  A second `setEffect` with the same parameters issues nothing.
The same holds for `setWhiteBalance`, the parameter `whitebalance`, the
white-balance table and `mWhiteBalance`. -/
theorem C13_effect_and_whitebalance_are_cached (c : CameraEnums) (env : Env) (s : State)
    (hE : ∀ row ∈ effect c, row.desc.isSome → row.val ≠ NOT_FOUND)
    (hW : ∀ row ∈ whitebalance c, row.desc.isSome → row.val ≠ NOT_FOUND) :
    (∃ s1, setEffect c env s = .ok ((), s1) ∧
      (∀ row ∈ effect c, row.desc.isSome → row.desc = s.mParameters.get "effect" →
        s1.mEffect = row.val ∧
        s1.trace = s.trace ++
          (if row.val ≠ s.mEffect then
            [Event.ioctl_ctrl_command s.mCameraControlFd .CAMERA_SET_PARM_EFFECT
              (.int32 row.val)]
           else [])) ∧
      ((∀ row ∈ effect c, row.desc.isSome → row.desc ≠ s.mParameters.get "effect") →
        s1.mEffect = s.mEffect ∧ s1.trace = s.trace) ∧
      (∀ env2 : Env, ∃ s2, setEffect c env2 s1 = .ok ((), s2) ∧ s2.trace = s1.trace)) ∧
    (∃ s1, setWhiteBalance c env s = .ok ((), s1) ∧
      (∀ row ∈ whitebalance c, row.desc.isSome →
        row.desc = s.mParameters.get "whitebalance" →
        s1.mWhiteBalance = row.val ∧
        s1.trace = s.trace ++
          (if row.val ≠ s.mWhiteBalance then
            [Event.ioctl_ctrl_command s.mCameraControlFd .CAMERA_SET_PARM_WB
              (.int32 row.val)]
           else [])) ∧
      ((∀ row ∈ whitebalance c, row.desc.isSome →
          row.desc ≠ s.mParameters.get "whitebalance") →
        s1.mWhiteBalance = s.mWhiteBalance ∧ s1.trace = s.trace) ∧
      (∀ env2 : Env, ∃ s2, setWhiteBalance c env2 s1 = .ok ((), s2) ∧
        s2.trace = s1.trace)) := by
  constructor
  · obtain ⟨_, s1, hrun, hs1⟩ := (wp_setEffect c env (fun _ s1 => s1 = _) s).2 rfl
    refine ⟨s1, hrun, ?_, ?_, ?_⟩
    · intro row hrow hsome hdesc
      have hv := getParm_named c (effect c) (by simp) s "effect" row hrow hsome hdesc
      have hnf := hE row hrow hsome
      rw [hv] at hs1
      by_cases hne : row.val ≠ s.mEffect
      · rw [if_pos ⟨hnf, hne⟩] at hs1
        rw [if_pos hne, hs1]
        exact ⟨rfl, rfl⟩
      · rw [if_neg (fun h => hne h.2)] at hs1
        rw [if_neg hne, hs1]
        exact ⟨(not_not.1 hne).symm, by simp⟩
    · intro hno
      have hv := getParm_unnamed (effect c) s "effect" hno
      rw [hv, if_neg (fun h => h.1 rfl)] at hs1
      rw [hs1]
      exact ⟨rfl, rfl⟩
    · intro env2
      obtain ⟨_, s2, hrun2, hs2⟩ := (wp_setEffect c env2 (fun _ s2 => s2 = _) s1).2 rfl
      refine ⟨s2, hrun2, ?_⟩
      have hp : s1.getParm "effect" (effect c) = s.getParm "effect" (effect c) := by
        rw [hs1]
        split <;> rfl
      rw [hp] at hs2
      have hcond : ¬ (s.getParm "effect" (effect c) ≠ NOT_FOUND ∧
          s.getParm "effect" (effect c) ≠ s1.mEffect) := by
        rw [hs1]
        split
        · exact fun h => h.2 rfl
        · assumption
      rw [if_neg hcond] at hs2
      rw [hs2]
  · obtain ⟨_, s1, hrun, hs1⟩ := (wp_setWhiteBalance c env (fun _ s1 => s1 = _) s).2 rfl
    refine ⟨s1, hrun, ?_, ?_, ?_⟩
    · intro row hrow hsome hdesc
      have hv := getParm_named c (whitebalance c) (by simp) s "whitebalance" row hrow hsome
        hdesc
      have hnf := hW row hrow hsome
      rw [hv] at hs1
      by_cases hne : row.val ≠ s.mWhiteBalance
      · rw [if_pos ⟨hnf, hne⟩] at hs1
        rw [if_pos hne, hs1]
        exact ⟨rfl, rfl⟩
      · rw [if_neg (fun h => hne h.2)] at hs1
        rw [if_neg hne, hs1]
        exact ⟨(not_not.1 hne).symm, by simp⟩
    · intro hno
      have hv := getParm_unnamed (whitebalance c) s "whitebalance" hno
      rw [hv, if_neg (fun h => h.1 rfl)] at hs1
      rw [hs1]
      exact ⟨rfl, rfl⟩
    · intro env2
      obtain ⟨_, s2, hrun2, hs2⟩ := (wp_setWhiteBalance c env2 (fun _ s2 => s2 = _) s1).2 rfl
      refine ⟨s2, hrun2, ?_⟩
      have hp : s1.getParm "whitebalance" (whitebalance c) =
          s.getParm "whitebalance" (whitebalance c) := by
        rw [hs1]
        split <;> rfl
      rw [hp] at hs2
      have hcond : ¬ (s.getParm "whitebalance" (whitebalance c) ≠ NOT_FOUND ∧
          s.getParm "whitebalance" (whitebalance c) ≠ s1.mWhiteBalance) := by
        rw [hs1]
        split
        · exact fun h => h.2 rfl
        · assumption
      rw [if_neg hcond] at hs2
      rw [hs2]

theorem C13_effect_and_whitebalance_are_cached_witness :
    ∃ s1, setEffect CameraEnums.sample Env.allSucceed State.live = .ok ((), s1) ∧
      s1.mEffect = 7 ∧
      s1.trace =
        [Event.ioctl_ctrl_command 20 .CAMERA_SET_PARM_EFFECT (.int32 7)] :=
  match (C13_effect_and_whitebalance_are_cached CameraEnums.sample Env.allSucceed State.live
    (by decide) (by decide)).1 with
  | ⟨s1, h, hnamed, _, _⟩ =>
    ⟨s1, h, hnamed { desc := some "sepia", val := 7 } (by decide) rfl rfl⟩

/-! ## Zoom -/

theorem wp_native_get_maxzoom (env : Env) (fd : Int) (Q : Bool → State → Prop) (s : State) :
    wp (native_get_maxzoom env fd) Q s ↔
      if (env.reply s.tick).rc < 0 then
        Q false { s with
          trace := s.trace ++ [.ioctl_ctrl_command fd .CAMERA_GET_PARM_MAXZOOM .null]
          tick := s.tick + 1 }
      else
        Q true { s with
          maxZoom := wrap32 (env.reply s.tick).value
          trace := s.trace ++ [.ioctl_ctrl_command fd .CAMERA_GET_PARM_MAXZOOM .null]
          tick := s.tick + 1 } := by
  unfold native_get_maxzoom
  by_cases h : (env.reply s.tick).rc < 0
  · simp [wp_bind, wp_call, wp_pure, h]
  · simp [wp_bind, wp_call, wp_pure, wp_modifyS, h]

/-- What `setZoom` does once the maximum zoom is known. -/
theorem wp_setZoom_known (c : CameraEnums) (env : Env) (Q : Unit → State → Prop) (s : State)
    (hknown : s.maxZoom ≠ -1) :
    wp (setZoom c env) Q s ↔
      Q () { s with
        ZOOM_STEP := zoomStep c s
        trace := s.trace ++ zoomEvents c s
        tick := s.tick + (zoomEvents c s).length / 2 } := by
  unfold setZoom
  simp only [wp_bind, wp_getS, if_neg hknown, wp_pure]
  by_cases hsize : s.getParm "picture-size" (picturesize c) ≠ NOT_FOUND
  · by_cases hr : 0 ≤ zoomValue c s ∧ zoomValue c s ≤ s.maxZoom
    · have hr2 := hr
      unfold zoomValue zoomStep at hr2
      rw [if_pos hsize] at hr2
      have he : zoomEvents c s = _ := if_pos hr
      rw [he]
      simp only [zoomValue, zoomStep, if_pos hsize]
      simp [wp_bind, wp_getS, wp_pure, wp_modifyS, wp_native_set_parm, wp_emit, hsize, hr2]
    · have hr2 := hr
      unfold zoomValue zoomStep at hr2
      rw [if_pos hsize] at hr2
      have he : zoomEvents c s = _ := if_neg hr
      rw [he]
      simp only [zoomValue, zoomStep, if_pos hsize]
      simp [wp_bind, wp_getS, wp_pure, wp_modifyS, hsize, hr2]
  · by_cases hr : 0 ≤ zoomValue c s ∧ zoomValue c s ≤ s.maxZoom
    · have hr2 := hr
      unfold zoomValue zoomStep at hr2
      rw [if_neg hsize] at hr2
      have he : zoomEvents c s = _ := if_pos hr
      rw [he]
      simp only [zoomValue, zoomStep, if_neg hsize]
      simp [wp_bind, wp_getS, wp_pure, wp_native_set_parm, wp_emit, hsize, hr2]
    · have hr2 := hr
      unfold zoomValue zoomStep at hr2
      rw [if_neg hsize] at hr2
      have he : zoomEvents c s = _ := if_neg hr
      rw [he]
      simp only [zoomValue, zoomStep, if_neg hsize]
      simp [wp_bind, wp_getS, wp_pure, hsize, hr2]

/-- The zoom step is the same after `setZoom` has stored it. -/
theorem zoomEvents_stable (c : CameraEnums) (s : State) (t : List Event) (k : Nat) :
    zoomEvents c { s with ZOOM_STEP := zoomStep c s, trace := t, tick := k } =
      zoomEvents c s := by
  have hstep : zoomStep c { s with ZOOM_STEP := zoomStep c s, trace := t, tick := k } =
      zoomStep c s := by
    unfold zoomStep State.getParm
    dsimp only
    split <;> rfl
  unfold zoomEvents zoomValue
  rw [hstep]

/-- C14: in `State.live` the maximum zoom is known to be 12, the picture size
fixes the step 4 and the zoom is 1.  The first `setZoom` issues the zoom command
with value 4, and a second `setZoom` with the same parameters issues the same
command again: no zoom last applied is kept.  In the same state `setEffect` and
`setWhiteBalance`, which compare with `mEffect` and `mWhiteBalance`, issue their
command on the first call and nothing on the second. -/
theorem C14_second_setZoom_issues_the_command_again :
    (poststate (setZoom CameraEnums.sample Env.allSucceed State.live)).bind
      (fun s1 => (poststate (setZoom CameraEnums.sample Env.allSucceed s1)).map
        fun s2 => (s1.trace, s2.trace.drop s1.trace.length)) =
      some ([Event.ioctl_ctrl_command 20 .CAMERA_SET_PARM_ZOOM (.int32 4), Event.usleep 30000],
        [Event.ioctl_ctrl_command 20 .CAMERA_SET_PARM_ZOOM (.int32 4),
          Event.usleep 30000]) ∧
    (poststate (setEffect CameraEnums.sample Env.allSucceed State.live)).bind
      (fun s1 => (poststate (setEffect CameraEnums.sample Env.allSucceed s1)).map
        fun s2 => (s1.trace, s2.trace.drop s1.trace.length)) =
      some ([Event.ioctl_ctrl_command 20 .CAMERA_SET_PARM_EFFECT (.int32 7)], []) ∧
    (poststate (setWhiteBalance CameraEnums.sample Env.allSucceed State.live)).bind
      (fun s1 => (poststate (setWhiteBalance CameraEnums.sample Env.allSucceed s1)).map
        fun s2 => (s1.trace, s2.trace.drop s1.trace.length)) =
      some ([Event.ioctl_ctrl_command 20 .CAMERA_SET_PARM_WB (.int32 5)], []) := by
  decide!

/-- The general form of the repetition: `setZoom` keeps no zoom last applied.
When the maximum zoom is known (`maxZoom ≠ -1`) and `setZoom` is called twice
in a row with the same parameters, both calls return and the second makes the
same calls as the first: the zoom command with the value step times zoom,
followed by the delay, when that value is between 0 and `maxZoom`, and no call
otherwise. -/
theorem setZoom_repeats_the_first_call (c : CameraEnums) (env env2 : Env) (s : State)
    (hknown : s.maxZoom ≠ -1) :
    ∃ s1 s2, setZoom c env s = .ok ((), s1) ∧ setZoom c env2 s1 = .ok ((), s2) ∧
      s1.trace = s.trace ++ zoomEvents c s ∧
      s2.trace = s1.trace ++ zoomEvents c s ∧
      (zoomEvents c s ≠ [] ↔ 0 ≤ zoomValue c s ∧ zoomValue c s ≤ s.maxZoom) := by
  obtain ⟨_, s1, hrun, hs1⟩ := (wp_setZoom_known c env (fun _ s1 => s1 = _) s hknown).2 rfl
  have hknown1 : s1.maxZoom ≠ -1 := by rw [hs1]; exact hknown
  obtain ⟨_, s2, hrun2, hs2⟩ := (wp_setZoom_known c env2 (fun _ s2 => s2 = _) s1 hknown1).2 rfl
  refine ⟨s1, s2, hrun, hrun2, by rw [hs1], ?_, ?_⟩
  · rw [hs2]
    show s1.trace ++ zoomEvents c s1 = _
    rw [hs1, zoomEvents_stable]
  · unfold zoomEvents
    split <;> simp [*]

/-! ## Live updates from `setParameters` -/

theorem zoomEvents_maxZoom (c : CameraEnums) (s : State) (m : Int) :
    zoomEvents c { s with maxZoom := m } =
      if 0 ≤ zoomValue c s ∧ zoomValue c s ≤ m then
        [Event.ioctl_ctrl_command s.mCameraControlFd .CAMERA_SET_PARM_ZOOM
           (.int32 (zoomValue c s)),
         Event.usleep 30000]
      else [] := rfl

/-- What `setZoom` does when the maximum zoom has to be fetched first. -/
theorem wp_setZoom_unknown (c : CameraEnums) (env : Env) (Q : Unit → State → Prop) (s : State)
    (hunk : s.maxZoom = -1) :
    wp (setZoom c env) Q s ↔
      Q () (if (env.reply s.tick).rc < 0 then
        { s with
          trace := s.trace ++
            [.ioctl_ctrl_command s.mCameraControlFd .CAMERA_GET_PARM_MAXZOOM .null]
          tick := s.tick + 1 }
      else
        { s with
          maxZoom := wrap32 (env.reply s.tick).value
          ZOOM_STEP := zoomStep c s
          trace := s.trace ++
            [.ioctl_ctrl_command s.mCameraControlFd .CAMERA_GET_PARM_MAXZOOM .null] ++
            zoomEvents c { s with maxZoom := wrap32 (env.reply s.tick).value }
          tick := s.tick + 1 +
            (zoomEvents c { s with maxZoom := wrap32 (env.reply s.tick).value }).length / 2 }) := by
  unfold setZoom
  simp only [wp_bind, wp_getS, if_pos hunk, wp_native_get_maxzoom]
  by_cases hrc : (env.reply s.tick).rc < 0
  · simp [hrc, wp_pure]
  · simp only [if_neg hrc]
    by_cases hsize : s.getParm "picture-size" (picturesize c) ≠ NOT_FOUND
    · by_cases hr : 0 ≤ zoomValue c s ∧ zoomValue c s ≤ wrap32 (env.reply s.tick).value
      · have hr2 := hr
        unfold zoomValue zoomStep at hr2
        rw [if_pos hsize] at hr2
        rw [zoomEvents_maxZoom, if_pos hr]
        simp only [zoomValue, zoomStep, if_pos hsize]
        simp [wp_bind, wp_getS, wp_pure, wp_modifyS, wp_native_set_parm, wp_emit, hsize, hr2]
        try exact Iff.rfl
      · have hr2 := hr
        unfold zoomValue zoomStep at hr2
        rw [if_pos hsize] at hr2
        rw [zoomEvents_maxZoom, if_neg hr]
        simp only [zoomValue, zoomStep, if_pos hsize]
        simp [wp_bind, wp_getS, wp_pure, wp_modifyS, hsize, hr2]
        try exact Iff.rfl
    · by_cases hr : 0 ≤ zoomValue c s ∧ zoomValue c s ≤ wrap32 (env.reply s.tick).value
      · have hr2 := hr
        unfold zoomValue zoomStep at hr2
        rw [if_neg hsize] at hr2
        rw [zoomEvents_maxZoom, if_pos hr]
        simp only [zoomValue, zoomStep, if_neg hsize]
        simp [wp_bind, wp_getS, wp_pure, wp_native_set_parm, wp_emit, hsize, hr2]
        try exact Iff.rfl
      · have hr2 := hr
        unfold zoomValue zoomStep at hr2
        rw [if_neg hsize] at hr2
        rw [zoomEvents_maxZoom, if_neg hr]
        simp only [zoomValue, zoomStep, if_neg hsize]
        simp [wp_bind, wp_getS, wp_pure, hsize, hr2]
        try exact Iff.rfl

/-- With a supported preview size and the preview running, `setParameters`
stores the parameters and then runs `setEffect`, `setWhiteBalance` and
`setZoom`, in this order. -/
theorem wp_setParameters_running (c : CameraEnums) (env : Env) (params : CameraParameters)
    (s : State) (ps : preview_size_type) (hps : ps ∈ preview_sizes)
    (hsize : params.getPreviewSize = (ps.width, ps.height))
    (hrun : s.mCameraRunning = true) (Q : Int → State → Prop) :
    wp (setParameters c env params) Q s ↔
      wp (setEffect c env) (fun _ s1 =>
        wp (setWhiteBalance c env) (fun _ s2 =>
          wp (setZoom c env) (fun _ s3 => Q NO_ERROR s3) s2) s1)
        { s with
          mPreviewWidth := ps.width
          mPreviewHeight := ps.height
          mRawWidth := params.getPictureSize.1
          mRawHeight := params.getPictureSize.2
          mDimension :=
            { s.mDimension with
              display_width := ps.width
              display_height := ps.height
              picture_width := params.getPictureSize.1
              picture_height := params.getPictureSize.2
              ui_thumbnail_width :=
                if params.getInt "jpeg-thumbnail-width" < 0 then THUMBNAIL_WIDTH
                else params.getInt "jpeg-thumbnail-width"
              ui_thumbnail_height :=
                if params.getInt "jpeg-thumbnail-height" < 0 then THUMBNAIL_HEIGHT
                else params.getInt "jpeg-thumbnail-height" }
          mParameters := params } := by
  simp only [preview_sizes, List.mem_cons, List.mem_singleton, List.not_mem_nil, or_false] at hps
  unfold setParameters
  rcases hps with rfl | rfl | rfl | rfl <;>
    simp [hsize, preview_sizes, List.find?, wp_bind, wp_modifyS, wp_getS, hrun, wp_pure]

theorem setEffect_run (c : CameraEnums) (env : Env) (s : State) :
    ∃ s1, setEffect c env s = .ok ((), s1) ∧ s1.trace = s.trace ++ effectEvents c s ∧
      s1.mParameters = s.mParameters ∧ s1.mWhiteBalance = s.mWhiteBalance ∧
      s1.mCameraControlFd = s.mCameraControlFd ∧ s1.ZOOM_STEP = s.ZOOM_STEP ∧
      s1.maxZoom = s.maxZoom := by
  obtain ⟨_, s1, hrun, hs1⟩ := (wp_setEffect c env (fun _ s1 => s1 = _) s).2 rfl
  refine ⟨s1, hrun, ?_⟩
  rw [hs1]
  unfold effectEvents
  split <;> simp

theorem setWhiteBalance_run (c : CameraEnums) (env : Env) (s : State) :
    ∃ s1, setWhiteBalance c env s = .ok ((), s1) ∧
      s1.trace = s.trace ++ whiteBalanceEvents c s ∧
      s1.mParameters = s.mParameters ∧
      s1.mCameraControlFd = s.mCameraControlFd ∧ s1.ZOOM_STEP = s.ZOOM_STEP ∧
      s1.maxZoom = s.maxZoom := by
  obtain ⟨_, s1, hrun, hs1⟩ := (wp_setWhiteBalance c env (fun _ s1 => s1 = _) s).2 rfl
  refine ⟨s1, hrun, ?_⟩
  rw [hs1]
  unfold whiteBalanceEvents
  split <;> simp

theorem setZoom_run (c : CameraEnums) (env : Env) (s : State) :
    ∃ s1 Z, setZoom c env s = .ok ((), s1) ∧ s1.trace = s.trace ++ Z ∧
      s1.mParameters = s.mParameters ∧
      (s.maxZoom ≠ -1 → Z = zoomEvents c s) ∧
      (s.maxZoom = -1 → ∃ r : Reply,
        Z = Event.ioctl_ctrl_command s.mCameraControlFd .CAMERA_GET_PARM_MAXZOOM .null ::
          (if r.rc < 0 then [] else zoomEvents c { s with maxZoom := wrap32 r.value })) := by
  by_cases hz : s.maxZoom = -1
  · obtain ⟨_, s1, hrun, hs1⟩ := (wp_setZoom_unknown c env (fun _ s1 => s1 = _) s hz).2 rfl
    by_cases hrc : (env.reply s.tick).rc < 0
    · rw [if_pos hrc] at hs1
      refine ⟨s1, _, hrun, by rw [hs1], by rw [hs1], fun h => absurd hz h, fun _ => ?_⟩
      exact ⟨env.reply s.tick, by rw [if_pos hrc]⟩
    · rw [if_neg hrc] at hs1
      refine ⟨s1, Event.ioctl_ctrl_command s.mCameraControlFd .CAMERA_GET_PARM_MAXZOOM .null ::
        zoomEvents c { s with maxZoom := wrap32 (env.reply s.tick).value }, hrun, ?_,
        by rw [hs1], fun h => absurd hz h, fun _ => ?_⟩
      · rw [hs1]
        simp
      · exact ⟨env.reply s.tick, by rw [if_neg hrc]⟩
  · obtain ⟨_, s1, hrun, hs1⟩ := (wp_setZoom_known c env (fun _ s1 => s1 = _) s hz).2 rfl
    exact ⟨s1, _, hrun, by rw [hs1], by rw [hs1], fun _ => rfl, fun h => absurd h hz⟩

/-- C25: when the set-dimension command of `initRaw` fails, `takePicture` returns
`UNKNOWN_ERROR` through its first `return`, which stands before the `unlock()`:
the lock `mSnapshotThreadWaitLock` is still held.  A later `takePicture` and a
later `initPreview` then stop at their `lock()`.  On the path through the thread
creation the lock is released, whether the thread could be created or not. -/
theorem C25_failed_initRaw_leaves_lock_held :
    State.qvga.mSnapshotThreadWaitLock = false ∧
    retval (takePicture (Env.failAt 0) State.qvga) = some UNKNOWN_ERROR ∧
    (poststate (takePicture (Env.failAt 0) State.qvga)).map
      (fun s => s.mSnapshotThreadWaitLock) = some true ∧
    (poststate (takePicture (Env.failAt 0) State.qvga)).bind
      (fun s => haltOf (takePicture Env.allSucceed s)) = some Halt.blocked ∧
    (poststate (takePicture (Env.failAt 0) State.qvga)).bind
      (fun s => haltOf (initPreview Env.allSucceed s)) = some Halt.blocked ∧
    retval (takePicture Env.allSucceed State.qvga) = some NO_ERROR ∧
    (poststate (takePicture Env.allSucceed State.qvga)).map
      (fun s => s.mSnapshotThreadWaitLock) = some false ∧
    retval (takePicture (Env.failAt 7) State.qvga) = some UNKNOWN_ERROR ∧
    (poststate (takePicture (Env.failAt 7) State.qvga)).map
      (fun s => s.mSnapshotThreadWaitLock) = some false := by
  decide!

/-- C21: in `initRaw` started with no pool allocated, the thumbnail and raw pools
are created and the jpeg pool cannot be mapped (call 7 answers `MAP_FAILED`).
`initRaw` clears the jpeg pool and the raw pool and returns false, and the
thumbnail pool is still allocated. -/
theorem C21_failed_jpeg_pool_keeps_thumbnail_pool :
    State.qvgaCompressed.mThumbnailHeap.isSome = false ∧
    State.qvgaCompressed.mRawHeap.isSome = false ∧
    State.qvgaCompressed.mJpegHeap.isSome = false ∧
    (Env.jpegMapFails.reply 7).value = MAP_FAILED ∧
    (poststate (initRaw Env.jpegMapFails true State.qvgaCompressed)).map
      (fun s => (s.trace.drop 7).head?) = some (some (Event.new_MemoryHeapBase 2883584)) ∧
    retval (initRaw Env.jpegMapFails true State.qvgaCompressed) = some false ∧
    (poststate (initRaw Env.jpegMapFails true State.qvgaCompressed)).map
      (fun s => s.mThumbnailHeap.isSome) = some true ∧
    (poststate (initRaw Env.jpegMapFails true State.qvgaCompressed)).map
      (fun s => (s.mRawHeap.isSome, s.mJpegHeap.isSome, s.mRawInitialized)) =
      some (false, false, false) := by
  decide!

/-! ## `clp2` on all 32-bit values -/

/-- C29: on 32-bit unsigned values, for `1 ≤ x ≤ 2^31` the result of `clp2` is a
power of two that is at least `x` and at most every power of two that is at
least `x`; it is below `2 * x`, it equals `x` exactly when `x` is a power of
two, and applying `clp2` again changes nothing.  For `x = 0` and for
`x > 2^31` the result is 0, which is below `x` when `x > 0`. -/
theorem C29_clp2_on_all_32_bit_values (x : Nat) (hx : x < 2 ^ 32) :
    (1 ≤ x → x ≤ 2 ^ 31 →
      ∃ k, clp2 x = 2 ^ k ∧ x ≤ clp2 x ∧ (∀ j, x ≤ 2 ^ j → clp2 x ≤ 2 ^ j) ∧
        clp2 x < 2 * x ∧ (clp2 x = x ↔ ∃ j, x = 2 ^ j) ∧ clp2 (clp2 x) = clp2 x) ∧
    (x = 0 ∨ 2 ^ 31 < x → clp2 x = 0) ∧
    (2 ^ 31 < x → clp2 x < x) := by
  have hleast : ∀ y k, clp2 y = 2 ^ k → 2 ^ k < 2 * y → ∀ j, y ≤ 2 ^ j → clp2 y ≤ 2 ^ j := by
    intro y k hk hlt j hj
    rw [hk]
    have h2 : 2 ^ k < 2 ^ (j + 1) := by
      rw [Nat.pow_succ]
      omega
    have hkj : k < j + 1 := (Nat.pow_lt_pow_iff_right (by decide)).1 h2
    exact Nat.pow_le_pow_right (by decide) (by omega)
  have hbig : 2 ^ 31 < x → clp2 x = 0 := by
    intro h
    rw [clp2_eq_smear x (by omega) hx, smear_eq (x - 1) 31 (by decide) (by omega) (by omega)]
    decide
  refine ⟨?_, ?_, ?_⟩
  · intro h1 h2
    obtain ⟨k, hk, hle, hlt⟩ := clp2_spec x h1 h2
    have hl := hleast x k hk hlt
    refine ⟨k, hk, by rw [hk]; exact hle, hl, by rw [hk]; exact hlt, ?_, ?_⟩
    · constructor
      · intro h
        exact ⟨k, by rw [← h, hk]⟩
      · rintro ⟨j, hj⟩
        have := hl j (by rw [hj])
        rw [hk] at this ⊢
        omega
    · have hk31 : 2 ^ k ≤ 2 ^ 31 := by
        have h3 : 2 ^ k < 2 ^ 32 := by omega
        have : k < 32 := (Nat.pow_lt_pow_iff_right (by decide)).1 h3
        exact Nat.pow_le_pow_right (by decide) (by omega)
      have hpos : 1 ≤ 2 ^ k := Nat.one_le_two_pow
      obtain ⟨k2, hk2, hle2, hlt2⟩ := clp2_spec (2 ^ k) hpos hk31
      have h4 := hleast (2 ^ k) k2 hk2 hlt2 k (le_refl _)
      rw [hk, hk2]
      rw [hk2] at h4
      omega
  · rintro (h | h)
    · subst h
      decide
    · exact hbig h
  · intro h
    rw [hbig h]
    omega

theorem C29_clp2_on_all_32_bit_values_witness :
    clp2 (clp2 614400) = clp2 614400 ∧ clp2 (2 ^ 31 + 1) = 0 :=
  have h := C29_clp2_on_all_32_bit_values 614400 (by decide)
  have h2 := C29_clp2_on_all_32_bit_values (2 ^ 31 + 1) (by decide)
  ⟨(h.1 (by decide) (by decide)).elim fun _ hk => hk.2.2.2.2.2, h2.2.1 (Or.inr (by decide))⟩

/-! ## Assembly of the JPEG fragments -/

/-- One fragment: what `receiveJpegPictureFragment` copies and stores. -/
theorem receiveJpegPictureFragment_step (s : State) (jpeg : AshmemPool) (heap : MemoryHeap)
    (n : Nat) (hjpeg : s.mJpegHeap = some jpeg) (hheap : jpeg.mHeap = some heap)
    (hJ : 0 ≤ s.mJpegSize) (hJH : s.mJpegSize ≤ heap.size) (hH : heap.size < 2 ^ 31)
    (hn : n < 2 ^ 32) :
    receiveJpegPictureFragment n s = .ok ((),
      { s with
        mJpegSize := s.mJpegSize + min (n : Int) (heap.size - s.mJpegSize)
        trace := s.trace ++ [Event.memcpy (heap.base + s.mJpegSize)
          (min (n : Int) (heap.size - s.mJpegSize)).toNat] }) := by
  have hrem : ((toU32 (heap.size - s.mJpegSize) : Nat) : Int) = heap.size - s.mJpegSize :=
    toU32_of_nonneg _ (by omega) (by omega)
  have hmod : n % 2 ^ 32 = n := Nat.mod_eq_of_lt hn
  unfold receiveJpegPictureFragment
  simp only [bind_apply, M.bind, getS, hjpeg, hheap, hmod]
  by_cases hgt : n > toU32 (heap.size - s.mJpegSize)
  · have hmin : min (n : Int) (heap.size - s.mJpegSize) = heap.size - s.mJpegSize := by
      omega
    have hnat : (heap.size - s.mJpegSize).toNat = toU32 (heap.size - s.mJpegSize) := by
      omega
    simp only [if_pos hgt, emit, modifyS, hmin, hnat, hrem]
    rw [wrap32_of_range _ (by omega) (by omega), hjpeg]
  · have hmin : min (n : Int) (heap.size - s.mJpegSize) = n := by omega
    simp only [if_neg hgt, emit, modifyS, hmin, Int.toNat_ofNat]
    rw [wrap32_of_range _ (by omega) (by omega), hjpeg]

/-- Any sequence of fragments keeps the accumulated size between its old value
and the size of the heap. -/
theorem receiveJpegPictureFragment_sequence (jpeg : AshmemPool) (heap : MemoryHeap)
    (hheap : jpeg.mHeap = some heap) (hH : heap.size < 2 ^ 31) (ns : List Nat) :
    ∀ s : State, s.mJpegHeap = some jpeg → 0 ≤ s.mJpegSize → s.mJpegSize ≤ heap.size →
      (∀ n ∈ ns, n < 2 ^ 32) →
      ∃ s1, forEach ns receiveJpegPictureFragment s = .ok ((), s1) ∧
        s.mJpegSize ≤ s1.mJpegSize ∧ s1.mJpegSize ≤ heap.size ∧
        s1.mJpegHeap = some jpeg := by
  induction ns with
  | nil =>
    intro s hjpeg _ hJH _
    exact ⟨s, rfl, le_refl _, hJH, hjpeg⟩
  | cons n rest ih =>
    intro s hjpeg hJ hJH hns
    have hstep := receiveJpegPictureFragment_step s jpeg heap n hjpeg hheap hJ hJH hH
      (hns n (List.mem_cons_self _ _))
    obtain ⟨s1, hrun, hle, hH1, hjpeg1⟩ := ih
      { s with
        mJpegSize := s.mJpegSize + min (n : Int) (heap.size - s.mJpegSize)
        trace := s.trace ++ [Event.memcpy (heap.base + s.mJpegSize)
          (min (n : Int) (heap.size - s.mJpegSize)).toNat] } hjpeg
      (by show 0 ≤ s.mJpegSize + min (n : Int) (heap.size - s.mJpegSize); omega)
      (by show s.mJpegSize + min (n : Int) (heap.size - s.mJpegSize) ≤ heap.size; omega)
      (fun m hm => hns m (List.mem_cons_of_mem _ hm))
    refine ⟨s1, ?_, ?_, hH1, hjpeg1⟩
    · show M.bind _ _ s = _
      unfold M.bind
      rw [hstep]
      exact hrun
    · have : s.mJpegSize ≤ s.mJpegSize + min (n : Int) (heap.size - s.mJpegSize) := by omega
      exact le_trans this hle

/-- C26: with a jpeg heap of size `H` (an `int`, so below `2^31`), an accumulated
size `J` with `0 ≤ J ≤ H` and a fragment of `n` bytes (`n < 2^32`),
`receiveJpegPictureFragment` returns, copies `min(n, H - J)` bytes to the address
`base + J` and sets the accumulated size to `J + min(n, H - J)`.  After any
sequence of fragments the accumulated size is at least `J` and at most `H`. -/
theorem C26_fragments_stay_inside_the_jpeg_heap (s : State) (jpeg : AshmemPool)
    (heap : MemoryHeap) (hjpeg : s.mJpegHeap = some jpeg) (hheap : jpeg.mHeap = some heap)
    (hJ : 0 ≤ s.mJpegSize) (hJH : s.mJpegSize ≤ heap.size) (hH : heap.size < 2 ^ 31) :
    (∀ n : Nat, n < 2 ^ 32 →
      ∃ s1, receiveJpegPictureFragment n s = .ok ((), s1) ∧
        s1.trace = s.trace ++ [Event.memcpy (heap.base + s.mJpegSize)
          (min (n : Int) (heap.size - s.mJpegSize)).toNat] ∧
        s1.mJpegSize = s.mJpegSize + min (n : Int) (heap.size - s.mJpegSize) ∧
        s.mJpegSize ≤ s1.mJpegSize ∧ s1.mJpegSize ≤ heap.size ∧
        s1.mJpegHeap = s.mJpegHeap) ∧
    (∀ ns : List Nat, (∀ n ∈ ns, n < 2 ^ 32) →
      ∃ s1, forEach ns receiveJpegPictureFragment s = .ok ((), s1) ∧
        s.mJpegSize ≤ s1.mJpegSize ∧ s1.mJpegSize ≤ heap.size ∧
        s1.mJpegHeap = s.mJpegHeap) := by
  constructor
  · intro n hn
    refine ⟨_, receiveJpegPictureFragment_step s jpeg heap n hjpeg hheap hJ hJH hH hn,
      rfl, rfl, ?_, ?_, rfl⟩
    · show s.mJpegSize ≤ s.mJpegSize + min (n : Int) (heap.size - s.mJpegSize)
      omega
    · show s.mJpegSize + min (n : Int) (heap.size - s.mJpegSize) ≤ heap.size
      omega
  · intro ns hns
    obtain ⟨s1, hrun, h1, h2, h3⟩ :=
      receiveJpegPictureFragment_sequence jpeg heap hheap hH ns s hjpeg hJ hJH hns
    exact ⟨s1, hrun, h1, h2, by rw [h3, hjpeg]⟩

theorem C26_fragments_stay_inside_the_jpeg_heap_witness :
    ∃ s1, receiveJpegPictureFragment 1000 State.jpegAssembly = .ok ((), s1) ∧
      s1.trace = [Event.memcpy (0x40000000 + 2883000) 584] ∧ s1.mJpegSize = 2883584 :=
  match (C26_fragments_stay_inside_the_jpeg_heap State.jpegAssembly AshmemPool.sample
    { heapID := 0, base := 0x40000000, size := 2883584 } rfl rfl (by decide) (by decide)
    (by decide)).1 1000 (by decide) with
  | ⟨s1, h, htrace, hsize, _⟩ => ⟨s1, h, htrace, hsize⟩

/-! ## The value `setZoom` sends -/

theorem wrap32_of_int_range (x : Int) (h0 : -2 ^ 31 ≤ x) (h1 : x < 2 ^ 31) : wrap32 x = x := by
  unfold wrap32 toS32 toU32
  split <;> omega

/-- The step `setZoom` uses for each picture size, when the three size codes
differ from each other and from `NOT_FOUND`. -/
theorem zoomStep_cases (c : CameraEnums) (s : State)
    (h12 : c.SHOT_1M_SIZE ≠ c.SHOT_2M_SIZE) (h13 : c.SHOT_1M_SIZE ≠ c.SHOT_3M_SIZE)
    (h23 : c.SHOT_2M_SIZE ≠ c.SHOT_3M_SIZE)
    (h1 : c.SHOT_1M_SIZE ≠ NOT_FOUND) (h2 : c.SHOT_2M_SIZE ≠ NOT_FOUND)
    (h3 : c.SHOT_3M_SIZE ≠ NOT_FOUND) :
    (s.mParameters.get "picture-size" = some "1024x768" → zoomStep c s = 4) ∧
    (s.mParameters.get "picture-size" = some "1600x1200" → zoomStep c s = 2) ∧
    (s.mParameters.get "picture-size" = some "2048x1536" → zoomStep c s = 0) ∧
    ((∀ row ∈ picturesize c, row.desc.isSome →
        row.desc ≠ s.mParameters.get "picture-size") → zoomStep c s = s.ZOOM_STEP) := by
  refine ⟨?_, ?_, ?_, ?_⟩
  · intro h
    have hv : s.getParm "picture-size" (picturesize c) = c.SHOT_1M_SIZE :=
      getParm_named c (picturesize c) (by simp) s "picture-size"
        { desc := some "1024x768", val := c.SHOT_1M_SIZE } (by simp [picturesize]) rfl h.symm
    unfold zoomStep
    rw [hv, if_pos h1, if_pos rfl]
  · intro h
    have hv : s.getParm "picture-size" (picturesize c) = c.SHOT_2M_SIZE :=
      getParm_named c (picturesize c) (by simp) s "picture-size"
        { desc := some "1600x1200", val := c.SHOT_2M_SIZE } (by simp [picturesize]) rfl h.symm
    unfold zoomStep
    rw [hv, if_pos h2, if_neg (Ne.symm h12), if_pos rfl]
  · intro h
    have hv : s.getParm "picture-size" (picturesize c) = c.SHOT_3M_SIZE :=
      getParm_named c (picturesize c) (by simp) s "picture-size"
        { desc := some "2048x1536", val := c.SHOT_3M_SIZE } (by simp [picturesize]) rfl h.symm
    unfold zoomStep
    rw [hv, if_pos h3, if_neg (Ne.symm h13), if_neg (Ne.symm h23)]
  · intro h
    have hv := getParm_unnamed (picturesize c) s "picture-size" h
    unfold zoomStep
    rw [hv, if_neg (fun hne => hne rfl)]

theorem mem_zoomEvents (c : CameraEnums) (s : State) (v : Int) :
    Event.ioctl_ctrl_command s.mCameraControlFd .CAMERA_SET_PARM_ZOOM (.int32 v) ∈
        zoomEvents c s ↔
      (0 ≤ zoomValue c s ∧ zoomValue c s ≤ s.maxZoom) ∧ v = zoomValue c s := by
  unfold zoomEvents
  split
  · rename_i h
    simp [h, eq_comm]
  · rename_i h
    simp [h]

/-- C28: provided the three picture-size codes differ from each other and from
`NOT_FOUND`: the step is 4 for picture-size 1024x768, 2 for 1600x1200, 0 for
2048x1536, and the `ZOOM_STEP` left by the previous call (0 at the start) when
picture-size is absent or names no row; the value is step times zoom as an `int32_t` (the exact
product when it fits), so it is 0 for 2048x1536.  `setZoom` returns, every zoom
command it issues carries that value, which lies between 0 and the maximum
zoom, and it issues one exactly when the maximum zoom is known or has just been
fetched and the value lies between 0 and the maximum zoom. -/
theorem C28_setZoom_sends_only_in_range_values (c : CameraEnums) (env : Env) (s : State)
    (h12 : c.SHOT_1M_SIZE ≠ c.SHOT_2M_SIZE) (h13 : c.SHOT_1M_SIZE ≠ c.SHOT_3M_SIZE)
    (h23 : c.SHOT_2M_SIZE ≠ c.SHOT_3M_SIZE)
    (h1 : c.SHOT_1M_SIZE ≠ NOT_FOUND) (h2 : c.SHOT_2M_SIZE ≠ NOT_FOUND)
    (h3 : c.SHOT_3M_SIZE ≠ NOT_FOUND) :
    ((s.mParameters.get "picture-size" = some "1024x768" → zoomStep c s = 4) ∧
     (s.mParameters.get "picture-size" = some "1600x1200" → zoomStep c s = 2) ∧
     (s.mParameters.get "picture-size" = some "2048x1536" → zoomStep c s = 0) ∧
     ((∀ row ∈ picturesize c, row.desc.isSome →
        row.desc ≠ s.mParameters.get "picture-size") → zoomStep c s = s.ZOOM_STEP)) ∧
    (-2 ^ 31 ≤ zoomStep c s * s.mParameters.getInt "zoom" →
      zoomStep c s * s.mParameters.getInt "zoom" < 2 ^ 31 →
      zoomValue c s = zoomStep c s * s.mParameters.getInt "zoom") ∧
    (s.mParameters.get "picture-size" = some "2048x1536" → zoomValue c s = 0) ∧
    State.init.ZOOM_STEP = 0 ∧
    ∃ s1 Z, setZoom c env s = .ok ((), s1) ∧ s1.trace = s.trace ++ Z ∧
      (∀ v, Event.ioctl_ctrl_command s.mCameraControlFd .CAMERA_SET_PARM_ZOOM (.int32 v) ∈ Z →
        v = zoomValue c s ∧ 0 ≤ v ∧ v ≤ s1.maxZoom) ∧
      ((∃ v, Event.ioctl_ctrl_command s.mCameraControlFd .CAMERA_SET_PARM_ZOOM (.int32 v) ∈ Z) ↔
        (s.maxZoom ≠ -1 ∨ 0 ≤ (env.reply s.tick).rc) ∧
          0 ≤ zoomValue c s ∧ zoomValue c s ≤ s1.maxZoom) ∧
      (s.maxZoom ≠ -1 → s1.maxZoom = s.maxZoom) ∧
      (s.maxZoom = -1 → 0 ≤ (env.reply s.tick).rc →
        s1.maxZoom = wrap32 (env.reply s.tick).value) ∧
      (s.maxZoom ≠ -1 ∨ 0 ≤ (env.reply s.tick).rc → s1.ZOOM_STEP = zoomStep c s) := by
  have hsteps := zoomStep_cases c s h12 h13 h23 h1 h2 h3
  refine ⟨hsteps, ?_, ?_, rfl, ?_⟩
  · intro hlo hhi
    unfold zoomValue cmul
    exact wrap32_of_int_range _ hlo hhi
  · intro h
    unfold zoomValue cmul
    rw [hsteps.2.2.1 h, zero_mul]
    rfl
  · by_cases hz : s.maxZoom = -1
    · obtain ⟨_, s1, hrun, hs1⟩ := (wp_setZoom_unknown c env (fun _ s1 => s1 = _) s hz).2 rfl
      by_cases hrc : (env.reply s.tick).rc < 0
      · rw [if_pos hrc] at hs1
        refine ⟨s1, [Event.ioctl_ctrl_command s.mCameraControlFd .CAMERA_GET_PARM_MAXZOOM .null],
          hrun, by rw [hs1], ?_, ?_, fun h => absurd hz h, fun _ h => by omega, ?_⟩
        · intro v hv
          simp at hv
        · constructor
          · rintro ⟨v, hv⟩
            simp at hv
          · rintro ⟨h | h, _⟩
            · exact absurd hz h
            · omega
        · rintro (h | h)
          · exact absurd hz h
          · omega
      · rw [if_neg hrc] at hs1
        have hmem : ∀ v,
            Event.ioctl_ctrl_command s.mCameraControlFd .CAMERA_SET_PARM_ZOOM (.int32 v) ∈
              Event.ioctl_ctrl_command s.mCameraControlFd .CAMERA_GET_PARM_MAXZOOM .null ::
                zoomEvents c { s with maxZoom := wrap32 (env.reply s.tick).value } ↔
            (0 ≤ zoomValue c s ∧ zoomValue c s ≤ wrap32 (env.reply s.tick).value) ∧
              v = zoomValue c s := by
          intro v
          rw [List.mem_cons]
          have := mem_zoomEvents c { s with maxZoom := wrap32 (env.reply s.tick).value } v
          constructor
          · rintro (h | h)
            · cases h
            · exact this.1 h
          · intro h
            exact Or.inr (this.2 h)
        have hmax : s1.maxZoom = wrap32 (env.reply s.tick).value := by rw [hs1]
        refine ⟨s1, Event.ioctl_ctrl_command s.mCameraControlFd .CAMERA_GET_PARM_MAXZOOM .null ::
          zoomEvents c { s with maxZoom := wrap32 (env.reply s.tick).value },
          hrun, by rw [hs1]; simp, ?_, ?_, fun h => absurd hz h, fun _ _ => hmax,
          fun _ => by rw [hs1]⟩
        · intro v hv
          obtain ⟨⟨h0, hle⟩, hv⟩ := (hmem v).1 hv
          rw [hmax, hv]
          exact ⟨rfl, h0, hle⟩
        · rw [hmax]
          constructor
          · rintro ⟨v, hv⟩
            obtain ⟨hr, _⟩ := (hmem v).1 hv
            exact ⟨Or.inr (by omega), hr⟩
          · rintro ⟨_, hr⟩
            exact ⟨_, (hmem _).2 ⟨hr, rfl⟩⟩
    · obtain ⟨_, s1, hrun, hs1⟩ := (wp_setZoom_known c env (fun _ s1 => s1 = _) s hz).2 rfl
      have hmax : s1.maxZoom = s.maxZoom := by rw [hs1]
      refine ⟨s1, zoomEvents c s, hrun, by rw [hs1], ?_, ?_, fun _ => hmax,
        fun h => absurd h hz, fun _ => by rw [hs1]⟩
      · intro v hv
        obtain ⟨⟨h0, hle⟩, hv⟩ := (mem_zoomEvents c s v).1 hv
        rw [hmax, hv]
        exact ⟨rfl, h0, hle⟩
      · rw [hmax]
        constructor
        · rintro ⟨v, hv⟩
          obtain ⟨hr, _⟩ := (mem_zoomEvents c s v).1 hv
          exact ⟨Or.inl hz, hr⟩
        · rintro ⟨_, hr⟩
          exact ⟨_, (mem_zoomEvents c s _).2 ⟨hr, rfl⟩⟩

theorem C28_setZoom_sends_only_in_range_values_witness :
    zoomStep CameraEnums.sample State.live = 4 ∧
    ∃ s1 Z, setZoom CameraEnums.sample Env.allSucceed State.live = .ok ((), s1) ∧
      s1.trace = State.live.trace ++ Z ∧
      ∀ v, Event.ioctl_ctrl_command 20 .CAMERA_SET_PARM_ZOOM (.int32 v) ∈ Z →
        v = zoomValue CameraEnums.sample State.live ∧ 0 ≤ v ∧ v ≤ s1.maxZoom :=
  match C28_setZoom_sends_only_in_range_values CameraEnums.sample Env.allSucceed State.live
    (by decide) (by decide) (by decide) (by decide) (by decide) (by decide) with
  | ⟨hstep, _, _, _, s1, Z, hrun, htrace, hsent, _⟩ =>
    ⟨hstep.1 rfl, s1, Z, hrun, htrace, hsent⟩

/-! ## Recording frames -/

/-- A video frame delivered while the released flag is set: no wait, and the
flag is reset. -/
theorem receivePreviewFrame_released (env : Env) (frame : msm_frame_t) (s : State)
    (buffer : MemoryBase) (hready : s.videoFrameReady frame buffer)
    (hflag : s.mReleasedRecordingFrame = true) :
    receivePreviewFrame env frame s = .ok ((),
      { s with
        mInPreviewCallback := false
        mReleasedRecordingFrame := false
        trace := s.trace ++ videoFrameEvents s buffer }) := by
  obtain ⟨hrun, hvideo, hsize, pool, heap, hpool, hheap, hidx, hbuf⟩ := hready
  have hat : pool.val.toMemPool.bufferAt
      (previewFrameIndex s.mPreviewFrameSize frame.buffer heap.base) = pure buffer := by
    unfold MemPool.bufferAt
    rw [if_neg (by omega), hbuf]
  unfold receivePreviewFrame
  simp only [bind_apply, M.bind, getS, hrun, hpool, hheap, hsize, hat, hvideo]
  unfold videoFrameEvents
  cases hprev : s.msgEnabled CAMERA_MSG_PREVIEW_FRAME <;>
    simp [bind_apply, M.bind, getS, modifyS, emit, pure_apply, M.pure, hflag, hpool, hrun]

/-- A video frame delivered while the released flag is clear: the callback asks
for the release and waits. -/
theorem receivePreviewFrame_waits (env : Env) (frame : msm_frame_t) (s : State)
    (buffer : MemoryBase) (hready : s.videoFrameReady frame buffer)
    (hflag : s.mReleasedRecordingFrame = false) :
    receivePreviewFrame env frame s = .error Halt.blocked := by
  obtain ⟨hrun, hvideo, hsize, pool, heap, hpool, hheap, hidx, hbuf⟩ := hready
  have hat : pool.val.toMemPool.bufferAt
      (previewFrameIndex s.mPreviewFrameSize frame.buffer heap.base) = pure buffer := by
    unfold MemPool.bufferAt
    rw [if_neg (by omega), hbuf]
  unfold receivePreviewFrame
  simp only [bind_apply, M.bind, getS, hrun, hpool, hheap, hsize, hat, hvideo]
  cases hprev : s.msgEnabled CAMERA_MSG_PREVIEW_FRAME <;>
    simp [bind_apply, M.bind, getS, modifyS, emit, pure_apply, M.pure, hflag, call, halt]

/-- C24: in every state `releaseRecordingFrame` returns (it waits on no
condition), having asked the library to release the frame and set
`mReleasedRecordingFrame`.  A video frame that `receivePreviewFrame` delivers
next finds the flag set: it returns without asking for a release and without
waiting, and resets the flag.  The video frame after that finds the flag clear
and waits. -/
theorem C24_releaseRecordingFrame_lets_one_frame_through (env : Env) (s : State) :
    ∃ s1, releaseRecordingFrame env s = .ok ((), s1) ∧
      s1 = { s with
        mReleasedRecordingFrame := true
        trace := s.trace ++ [Event.cam_release_frame]
        tick := s.tick + 1 } ∧
      ∀ (env2 : Env) (frame : msm_frame_t) (buffer : MemoryBase),
        s.videoFrameReady frame buffer →
        ∃ s2, receivePreviewFrame env2 frame s1 = .ok ((), s2) ∧
          s2.mReleasedRecordingFrame = false ∧
          s2.trace = s1.trace ++ videoFrameEvents s buffer ∧
          Event.cam_release_frame ∉ videoFrameEvents s buffer ∧
          ∀ (env3 : Env) (frame3 : msm_frame_t) (buffer3 : MemoryBase),
            s.videoFrameReady frame3 buffer3 →
            receivePreviewFrame env3 frame3 s2 = .error Halt.blocked := by
  refine ⟨_, rfl, rfl, ?_⟩
  intro env2 frame buffer hready
  refine ⟨_, receivePreviewFrame_released env2 frame _ buffer hready rfl, rfl, rfl, ?_, ?_⟩
  · unfold videoFrameEvents
    split <;> simp
  · intro env3 frame3 buffer3 hready3
    exact receivePreviewFrame_waits env3 frame3 _ buffer3 hready3 rfl

theorem C24_releaseRecordingFrame_lets_one_frame_through_witness :
    ∃ s1, releaseRecordingFrame Env.allSucceed State.recording = .ok ((), s1) ∧
      ∃ s2, receivePreviewFrame Env.allSucceed { buffer := 0x40000000 } s1 = .ok ((), s2) ∧
        s2.mReleasedRecordingFrame = false ∧
        receivePreviewFrame Env.allSucceed { buffer := 0x40000000 } s2 =
          .error Halt.blocked :=
  have hready : State.recording.videoFrameReady { buffer := 0x40000000 }
      { heap := some { heapID := 0, base := 0x40000000, size := 1048576 },
        offset := 0, size := 115200 } :=
    ⟨rfl, by decide, by decide, PreviewPmemPool.sample,
      { heapID := 0, base := 0x40000000, size := 1048576 }, rfl, rfl, by decide, by decide⟩
  match C24_releaseRecordingFrame_lets_one_frame_through Env.allSucceed State.recording with
  | ⟨s1, h1, _, hnext⟩ =>
    match hnext Env.allSucceed { buffer := 0x40000000 } _ hready with
    | ⟨s2, h2, hflag, _, _, hwait⟩ =>
      ⟨s1, h1, s2, h2, hflag, hwait Env.allSucceed { buffer := 0x40000000 } _ hready⟩

/-! ## GPS parameters of the encode thread -/

set_option maxRecDepth 8192 in
/-- C30: for each of the tables `antibanding`, `effect`, `whitebalance` and
`picturesize`, whatever the enumeration codes are, `INIT_VALUES_FOR` on a null
variable writes inside its buffer and produces the names of the table in table
order joined by single commas, with no comma at the end; for `picturesize` this
is the literal the source advertises.  The bytes written, terminator included,
number 19, 71, 61 and 29, and the buffers hold 150, 300, 240 and 120 bytes.  On
a variable that is set `INIT_VALUES_FOR` leaves the string as it is. -/
theorem C30_supported_values_strings (c : CameraEnums) :
    (INIT_VALUES_FOR (antibanding c) none = .ok (some "off,50hz,60hz,auto") ∧
      INIT_VALUES_FOR (effect c) none = .ok (some
        "none,mono,negative,solarize,sepia,posterize,whiteboard,blackboard,aqua") ∧
      INIT_VALUES_FOR (whitebalance c) none = .ok (some
        "auto,incandescent,fluorescent,daylight,cloudy,twilight,shade") ∧
      INIT_VALUES_FOR (picturesize c) none = .ok (some "2048x1536,1600x1200,1024x768")) ∧
    (INIT_VALUES_FOR (antibanding c) none = .ok (some
        (String.intercalate "," ((antibanding c).filterMap fun r => r.desc))) ∧
      INIT_VALUES_FOR (effect c) none = .ok (some
        (String.intercalate "," ((effect c).filterMap fun r => r.desc))) ∧
      INIT_VALUES_FOR (whitebalance c) none = .ok (some
        (String.intercalate "," ((whitebalance c).filterMap fun r => r.desc))) ∧
      INIT_VALUES_FOR (picturesize c) none = .ok (some
        (String.intercalate "," ((picturesize c).filterMap fun r => r.desc)))) ∧
    (defaultParameters "" "" "").map (fun p => p.get "picture-size-values") =
      some (some "2048x1536,1600x1200,1024x768") ∧
    (INIT_VALUES_bytes (antibanding c) = 19 ∧ (antibanding c).length * 30 = 150 ∧
      INIT_VALUES_bytes (effect c) = 71 ∧ (effect c).length * 30 = 300 ∧
      INIT_VALUES_bytes (whitebalance c) = 61 ∧ (whitebalance c).length * 30 = 240 ∧
      INIT_VALUES_bytes (picturesize c) = 29 ∧ (picturesize c).length * 30 = 120) ∧
    (∀ (parm : List str_map) (values : String),
      INIT_VALUES_FOR parm (some values) = .ok (some values)) := by
  exact ⟨⟨rfl, rfl, rfl, rfl⟩, ⟨rfl, rfl, rfl, rfl⟩, rfl,
    ⟨rfl, rfl, rfl, rfl, rfl, rfl, rfl, rfl⟩, fun _ _ => rfl⟩
/-- With a supported preview size `setParameters` returns `NO_ERROR` in every
state and stores the parameter set. -/
theorem setParameters_returns (c : CameraEnums) (env : Env) (params : CameraParameters)
    (s : State) (ps : preview_size_type) (hps : ps ∈ preview_sizes)
    (hsize : params.getPreviewSize = (ps.width, ps.height)) :
    ∃ s1, setParameters c env params s = .ok (NO_ERROR, s1) ∧ s1.mParameters = params := by
  cases hrun : s.mCameraRunning with
  | false => exact ⟨_, setParameters_accept c env params s ps hps hsize hrun, rfl⟩
  | true =>
    have hwp := wp_setParameters_running c env params s ps hps hsize hrun
      (fun r s1 => r = NO_ERROR ∧ s1.mParameters = params)
    obtain ⟨s1, hE, _, hEp, _⟩ := setEffect_run c env
      { s with
        mPreviewWidth := ps.width
        mPreviewHeight := ps.height
        mRawWidth := params.getPictureSize.1
        mRawHeight := params.getPictureSize.2
        mDimension :=
          { s.mDimension with
            display_width := ps.width
            display_height := ps.height
            picture_width := params.getPictureSize.1
            picture_height := params.getPictureSize.2
            ui_thumbnail_width :=
              if params.getInt "jpeg-thumbnail-width" < 0 then THUMBNAIL_WIDTH
              else params.getInt "jpeg-thumbnail-width"
            ui_thumbnail_height :=
              if params.getInt "jpeg-thumbnail-height" < 0 then THUMBNAIL_HEIGHT
              else params.getInt "jpeg-thumbnail-height" }
        mParameters := params }
    obtain ⟨s2, hW, _, hWp, _⟩ := setWhiteBalance_run c env s1
    obtain ⟨s3, Z, hZ, _, hZp, _⟩ := setZoom_run c env s2
    obtain ⟨a, s4, hrun4, ha, hp4⟩ := hwp.2 ((wp_of_eq _ _ _ _ _ hE).2
      ((wp_of_eq _ _ _ _ _ hW).2 ((wp_of_eq _ _ _ _ _ hZ).2 ⟨rfl, by rw [hZp, hWp, hEp]⟩)))
    subst ha
    exact ⟨s4, hrun4, hp4⟩

/-- The macro `INIT_VALUES_FOR` on one of the four tables returns a string. -/
theorem initValues_returns (c : CameraEnums) (parm : List str_map)
    (hparm : parm ∈ [antibanding c, effect c, whitebalance c, picturesize c])
    (values : Option String) :
    ∃ str, initValues parm values = pure (some str) := by
  cases values with
  | some v => exact ⟨v, rfl⟩
  | none =>
    simp only [List.mem_cons, List.mem_singleton, List.not_mem_nil, or_false] at hparm
    rcases hparm with rfl | rfl | rfl | rfl <;> exact ⟨_, rfl⟩

/-- C27: the default preview size `preview_sizes[DEFAULT_PREVIEW_SETTING]` is
320x240, the supported-sizes string of the default parameter set lists 320x240,
240x160 and 192x144, each of these is an entry of `preview_sizes`, and
`setParameters` returns `NO_ERROR` for every parameter set that asks for one of
them, in every state.  In particular `setParameters` returns `NO_ERROR` on the
default parameter set, and so does the call of it in `initDefaultParameters`. -/
theorem C27_advertised_preview_sizes_are_accepted (c : CameraEnums) (env : Env) (s : State) :
    preview_sizes[DEFAULT_PREVIEW_SETTING]? = some { width := 320, height := 240 } ∧
    listedSizes "320x240,240x160,192x144" = [(320, 240), (240, 160), (192, 144)] ∧
    (∀ ab eff wb : String, ∃ p, defaultParameters ab eff wb = some p ∧
      p.getPreviewSize = (320, 240) ∧
      p.get "preview-size-values" = some "320x240,240x160,192x144" ∧
      ∃ s1, setParameters c env p s = .ok (NO_ERROR, s1) ∧ s1.mParameters = p) ∧
    (∀ size ∈ (320, 240) :: listedSizes "320x240,240x160,192x144",
      (∃ ps ∈ preview_sizes, (ps.width, ps.height) = size) ∧
      ∀ params : CameraParameters, params.getPreviewSize = size →
        ∃ s1, setParameters c env params s = .ok (NO_ERROR, s1) ∧
          s1.mParameters = params) ∧
    (∃ s1, initDefaultParameters c env s = .ok (NO_ERROR, s1)) := by
  have hlist : listedSizes "320x240,240x160,192x144" = [(320, 240), (240, 160), (192, 144)] := by
    decide
  have hdefault : ∀ ab eff wb : String, ∃ p, defaultParameters ab eff wb = some p ∧
      p.getPreviewSize = (320, 240) ∧
      p.get "preview-size-values" = some "320x240,240x160,192x144" :=
    fun ab eff wb => ⟨_, rfl, rfl, rfl⟩
  refine ⟨rfl, hlist, ?_, ?_, ?_⟩
  · intro ab eff wb
    obtain ⟨p, hp, hsize, hget⟩ := hdefault ab eff wb
    exact ⟨p, hp, hsize, hget,
      setParameters_returns c env p s ⟨320, 240⟩ (by decide) hsize⟩
  · rw [hlist]
    intro size hsize
    simp only [List.mem_cons, List.mem_singleton, List.not_mem_nil, or_false] at hsize
    rcases hsize with rfl | rfl | rfl | rfl
    · exact ⟨⟨⟨320, 240⟩, by decide, rfl⟩, fun params h =>
        setParameters_returns c env params s ⟨320, 240⟩ (by decide) h⟩
    · exact ⟨⟨⟨320, 240⟩, by decide, rfl⟩, fun params h =>
        setParameters_returns c env params s ⟨320, 240⟩ (by decide) h⟩
    · exact ⟨⟨⟨240, 160⟩, by decide, rfl⟩, fun params h =>
        setParameters_returns c env params s ⟨240, 160⟩ (by decide) h⟩
    · exact ⟨⟨⟨192, 144⟩, by decide, rfl⟩, fun params h =>
        setParameters_returns c env params s ⟨192, 144⟩ (by decide) h⟩
  · obtain ⟨ab, hab⟩ := initValues_returns c (antibanding c) (by simp) s.antibanding_values
    obtain ⟨eff, heff⟩ := initValues_returns c (effect c) (by simp) s.effect_values
    obtain ⟨wb, hwb⟩ := initValues_returns c (whitebalance c) (by simp) s.whitebalance_values
    obtain ⟨pic, hpic⟩ := initValues_returns c (picturesize c) (by simp) s.picturesize_values
    obtain ⟨p, hp, hsize, _⟩ := hdefault ab eff wb
    unfold initDefaultParameters
    simp only [bind_apply, M.bind, getS, hab, heff, hwb, hpic, pure_apply, M.pure, modifyS,
      Option.getD_some, hp]
    obtain ⟨s1, hs1, _⟩ := setParameters_returns c env p _ ⟨320, 240⟩ (by decide) hsize
    exact ⟨s1, hs1⟩

theorem C27_advertised_preview_sizes_are_accepted_witness :
    (∃ s1, setParameters CameraEnums.sample Env.allSucceed CameraParameters.qvga
      State.opened = .ok (NO_ERROR, s1) ∧ s1.mParameters = CameraParameters.qvga) ∧
    ∃ s1, initDefaultParameters CameraEnums.sample Env.allSucceed State.init =
      .ok (NO_ERROR, s1) :=
  have h := C27_advertised_preview_sizes_are_accepted CameraEnums.sample Env.allSucceed
    State.opened
  have h2 := C27_advertised_preview_sizes_are_accepted CameraEnums.sample Env.allSucceed
    State.init
  ⟨(h.2.2.2.1 (320, 240) (List.mem_cons_self _ _)).2 CameraParameters.qvga rfl, h2.2.2.2.2⟩

/-! ## The shutter notification -/

/-- The default parameter set answers the keys that `setPreviewSize` and
`setPictureSize` store with the default sizes. -/
theorem defaultParameters_sizes (ab eff wb : String) :
    (defaultParameters ab eff wb).map (fun p => (p.get "preview-size", p.get "picture-size")) =
      some (some "320x240", some "1600x1200") := by
  have h1 : sizeValue 320 240 = "320x240" := by decide
  have h2 : sizeValue DEFAULT_PICTURE_WIDTH DEFAULT_PICTURE_HEIGHT = "1600x1200" := by decide
  simp [defaultParameters, preview_sizes, DEFAULT_PREVIEW_SETTING, CameraParameters.ofPairs, h1, h2]

end QCam
